import Mathlib

/-!
# cai2hcl container cluster converter

A shallow embedding of
`mmv1/third_party/cai2hcl/services/container/container_cluster.go`
and the properties of its field-derivation rules.

Conventions of the embedding

* Go strings are `String`; a Go slice is a `List` (the nil slice is `[]`);
  a Go pointer is an `Option` (`nil` is `none`); `int64` is `Int` (the code
  only compares and copies these numbers).
* A Go `map[string]T` is an association list with distinct keys, written
  with `GoMap.set` (assignment `m[k] = v`), read with `GoMap.get` and
  measured with `GoMap.len` (`len(m)`).
* A run-time panic (nil pointer dereference, index out of range) is the
  `Except.error` side of `Except Fault _`; a Go result pair
  `(value, error)` is a Lean pair of options.
-/

set_option linter.dupNamespace false
set_option linter.unnecessarySeqFocus false

namespace Container

/-! ## Go maps -/

/-- A Go `map[string]T`: an association list whose keys are distinct. -/
abbrev GoMap (α : Type) := List (String × α)

/-- The assignment `m[k] = v`: any older entry for `k` is replaced. -/
def GoMap.set {α : Type} (m : GoMap α) (k : String) (v : α) : GoMap α :=
  (k, v) :: m.filter (fun p => p.1 != k)

/-- The lookup `v, ok := m[k]`. -/
def GoMap.get {α : Type} (m : GoMap α) (k : String) : Option α :=
  match m with
  | [] => none
  | (k', v) :: rest => if k' = k then some v else GoMap.get rest k

/-- The key test `_, ok := m[k]`. -/
def GoMap.has {α : Type} (m : GoMap α) (k : String) : Bool :=
  (GoMap.get m k).isSome

/-- The builtin `len(m)`. -/
def GoMap.len {α : Type} (m : GoMap α) : Nat :=
  m.length

/-! ## Run-time faults -/

/-- The run-time panics the converter can raise. -/
inductive Fault where
  | nilDereference
  | indexOutOfRange
  deriving DecidableEq, Repr

/-! ## Values stored in the derived attribute map (`map[string]interface{}`) -/

/-- The dynamic values the converter stores under a key of `hclData`. -/
inductive Value where
  | str (s : String)
  | int (n : Int)
  | bool (b : Bool)
  | strs (l : List String)
  | strMap (m : List (String × String))
  | blocks (l : List (List (String × Value)))

/-- The derived attribute map `hclData`. -/
abbrev HclMap := GoMap Value

/-! ## String helpers -/

/-- Go `strings.Split(s, sep)` for a one-character separator, on the
characters of the string: the pieces between the separators, `[s]` when the
separator does not occur (so `[""]` for the empty string). -/
def splitChars (sep : Char) : List Char → List (List Char)
  | [] => [[]]
  | c :: cs =>
    if c = sep then [] :: splitChars sep cs
    else
      match splitChars sep cs with
      | [] => [[c]]
      | p :: ps => (c :: p) :: ps

/-- Go `strings.Split(s, sep)` with `sep` a single character. -/
def stringsSplit (s : String) (sep : Char) : List String :=
  (splitChars sep s.data).map String.mk

/-- Source lines 450-454: `parts := strings.Split(path, "/")` and
`return parts[len(parts)-1]`; the index expression panics when it is out of
range. -/
def lastSegment (path : String) : Except Fault String :=
  let parts := stringsSplit path '/'
  match parts[parts.length - 1]? with
  | some part => Except.ok part
  | none => Except.error Fault.indexOutOfRange

/-- Source lines 456-465: the loop appends every location different from the
primary zone to `filteredLocations`, which starts as the nil slice. -/
def filterOutPrimaryZone (locations : List String) (primaryZone : String) : List String :=
  locations.foldl
    (fun filteredLocations location =>
      if location ≠ primaryZone then filteredLocations ++ [location] else filteredLocations)
    []

/-! ## The decoded cluster (`container.Cluster` of the GKE API client)

Only the fields the converter reads. Every field has the Go zero value as
its default. -/

/-- `container.DefaultSnatStatus`. -/
structure DefaultSnatStatus where
  Disabled : Bool := false

/-- `container.NetworkConfig`. -/
structure NetworkConfig where
  EnableIntraNodeVisibility : Bool := false
  DefaultSnatStatus : Option DefaultSnatStatus := none

/-- `container.IPAllocationPolicy`. -/
structure IPAllocationPolicy where
  UseIpAliases : Bool := false
  ClusterIpv4CidrBlock : String := ""
  ServicesIpv4CidrBlock : String := ""
  ClusterSecondaryRangeName : String := ""
  ServicesSecondaryRangeName : String := ""

/-- `container.CidrBlock`. -/
structure CidrBlock where
  CidrBlock : String := ""
  DisplayName : String := ""

/-- `container.MasterAuthorizedNetworksConfig`; `CidrBlocks` is a slice of
pointers. -/
structure MasterAuthorizedNetworksConfig where
  Enabled : Bool := false
  CidrBlocks : List (Option CidrBlock) := []

/-- `container.AcceleratorConfig`. -/
structure AcceleratorConfig where
  AcceleratorCount : Int := 0
  AcceleratorType : String := ""

/-- `container.WorkloadMetadataConfig`. -/
structure WorkloadMetadataConfig where
  Mode : String := ""

/-- `container.ShieldedInstanceConfig`. -/
structure ShieldedInstanceConfig where
  EnableSecureBoot : Bool := false
  EnableIntegrityMonitoring : Bool := false

/-- `container.NodeConfig`; `Accelerators` is a slice of pointers. -/
structure NodeConfig where
  MachineType : String := ""
  DiskSizeGb : Int := 0
  DiskType : String := ""
  OauthScopes : List String := []
  ServiceAccount : String := ""
  ImageType : String := ""
  Preemptible : Bool := false
  Labels : GoMap String := []
  Tags : List String := []
  Metadata : GoMap String := []
  MinCpuPlatform : String := ""
  Accelerators : List (Option AcceleratorConfig) := []
  WorkloadMetadataConfig : Option WorkloadMetadataConfig := none
  ShieldedInstanceConfig : Option ShieldedInstanceConfig := none

/-- `container.HttpLoadBalancing`. -/
structure HttpLoadBalancing where
  Disabled : Bool := false

/-- `container.HorizontalPodAutoscaling`. -/
structure HorizontalPodAutoscaling where
  Disabled : Bool := false

/-- `container.NetworkPolicyConfig`. -/
structure NetworkPolicyConfig where
  Disabled : Bool := false

/-- `container.DnsCacheConfig`. -/
structure DnsCacheConfig where
  Enabled : Bool := false

/-- `container.ConfigConnectorConfig`. -/
structure ConfigConnectorConfig where
  Enabled : Bool := false

/-- `container.GcePersistentDiskCsiDriverConfig`. -/
structure GcePersistentDiskCsiDriverConfig where
  Enabled : Bool := false

/-- `container.AddonsConfig`. -/
structure AddonsConfig where
  HttpLoadBalancing : Option HttpLoadBalancing := none
  HorizontalPodAutoscaling : Option HorizontalPodAutoscaling := none
  NetworkPolicyConfig : Option NetworkPolicyConfig := none
  DnsCacheConfig : Option DnsCacheConfig := none
  ConfigConnectorConfig : Option ConfigConnectorConfig := none
  GcePersistentDiskCsiDriverConfig : Option GcePersistentDiskCsiDriverConfig := none

/-- `container.PrivateClusterConfig`. -/
structure PrivateClusterConfig where
  EnablePrivateNodes : Bool := false
  EnablePrivateEndpoint : Bool := false
  MasterIpv4CidrBlock : String := ""

/-- `container.NetworkPolicy`. -/
structure NetworkPolicy where
  Enabled : Bool := false
  Provider : String := ""

/-- `container.DailyMaintenanceWindow`. -/
structure DailyMaintenanceWindow where
  StartTime : String := ""

/-- `container.TimeWindow`. -/
structure TimeWindow where
  StartTime : String := ""
  EndTime : String := ""

/-- `container.RecurringTimeWindow`; `Window` is a pointer. -/
structure RecurringTimeWindow where
  Window : Option TimeWindow := none
  Recurrence : String := ""

/-- `container.MaintenanceWindow`. -/
structure MaintenanceWindow where
  DailyMaintenanceWindow : Option DailyMaintenanceWindow := none
  RecurringWindow : Option RecurringTimeWindow := none

/-- `container.MaintenancePolicy`. -/
structure MaintenancePolicy where
  Window : Option MaintenanceWindow := none

/-- `container.WorkloadIdentityConfig`. -/
structure WorkloadIdentityConfig where
  WorkloadPool : String := ""

/-- `container.DatabaseEncryption`. -/
structure DatabaseEncryption where
  State : String := ""
  KeyName : String := ""

/-- `container.LegacyAbac`. -/
structure LegacyAbac where
  Enabled : Bool := false

/-- `container.BinaryAuthorization`. -/
structure BinaryAuthorization where
  Enabled : Bool := false

/-- `container.ReleaseChannel`. -/
structure ReleaseChannel where
  Channel : String := ""

/-- `container.Cluster`. -/
structure Cluster where
  Name : String := ""
  Description : String := ""
  Location : String := ""
  Zone : String := ""
  Network : String := ""
  Subnetwork : String := ""
  InitialNodeCount : Int := 0
  Locations : List String := []
  NetworkConfig : Option NetworkConfig := none
  ClusterIpv4Cidr : String := ""
  IpAllocationPolicy : Option IPAllocationPolicy := none
  MasterAuthorizedNetworksConfig : Option MasterAuthorizedNetworksConfig := none
  NodeConfig : Option NodeConfig := none
  AddonsConfig : Option AddonsConfig := none
  PrivateClusterConfig : Option PrivateClusterConfig := none
  NetworkPolicy : Option NetworkPolicy := none
  MaintenancePolicy : Option MaintenancePolicy := none
  WorkloadIdentityConfig : Option WorkloadIdentityConfig := none
  DatabaseEncryption : Option DatabaseEncryption := none
  LegacyAbac : Option LegacyAbac := none
  BinaryAuthorization : Option BinaryAuthorization := none
  ReleaseChannel : Option ReleaseChannel := none
  ResourceLabels : GoMap String := []

/-! ## The derivation rules of `convertResourceData` (source lines 99-436)

The body of `convertResourceData` between the decoding of the cluster and
the schema coercion fills `hclData` section by section. Each section is one
definition below, taking the map built so far and returning the map after
the section; a section that dereferences a pointer it has not tested, or
indexes a slice, returns in `Except Fault`. `ParseFieldValue` is the path
extractor `common.ParseFieldValue`, a parameter of the embedding. -/

/-- Lines 103-112, "Handle location - it could be a zone or a region". -/
def locationRule (ParseFieldValue : String → String → String) (assetName : String)
    (cluster : Cluster) (hclData : HclMap) : HclMap :=
  let location := ParseFieldValue assetName "locations"
  if location ≠ "" then
    GoMap.set hclData "location" (Value.str location)
  else if cluster.Location ≠ "" then
    GoMap.set hclData "location" (Value.str cluster.Location)
  else
    GoMap.set hclData "zone" (Value.str (ParseFieldValue cluster.Zone "zones"))

/-- Lines 114-117: the network short name. -/
def networkRule (cluster : Cluster) (hclData : HclMap) : Except Fault HclMap :=
  if cluster.Network ≠ "" then
    match lastSegment cluster.Network with
    | Except.ok segment => Except.ok (GoMap.set hclData "network" (Value.str segment))
    | Except.error fault => Except.error fault
  else
    Except.ok hclData

/-- Lines 119-122: the subnetwork short name. -/
def subnetworkRule (cluster : Cluster) (hclData : HclMap) : Except Fault HclMap :=
  if cluster.Subnetwork ≠ "" then
    match lastSegment cluster.Subnetwork with
    | Except.ok segment => Except.ok (GoMap.set hclData "subnetwork" (Value.str segment))
    | Except.error fault => Except.error fault
  else
    Except.ok hclData

/-- Lines 124-127, "Handle initial node count". -/
def initialNodeCountRule (cluster : Cluster) (hclData : HclMap) : HclMap :=
  if cluster.InitialNodeCount > 0 then
    GoMap.set hclData "initial_node_count" (Value.int cluster.InitialNodeCount)
  else
    hclData

/-- Lines 129-132, "Extract node locations". -/
def nodeLocationsRule (cluster : Cluster) (hclData : HclMap) : HclMap :=
  if cluster.Locations.length > 0 then
    GoMap.set hclData "node_locations"
      (Value.strs (filterOutPrimaryZone cluster.Locations cluster.Zone))
  else
    hclData

/-- Lines 134-147, "Handle networking configurations". -/
def networkConfigRule (cluster : Cluster) (hclData : HclMap) : HclMap :=
  match cluster.NetworkConfig with
  | none => hclData
  | some networkConfig =>
    let hclData :=
      if networkConfig.EnableIntraNodeVisibility then
        GoMap.set hclData "enable_intranode_visibility"
          (Value.bool networkConfig.EnableIntraNodeVisibility)
      else
        hclData
    match networkConfig.DefaultSnatStatus with
    | none => hclData
    | some status =>
      GoMap.set hclData "default_snat_status"
        (Value.blocks [[("disabled", Value.bool status.Disabled)]])

/-- Lines 149-152, "Handle cluster ipv4 cidr". -/
def clusterIpv4CidrRule (cluster : Cluster) (hclData : HclMap) : HclMap :=
  if cluster.ClusterIpv4Cidr ≠ "" then
    GoMap.set hclData "cluster_ipv4_cidr" (Value.str cluster.ClusterIpv4Cidr)
  else
    hclData

/-- Lines 156-176: the map `ipAllocationPolicy` before the length test. -/
def ipAllocationPolicyMap (policy : IPAllocationPolicy) : GoMap Value :=
  let ipAllocationPolicy : GoMap Value := []
  let ipAllocationPolicy :=
    if policy.UseIpAliases then
      GoMap.set ipAllocationPolicy "use_ip_aliases" (Value.bool policy.UseIpAliases)
    else ipAllocationPolicy
  let ipAllocationPolicy :=
    if policy.ClusterIpv4CidrBlock ≠ "" then
      GoMap.set ipAllocationPolicy "cluster_ipv4_cidr_block"
        (Value.str policy.ClusterIpv4CidrBlock)
    else ipAllocationPolicy
  let ipAllocationPolicy :=
    if policy.ServicesIpv4CidrBlock ≠ "" then
      GoMap.set ipAllocationPolicy "services_ipv4_cidr_block"
        (Value.str policy.ServicesIpv4CidrBlock)
    else ipAllocationPolicy
  let ipAllocationPolicy :=
    if policy.ClusterSecondaryRangeName ≠ "" then
      GoMap.set ipAllocationPolicy "cluster_secondary_range_name"
        (Value.str policy.ClusterSecondaryRangeName)
    else ipAllocationPolicy
  let ipAllocationPolicy :=
    if policy.ServicesSecondaryRangeName ≠ "" then
      GoMap.set ipAllocationPolicy "services_secondary_range_name"
        (Value.str policy.ServicesSecondaryRangeName)
    else ipAllocationPolicy
  ipAllocationPolicy

/-- Lines 154-181, "Handle IP allocation policy". -/
def ipAllocationPolicyRule (cluster : Cluster) (hclData : HclMap) : HclMap :=
  match cluster.IpAllocationPolicy with
  | none => hclData
  | some policy =>
    let ipAllocationPolicy := ipAllocationPolicyMap policy
    if GoMap.len ipAllocationPolicy > 0 then
      GoMap.set hclData "ip_allocation_policy" (Value.blocks [ipAllocationPolicy])
    else
      hclData

/-- Lines 192-198: the loop over `CidrBlocks`, appending one map per entry to
`cidrBlocks`; reading a field of a nil entry panics. -/
def cidrBlocksLoop : List (Option CidrBlock) → List (GoMap Value) →
    Except Fault (List (GoMap Value))
  | [], cidrBlocks => Except.ok cidrBlocks
  | none :: _, _ => Except.error Fault.nilDereference
  | some cidrBlock :: rest, cidrBlocks =>
    cidrBlocksLoop rest
      (cidrBlocks ++ [[("cidr_block", Value.str cidrBlock.CidrBlock),
                       ("display_name", Value.str cidrBlock.DisplayName)]])

/-- Lines 183-205, "Handle master authorized networks config". -/
def masterAuthorizedNetworksConfigRule (cluster : Cluster) (hclData : HclMap) :
    Except Fault HclMap :=
  match cluster.MasterAuthorizedNetworksConfig with
  | none => Except.ok hclData
  | some config =>
    let masterAuthorizedNetworksConfig : GoMap Value := []
    let masterAuthorizedNetworksConfig :=
      GoMap.set masterAuthorizedNetworksConfig "enabled" (Value.bool config.Enabled)
    let filled : Except Fault (GoMap Value) :=
      if config.CidrBlocks.length > 0 then
        match cidrBlocksLoop config.CidrBlocks [] with
        | Except.ok cidrBlocks =>
          Except.ok (GoMap.set masterAuthorizedNetworksConfig "cidr_blocks"
            (Value.blocks cidrBlocks))
        | Except.error fault => Except.error fault
      else
        Except.ok masterAuthorizedNetworksConfig
    match filled with
    | Except.error fault => Except.error fault
    | Except.ok masterAuthorizedNetworksConfig =>
      if GoMap.len masterAuthorizedNetworksConfig > 0 then
        Except.ok (GoMap.set hclData "master_authorized_networks_config"
          (Value.blocks [masterAuthorizedNetworksConfig]))
      else
        Except.ok hclData

/-- Lines 257-263: the loop over `Accelerators`, appending one map per entry
to `accelerators`; reading a field of a nil entry panics. -/
def acceleratorsLoop : List (Option AcceleratorConfig) → List (GoMap Value) →
    Except Fault (List (GoMap Value))
  | [], accelerators => Except.ok accelerators
  | none :: _, _ => Except.error Fault.nilDereference
  | some accelerator :: rest, accelerators =>
    acceleratorsLoop rest
      (accelerators ++ [[("count", Value.int accelerator.AcceleratorCount),
                         ("type", Value.str accelerator.AcceleratorType)]])

/-- Lines 209-253: the scalar and collection leaves of `nodeConfig`. -/
def nodeConfigLeaves (config : NodeConfig) : GoMap Value :=
  let nodeConfig : GoMap Value := []
  let nodeConfig :=
    if config.MachineType ≠ "" then
      GoMap.set nodeConfig "machine_type" (Value.str config.MachineType)
    else nodeConfig
  let nodeConfig :=
    if config.DiskSizeGb > 0 then
      GoMap.set nodeConfig "disk_size_gb" (Value.int config.DiskSizeGb)
    else nodeConfig
  let nodeConfig :=
    if config.DiskType ≠ "" then
      GoMap.set nodeConfig "disk_type" (Value.str config.DiskType)
    else nodeConfig
  let nodeConfig :=
    if config.OauthScopes.length > 0 then
      GoMap.set nodeConfig "oauth_scopes" (Value.strs config.OauthScopes)
    else nodeConfig
  let nodeConfig :=
    if config.ServiceAccount ≠ "" then
      GoMap.set nodeConfig "service_account" (Value.str config.ServiceAccount)
    else nodeConfig
  let nodeConfig :=
    if config.ImageType ≠ "" then
      GoMap.set nodeConfig "image_type" (Value.str config.ImageType)
    else nodeConfig
  let nodeConfig :=
    if config.Preemptible then
      GoMap.set nodeConfig "preemptible" (Value.bool config.Preemptible)
    else nodeConfig
  let nodeConfig :=
    if GoMap.len config.Labels > 0 then
      GoMap.set nodeConfig "labels" (Value.strMap config.Labels)
    else nodeConfig
  let nodeConfig :=
    if config.Tags.length > 0 then
      GoMap.set nodeConfig "tags" (Value.strs config.Tags)
    else nodeConfig
  let nodeConfig :=
    if GoMap.len config.Metadata > 0 then
      GoMap.set nodeConfig "metadata" (Value.strMap config.Metadata)
    else nodeConfig
  let nodeConfig :=
    if config.MinCpuPlatform ≠ "" then
      GoMap.set nodeConfig "min_cpu_platform" (Value.str config.MinCpuPlatform)
    else nodeConfig
  nodeConfig

/-- Lines 267-280: the workload metadata and shielded instance sub-blocks of
`nodeConfig`. -/
def nodeConfigSubBlocks (config : NodeConfig) (nodeConfig : GoMap Value) : GoMap Value :=
  let nodeConfig :=
    match config.WorkloadMetadataConfig with
    | none => nodeConfig
    | some workload =>
      let workloadMetadataConfig : GoMap Value := []
      let workloadMetadataConfig :=
        GoMap.set workloadMetadataConfig "mode" (Value.str workload.Mode)
      GoMap.set nodeConfig "workload_metadata_config" (Value.blocks [workloadMetadataConfig])
  match config.ShieldedInstanceConfig with
  | none => nodeConfig
  | some shielded =>
    let shieldedInstanceConfig : GoMap Value := []
    let shieldedInstanceConfig :=
      GoMap.set shieldedInstanceConfig "enable_secure_boot"
        (Value.bool shielded.EnableSecureBoot)
    let shieldedInstanceConfig :=
      GoMap.set shieldedInstanceConfig "enable_integrity_monitoring"
        (Value.bool shielded.EnableIntegrityMonitoring)
    GoMap.set nodeConfig "shielded_instance_config" (Value.blocks [shieldedInstanceConfig])

/-- Lines 207-286, "Handle node config". -/
def nodeConfigRule (cluster : Cluster) (hclData : HclMap) : Except Fault HclMap :=
  match cluster.NodeConfig with
  | none => Except.ok hclData
  | some config =>
    let nodeConfig := nodeConfigLeaves config
    let withAccelerators : Except Fault (GoMap Value) :=
      if config.Accelerators.length > 0 then
        match acceleratorsLoop config.Accelerators [] with
        | Except.ok accelerators =>
          Except.ok (GoMap.set nodeConfig "guest_accelerator" (Value.blocks accelerators))
        | Except.error fault => Except.error fault
      else
        Except.ok nodeConfig
    match withAccelerators with
    | Except.error fault => Except.error fault
    | Except.ok nodeConfig =>
      let nodeConfig := nodeConfigSubBlocks config nodeConfig
      if GoMap.len nodeConfig > 0 then
        Except.ok (GoMap.set hclData "node_config" (Value.blocks [nodeConfig]))
      else
        Except.ok hclData

/-- Lines 290-338: the map `addonsConfig` before the length test. -/
def addonsConfigMap (addons : AddonsConfig) : GoMap Value :=
  let addonsConfig : GoMap Value := []
  let addonsConfig :=
    match addons.HttpLoadBalancing with
    | none => addonsConfig
    | some toggle =>
      GoMap.set addonsConfig "http_load_balancing"
        (Value.blocks [[("disabled", Value.bool toggle.Disabled)]])
  let addonsConfig :=
    match addons.HorizontalPodAutoscaling with
    | none => addonsConfig
    | some toggle =>
      GoMap.set addonsConfig "horizontal_pod_autoscaling"
        (Value.blocks [[("disabled", Value.bool toggle.Disabled)]])
  let addonsConfig :=
    match addons.NetworkPolicyConfig with
    | none => addonsConfig
    | some toggle =>
      GoMap.set addonsConfig "network_policy_config"
        (Value.blocks [[("disabled", Value.bool toggle.Disabled)]])
  let addonsConfig :=
    match addons.DnsCacheConfig with
    | none => addonsConfig
    | some toggle =>
      GoMap.set addonsConfig "dns_cache_config"
        (Value.blocks [[("enabled", Value.bool toggle.Enabled)]])
  let addonsConfig :=
    match addons.ConfigConnectorConfig with
    | none => addonsConfig
    | some toggle =>
      GoMap.set addonsConfig "config_connector_config"
        (Value.blocks [[("enabled", Value.bool toggle.Enabled)]])
  let addonsConfig :=
    match addons.GcePersistentDiskCsiDriverConfig with
    | none => addonsConfig
    | some toggle =>
      GoMap.set addonsConfig "gce_persistent_disk_csi_driver_config"
        (Value.blocks [[("enabled", Value.bool toggle.Enabled)]])
  addonsConfig

/-- Lines 288-343, "Handle addons config". -/
def addonsConfigRule (cluster : Cluster) (hclData : HclMap) : HclMap :=
  match cluster.AddonsConfig with
  | none => hclData
  | some addons =>
    let addonsConfig := addonsConfigMap addons
    if GoMap.len addonsConfig > 0 then
      GoMap.set hclData "addons_config" (Value.blocks [addonsConfig])
    else
      hclData

/-- Lines 345-353, "Handle private cluster config". -/
def privateClusterConfigRule (cluster : Cluster) (hclData : HclMap) : HclMap :=
  match cluster.PrivateClusterConfig with
  | none => hclData
  | some config =>
    let privateClusterConfig : GoMap Value := []
    let privateClusterConfig :=
      GoMap.set privateClusterConfig "enable_private_nodes" (Value.bool config.EnablePrivateNodes)
    let privateClusterConfig :=
      GoMap.set privateClusterConfig "enable_private_endpoint"
        (Value.bool config.EnablePrivateEndpoint)
    let privateClusterConfig :=
      GoMap.set privateClusterConfig "master_ipv4_cidr_block"
        (Value.str config.MasterIpv4CidrBlock)
    GoMap.set hclData "private_cluster_config" (Value.blocks [privateClusterConfig])

/-- Lines 355-362, "Handle network policy". -/
def networkPolicyRule (cluster : Cluster) (hclData : HclMap) : HclMap :=
  match cluster.NetworkPolicy with
  | none => hclData
  | some policy =>
    let networkPolicy : GoMap Value := []
    let networkPolicy := GoMap.set networkPolicy "enabled" (Value.bool policy.Enabled)
    let networkPolicy := GoMap.set networkPolicy "provider" (Value.str policy.Provider)
    GoMap.set hclData "network_policy" (Value.blocks [networkPolicy])

/-- Lines 375-385: the recurring window sub-block; `RecurringWindow.Window`
is read without a nil test, so a nil `Window` panics. -/
def recurringWindowRule (window : MaintenanceWindow) (maintenancePolicy : GoMap Value) :
    Except Fault (GoMap Value) :=
  match window.RecurringWindow with
  | none => Except.ok maintenancePolicy
  | some recurring =>
    match recurring.Window with
    | none => Except.error Fault.nilDereference
    | some timeWindow =>
      let recurringWindow : GoMap Value := []
      let recurringWindow :=
        GoMap.set recurringWindow "start_time" (Value.str timeWindow.StartTime)
      let recurringWindow :=
        GoMap.set recurringWindow "end_time" (Value.str timeWindow.EndTime)
      let recurrence := recurring.Recurrence
      let recurringWindow :=
        GoMap.set recurringWindow "recurrence" (Value.str recurrence)
      Except.ok (GoMap.set maintenancePolicy "recurring_window" (Value.blocks [recurringWindow]))

/-- Lines 364-388, "Handle maintenance policy". -/
def maintenancePolicyRule (cluster : Cluster) (hclData : HclMap) : Except Fault HclMap :=
  match cluster.MaintenancePolicy with
  | none => Except.ok hclData
  | some policy =>
    match policy.Window with
    | none => Except.ok hclData
    | some window =>
      let maintenancePolicy : GoMap Value := []
      let maintenancePolicy :=
        match window.DailyMaintenanceWindow with
        | none => maintenancePolicy
        | some daily =>
          let dailyMaintenanceWindow : GoMap Value := []
          let dailyMaintenanceWindow :=
            GoMap.set dailyMaintenanceWindow "start_time" (Value.str daily.StartTime)
          GoMap.set maintenancePolicy "daily_maintenance_window"
            (Value.blocks [dailyMaintenanceWindow])
      match recurringWindowRule window maintenancePolicy with
      | Except.error fault => Except.error fault
      | Except.ok maintenancePolicy =>
        Except.ok (GoMap.set hclData "maintenance_policy" (Value.blocks [maintenancePolicy]))

/-- Lines 390-396, "Handle workload identity config". -/
def workloadIdentityConfigRule (cluster : Cluster) (hclData : HclMap) : HclMap :=
  match cluster.WorkloadIdentityConfig with
  | none => hclData
  | some config =>
    if config.WorkloadPool ≠ "" then
      let workloadIdentityConfig : GoMap Value := []
      let workloadIdentityConfig :=
        GoMap.set workloadIdentityConfig "workload_pool" (Value.str config.WorkloadPool)
      GoMap.set hclData "workload_identity_config" (Value.blocks [workloadIdentityConfig])
    else
      hclData

/-- Lines 398-405, "Handle database encryption". -/
def databaseEncryptionRule (cluster : Cluster) (hclData : HclMap) : HclMap :=
  match cluster.DatabaseEncryption with
  | none => hclData
  | some encryption =>
    let databaseEncryption : GoMap Value := []
    let databaseEncryption := GoMap.set databaseEncryption "state" (Value.str encryption.State)
    let databaseEncryption :=
      GoMap.set databaseEncryption "key_name" (Value.str encryption.KeyName)
    GoMap.set hclData "database_encryption" (Value.blocks [databaseEncryption])

/-- Lines 407-410, "Convert legacy_abac to Terraform format". -/
def legacyAbacRule (cluster : Cluster) (hclData : HclMap) : HclMap :=
  match cluster.LegacyAbac with
  | none => hclData
  | some legacyAbac => GoMap.set hclData "enable_legacy_abac" (Value.bool legacyAbac.Enabled)

/-- Lines 412-418, "Handle binary authorization". -/
def binaryAuthorizationRule (cluster : Cluster) (hclData : HclMap) : HclMap :=
  match cluster.BinaryAuthorization with
  | none => hclData
  | some authorization =>
    let binaryAuthorization : GoMap Value := []
    let binaryAuthorization :=
      GoMap.set binaryAuthorization "enabled" (Value.bool authorization.Enabled)
    GoMap.set hclData "binary_authorization" (Value.blocks [binaryAuthorization])

/-- Lines 420-426, "Handle release channel". -/
def releaseChannelRule (cluster : Cluster) (hclData : HclMap) : HclMap :=
  match cluster.ReleaseChannel with
  | none => hclData
  | some channel =>
    let releaseChannel : GoMap Value := []
    let releaseChannel := GoMap.set releaseChannel "channel" (Value.str channel.Channel)
    GoMap.set hclData "release_channel" (Value.blocks [releaseChannel])

/-- Lines 428-431, "Handle project". -/
def projectRule (ParseFieldValue : String → String → String) (assetName : String)
    (hclData : HclMap) : HclMap :=
  let project := ParseFieldValue assetName "projects"
  if project ≠ "" then GoMap.set hclData "project" (Value.str project) else hclData

/-- Lines 433-436, "Convert resource labels". -/
def resourceLabelsRule (cluster : Cluster) (hclData : HclMap) : HclMap :=
  if GoMap.len cluster.ResourceLabels > 0 then
    GoMap.set hclData "resource_labels" (Value.strMap cluster.ResourceLabels)
  else
    hclData

/-- Lines 99-436 of `convertResourceData`: the derived attribute map
`hclData` built from the asset name and the decoded cluster, one section
after the other in source order. A panic in a section ends the derivation. -/
def deriveHclData (ParseFieldValue : String → String → String) (assetName : String)
    (cluster : Cluster) : Except Fault HclMap := do
  let hclData : HclMap := []
  let hclData := GoMap.set hclData "name" (Value.str cluster.Name)
  let hclData := GoMap.set hclData "description" (Value.str cluster.Description)
  let hclData := locationRule ParseFieldValue assetName cluster hclData
  let hclData ← networkRule cluster hclData
  let hclData ← subnetworkRule cluster hclData
  let hclData := initialNodeCountRule cluster hclData
  let hclData := nodeLocationsRule cluster hclData
  let hclData := networkConfigRule cluster hclData
  let hclData := clusterIpv4CidrRule cluster hclData
  let hclData := ipAllocationPolicyRule cluster hclData
  let hclData ← masterAuthorizedNetworksConfigRule cluster hclData
  let hclData ← nodeConfigRule cluster hclData
  let hclData := addonsConfigRule cluster hclData
  let hclData := privateClusterConfigRule cluster hclData
  let hclData := networkPolicyRule cluster hclData
  let hclData ← maintenancePolicyRule cluster hclData
  let hclData := workloadIdentityConfigRule cluster hclData
  let hclData := databaseEncryptionRule cluster hclData
  let hclData := legacyAbacRule cluster hclData
  let hclData := binaryAuthorizationRule cluster hclData
  let hclData := releaseChannelRule cluster hclData
  let hclData := projectRule ParseFieldValue assetName hclData
  let hclData := resourceLabelsRule cluster hclData
  pure hclData

/-! ## Assets, blocks and the external helpers -/

/-- A Go `error` value, identified by its message. -/
abbrev GoError := String

/-- A decoded JSON value: what an `interface{}` of the resource body holds. -/
inductive Json where
  | null
  | bool (b : Bool)
  | num (n : Int)
  | str (s : String)
  | arr (items : List Json)
  | obj (fields : List (String × Json))

/-- `caiasset.IAMBinding`. -/
structure IAMBinding where
  Role : String := ""
  Members : List String := []

/-- `caiasset.IAMPolicy`. -/
structure IAMPolicy where
  Bindings : List IAMBinding := []

/-- `caiasset.AssetResource`; `Data` is a `map[string]interface{}`, nil when
absent. -/
structure AssetResource where
  Data : Option (GoMap Json) := none

/-- `caiasset.Asset`: the fields the converter reads. -/
structure Asset where
  Name : String := ""
  IAMPolicy : Option IAMPolicy := none
  Resource : Option AssetResource := none

/-- `cty.Value`: the typed value tree of a block. -/
inductive CtyValue where
  | NullVal
  | StringVal (s : String)
  | NumberIntVal (n : Int)
  | BoolVal (b : Bool)
  | ListVal (items : List CtyValue)
  | MapVal (entries : List (String × CtyValue))
  | ObjectVal (attrs : List (String × CtyValue))

/-- `common.HCLResourceBlock`. -/
structure HCLResourceBlock where
  Labels : List String
  Value : CtyValue

/-- The helpers of package `common` and of the standard library that the
converter calls and whose code is outside this file: the path extractor
`common.ParseFieldValue`, the body decoder `common.DecodeJSON` (on success
the cluster pointer it fills is non-nil, the body being a JSON object), the
schema coercion `common.MapToCtyValWithSchema` and `json.Marshal` on a
policy. `σ` is the type of the schema `map[string]*schema.Schema`. The last
three either give a value or an error. -/
structure Common (σ : Type) where
  ParseFieldValue : String → String → String
  DecodeJSON : GoMap Json → Except GoError Cluster
  MapToCtyValWithSchema : HclMap → σ → Except GoError CtyValue
  jsonMarshal : IAMPolicy → Except GoError String

/-- Source lines 21-25: `ContainerClusterConverter`. -/
structure ContainerClusterConverter (σ : Type) where
  name : String
  schema : σ

/-- Source line 19. -/
def ContainerClusterSchemaName : String := "google_container_cluster"

/-- Source lines 62-87: `convertIAM`. The result is the Go pair
`(block, error)`. -/
def convertIAM {σ : Type} (common : Common σ) (c : ContainerClusterConverter σ)
    (asset : Option Asset) : Option HCLResourceBlock × Option GoError :=
  match asset with
  | none => (none, some "asset IAM policy is nil")
  | some asset =>
    match asset.IAMPolicy with
    | none => (none, some "asset IAM policy is nil")
    | some policy =>
      let location := common.ParseFieldValue asset.Name "locations"
      let clusterName := common.ParseFieldValue asset.Name "clusters"
      let project := common.ParseFieldValue asset.Name "projects"
      match common.jsonMarshal policy with
      | Except.error err => (none, some err)
      | Except.ok policyData =>
        (some {
          Labels := [c.name ++ "_iam_policy", clusterName ++ "_iam_policy"]
          Value := CtyValue.ObjectVal [
            ("location", CtyValue.StringVal location),
            ("cluster", CtyValue.StringVal clusterName),
            ("project", CtyValue.StringVal project),
            ("policy_data", CtyValue.StringVal policyData)] },
         none)

/-- Source lines 89-448: `convertResourceData`. The result is the Go pair
`(block, error)`, or a panic raised while `hclData` is derived. -/
def convertResourceData {σ : Type} (common : Common σ) (c : ContainerClusterConverter σ)
    (asset : Option Asset) : Except Fault (Option HCLResourceBlock × Option GoError) :=
  match asset with
  | none => Except.ok (none, some "asset resource data is nil")
  | some asset =>
    match asset.Resource with
    | none => Except.ok (none, some "asset resource data is nil")
    | some resource =>
      match resource.Data with
      | none => Except.ok (none, some "asset resource data is nil")
      | some data =>
        match common.DecodeJSON data with
        | Except.error err => Except.ok (none, some err)
        | Except.ok cluster =>
          match deriveHclData common.ParseFieldValue asset.Name cluster with
          | Except.error fault => Except.error fault
          | Except.ok hclData =>
            match common.MapToCtyValWithSchema hclData c.schema with
            | Except.error err => Except.ok (none, some err)
            | Except.ok ctyVal =>
              Except.ok (some { Labels := [c.name, cluster.Name], Value := ctyVal }, none)

/-- The test `asset.Resource != nil && asset.Resource.Data != nil` of source
line 51. -/
def hasResourceData (asset : Asset) : Bool :=
  match asset.Resource with
  | none => false
  | some resource => resource.Data.isSome

/-- What one iteration of the loop of `Convert` does next. -/
inductive Step where
  | returns (blocks : List (Option HCLResourceBlock)) (err : Option GoError)
  | continues (blocks : List (Option HCLResourceBlock))

/-- Source lines 44-50: the policy half of the loop body. -/
def convertPolicyStep {σ : Type} (common : Common σ) (c : ContainerClusterConverter σ)
    (asset : Asset) (blocks : List (Option HCLResourceBlock)) : Step :=
  if asset.IAMPolicy.isSome then
    match convertIAM common c (some asset) with
    | (_, some err) => Step.returns [] (some err)
    | (iamBlock, none) => Step.continues (blocks ++ [iamBlock])
  else
    Step.continues blocks

/-- Source lines 51-57: the resource-body half of the loop body. -/
def convertBodyStep {σ : Type} (common : Common σ) (c : ContainerClusterConverter σ)
    (asset : Asset) (blocks : List (Option HCLResourceBlock)) : Except Fault Step :=
  if hasResourceData asset then
    match convertResourceData common c (some asset) with
    | Except.error fault => Except.error fault
    | Except.ok (_, some err) => Except.ok (Step.returns [] (some err))
    | Except.ok (block, none) => Except.ok (Step.continues (blocks ++ [block]))
  else
    Except.ok (Step.continues blocks)

/-- Source lines 40-58: the loop of `Convert` over the remaining assets, with
the blocks collected so far; line 59 when the assets are exhausted. -/
def convertLoop {σ : Type} (common : Common σ) (c : ContainerClusterConverter σ) :
    List (Option Asset) → List (Option HCLResourceBlock) →
    Except Fault (List (Option HCLResourceBlock) × Option GoError)
  | [], blocks => Except.ok (blocks, none)
  | none :: rest, blocks => convertLoop common c rest blocks
  | some asset :: rest, blocks =>
    match convertPolicyStep common c asset blocks with
    | Step.returns out err => Except.ok (out, err)
    | Step.continues blocks =>
      match convertBodyStep common c asset blocks with
      | Except.error fault => Except.error fault
      | Except.ok (Step.returns out err) => Except.ok (out, err)
      | Except.ok (Step.continues blocks) => convertLoop common c rest blocks

/-- Source lines 37-60: `Convert`. The result is the Go pair
`(blocks, error)`, or a panic raised in a record. -/
def Convert {σ : Type} (common : Common σ) (c : ContainerClusterConverter σ)
    (assets : List (Option Asset)) :
    Except Fault (List (Option HCLResourceBlock) × Option GoError) :=
  convertLoop common c assets []

/-! ## Definitions used to state and prove the properties -/

/-- The characters after the last separator: the last piece of the split. -/
def lastChars (sep : Char) (cs : List Char) : List Char :=
  (splitChars sep cs).getLastD []

/-- The map a section returned, when the section did not panic. -/
def okMap (r : Except Fault (GoMap Value)) : GoMap Value :=
  match r with
  | Except.ok m => m
  | Except.error _ => []

/-- A slice of pointers holds a nil entry. -/
def hasNil {α : Type} (l : List (Option α)) : Bool :=
  l.any Option.isNone

/-- The authorized-network entries hold a nil pointer (read at source line
195). -/
def nilCidrBlock (cluster : Cluster) : Bool :=
  match cluster.MasterAuthorizedNetworksConfig with
  | none => false
  | some config => hasNil config.CidrBlocks

/-- The accelerator entries hold a nil pointer (read at source line 260). -/
def nilAccelerator (cluster : Cluster) : Bool :=
  match cluster.NodeConfig with
  | none => false
  | some config => hasNil config.Accelerators

/-- The maintenance window has a recurring window whose inner time window is
nil (read at source line 377). -/
def nilTimeWindow (cluster : Cluster) : Bool :=
  match cluster.MaintenancePolicy with
  | none => false
  | some policy =>
    match policy.Window with
    | none => false
    | some window =>
      match window.RecurringWindow with
      | none => false
      | some recurring => recurring.Window.isNone

/-- The decoded cluster makes the derivation read through a nil pointer. -/
def derefsNil (cluster : Cluster) : Bool :=
  nilCidrBlock cluster || nilAccelerator cluster || nilTimeWindow cluster

/-- The sections of `deriveHclData` composed, each fallible section replaced
by the map it returns when it does not panic. -/
def hclDataOf (ParseFieldValue : String → String → String) (assetName : String)
    (cluster : Cluster) : HclMap :=
  let hclData : HclMap := []
  let hclData := GoMap.set hclData "name" (Value.str cluster.Name)
  let hclData := GoMap.set hclData "description" (Value.str cluster.Description)
  let hclData := locationRule ParseFieldValue assetName cluster hclData
  let hclData := okMap (networkRule cluster hclData)
  let hclData := okMap (subnetworkRule cluster hclData)
  let hclData := initialNodeCountRule cluster hclData
  let hclData := nodeLocationsRule cluster hclData
  let hclData := networkConfigRule cluster hclData
  let hclData := clusterIpv4CidrRule cluster hclData
  let hclData := ipAllocationPolicyRule cluster hclData
  let hclData := okMap (masterAuthorizedNetworksConfigRule cluster hclData)
  let hclData := okMap (nodeConfigRule cluster hclData)
  let hclData := addonsConfigRule cluster hclData
  let hclData := privateClusterConfigRule cluster hclData
  let hclData := networkPolicyRule cluster hclData
  let hclData := okMap (maintenancePolicyRule cluster hclData)
  let hclData := workloadIdentityConfigRule cluster hclData
  let hclData := databaseEncryptionRule cluster hclData
  let hclData := legacyAbacRule cluster hclData
  let hclData := binaryAuthorizationRule cluster hclData
  let hclData := releaseChannelRule cluster hclData
  let hclData := projectRule ParseFieldValue assetName hclData
  let hclData := resourceLabelsRule cluster hclData
  hclData

/-- The first segment that follows a segment equal to `name`. -/
def segmentAfter (name : String) : List String → String
  | [] => ""
  | [_] => ""
  | a :: b :: rest => if a = name then b else segmentAfter name (b :: rest)

/-- Modelled from the spec: `common.ParseFieldValue`, the path extractor,
whose code is in package `common`. Section 4.1: given a structured name and
a segment-kind token, return the value immediately following the first
occurrence of that token in the path, or the empty string if absent. -/
def ParseFieldValue (url : String) (name : String) : String :=
  segmentAfter name (stringsSplit url '/')

/-- The maps the loop of lines 192-198 appends, for entries without nil. -/
def cidrBlockMaps (entries : List (Option CidrBlock)) : List (GoMap Value) :=
  entries.filterMap (fun entry => entry.map (fun cidrBlock =>
    [("cidr_block", Value.str cidrBlock.CidrBlock),
     ("display_name", Value.str cidrBlock.DisplayName)]))

/-- The maps the loop of lines 257-263 appends, for entries without nil. -/
def acceleratorMaps (entries : List (Option AcceleratorConfig)) : List (GoMap Value) :=
  entries.filterMap (fun entry => entry.map (fun accelerator =>
    [("count", Value.int accelerator.AcceleratorCount),
     ("type", Value.str accelerator.AcceleratorType)]))

/-- The map `masterAuthorizedNetworksConfig` at line 202, for entries without
nil. -/
def masterAuthorizedNetworksConfigMap (config : MasterAuthorizedNetworksConfig) :
    GoMap Value :=
  if config.CidrBlocks.length > 0 then
    GoMap.set (GoMap.set [] "enabled" (Value.bool config.Enabled)) "cidr_blocks"
      (Value.blocks (cidrBlockMaps config.CidrBlocks))
  else
    GoMap.set [] "enabled" (Value.bool config.Enabled)

/-- The map `nodeConfig` at line 283, for entries without nil. -/
def nodeConfigMap (config : NodeConfig) : GoMap Value :=
  nodeConfigSubBlocks config
    (if config.Accelerators.length > 0 then
      GoMap.set (nodeConfigLeaves config) "guest_accelerator"
        (Value.blocks (acceleratorMaps config.Accelerators))
    else
      nodeConfigLeaves config)

/-- Some leaf of the IP allocation policy is not its zero value: one of the
tests of lines 158-176 holds. -/
def IPAllocationPolicy.populated (policy : IPAllocationPolicy) : Bool :=
  policy.UseIpAliases || policy.ClusterIpv4CidrBlock != "" ||
  policy.ServicesIpv4CidrBlock != "" || policy.ClusterSecondaryRangeName != "" ||
  policy.ServicesSecondaryRangeName != ""

/-- Some leaf, collection or sub-object of the node config is populated: one
of the tests of lines 211-280 holds. -/
def NodeConfig.populated (config : NodeConfig) : Bool :=
  config.MachineType != "" || decide (config.DiskSizeGb > 0) || config.DiskType != "" ||
  !config.OauthScopes.isEmpty || config.ServiceAccount != "" || config.ImageType != "" ||
  config.Preemptible || !config.Labels.isEmpty || !config.Tags.isEmpty ||
  !config.Metadata.isEmpty || config.MinCpuPlatform != "" ||
  !config.Accelerators.isEmpty || config.WorkloadMetadataConfig.isSome ||
  config.ShieldedInstanceConfig.isSome

/-- Some addon toggle of the addons config is present: one of the tests of
lines 292-338 holds. -/
def AddonsConfig.populated (addons : AddonsConfig) : Bool :=
  addons.HttpLoadBalancing.isSome || addons.HorizontalPodAutoscaling.isSome ||
  addons.NetworkPolicyConfig.isSome || addons.DnsCacheConfig.isSome ||
  addons.ConfigConnectorConfig.isSome || addons.GcePersistentDiskCsiDriverConfig.isSome

/-! ## Where the keys of the derived map come from -/

/-- A stored value is an empty string or an empty sequence. -/
def Value.isEmpty : Value → Bool
  | Value.str s => s == ""
  | Value.strs l => l.isEmpty
  | Value.strMap m => m.isEmpty
  | Value.blocks l => l.isEmpty
  | Value.int _ => false
  | Value.bool _ => false

/-- The source data of a top-level key of the derived map is present and
non-empty: the source string is non-empty, the source number is non-zero,
the source collection is non-empty, the source flag is set, the source
pointer is non-nil (with the extra test the code makes for the block). -/
def sourcePresent (ParseFieldValue : String → String → String) (assetName : String)
    (cluster : Cluster) (key : String) : Bool :=
  if key = "name" then cluster.Name != ""
  else if key = "description" then cluster.Description != ""
  else if key = "location" then
    ParseFieldValue assetName "locations" != "" || cluster.Location != ""
  else if key = "zone" then cluster.Zone != ""
  else if key = "network" then cluster.Network != ""
  else if key = "subnetwork" then cluster.Subnetwork != ""
  else if key = "initial_node_count" then cluster.InitialNodeCount != 0
  else if key = "node_locations" then !cluster.Locations.isEmpty
  else if key = "enable_intranode_visibility" then
    match cluster.NetworkConfig with
    | some networkConfig => networkConfig.EnableIntraNodeVisibility
    | none => false
  else if key = "default_snat_status" then
    match cluster.NetworkConfig with
    | some networkConfig => networkConfig.DefaultSnatStatus.isSome
    | none => false
  else if key = "cluster_ipv4_cidr" then cluster.ClusterIpv4Cidr != ""
  else if key = "ip_allocation_policy" then
    match cluster.IpAllocationPolicy with
    | some policy => policy.populated
    | none => false
  else if key = "master_authorized_networks_config" then
    cluster.MasterAuthorizedNetworksConfig.isSome
  else if key = "node_config" then
    match cluster.NodeConfig with
    | some config => config.populated
    | none => false
  else if key = "addons_config" then
    match cluster.AddonsConfig with
    | some addons => addons.populated
    | none => false
  else if key = "private_cluster_config" then cluster.PrivateClusterConfig.isSome
  else if key = "network_policy" then cluster.NetworkPolicy.isSome
  else if key = "maintenance_policy" then
    match cluster.MaintenancePolicy with
    | some policy => policy.Window.isSome
    | none => false
  else if key = "workload_identity_config" then
    match cluster.WorkloadIdentityConfig with
    | some config => config.WorkloadPool != ""
    | none => false
  else if key = "database_encryption" then cluster.DatabaseEncryption.isSome
  else if key = "enable_legacy_abac" then cluster.LegacyAbac.isSome
  else if key = "binary_authorization" then cluster.BinaryAuthorization.isSome
  else if key = "release_channel" then cluster.ReleaseChannel.isSome
  else if key = "project" then ParseFieldValue assetName "projects" != ""
  else if key = "resource_labels" then !cluster.ResourceLabels.isEmpty
  else false

/-- The assignments of `deriveHclData`: `Origin P n c key value` holds when
some section stores `value` under `key`, which it does under the test the
section makes on the source. -/
inductive Origin (P : String → String → String) (assetName : String) (c : Cluster) :
    String → Value → Prop where
  | name : Origin P assetName c "name" (Value.str c.Name)
  | description : Origin P assetName c "description" (Value.str c.Description)
  | locationOfName : P assetName "locations" ≠ "" →
      Origin P assetName c "location" (Value.str (P assetName "locations"))
  | locationOfBody : c.Location ≠ "" →
      Origin P assetName c "location" (Value.str c.Location)
  | zone : P assetName "locations" = "" → c.Location = "" →
      Origin P assetName c "zone" (Value.str (P c.Zone "zones"))
  | network : c.Network ≠ "" →
      Origin P assetName c "network" (Value.str (String.mk (lastChars '/' c.Network.data)))
  | subnetwork : c.Subnetwork ≠ "" →
      Origin P assetName c "subnetwork"
        (Value.str (String.mk (lastChars '/' c.Subnetwork.data)))
  | initialNodeCount : c.InitialNodeCount > 0 →
      Origin P assetName c "initial_node_count" (Value.int c.InitialNodeCount)
  | nodeLocations : c.Locations ≠ [] →
      Origin P assetName c "node_locations"
        (Value.strs (filterOutPrimaryZone c.Locations c.Zone))
  | intranodeVisibility (networkConfig : NetworkConfig) :
      c.NetworkConfig = some networkConfig → networkConfig.EnableIntraNodeVisibility = true →
      Origin P assetName c "enable_intranode_visibility"
        (Value.bool networkConfig.EnableIntraNodeVisibility)
  | defaultSnatStatus (networkConfig : NetworkConfig) (body : GoMap Value) :
      c.NetworkConfig = some networkConfig → networkConfig.DefaultSnatStatus.isSome = true →
      Origin P assetName c "default_snat_status" (Value.blocks [body])
  | clusterIpv4Cidr : c.ClusterIpv4Cidr ≠ "" →
      Origin P assetName c "cluster_ipv4_cidr" (Value.str c.ClusterIpv4Cidr)
  | ipAllocationPolicy (policy : IPAllocationPolicy) (body : GoMap Value) :
      c.IpAllocationPolicy = some policy → policy.populated = true →
      Origin P assetName c "ip_allocation_policy" (Value.blocks [body])
  | masterAuthorizedNetworksConfig (body : GoMap Value) :
      c.MasterAuthorizedNetworksConfig.isSome = true →
      Origin P assetName c "master_authorized_networks_config" (Value.blocks [body])
  | nodeConfig (config : NodeConfig) (body : GoMap Value) :
      c.NodeConfig = some config → config.populated = true →
      Origin P assetName c "node_config" (Value.blocks [body])
  | addonsConfig (addons : AddonsConfig) (body : GoMap Value) :
      c.AddonsConfig = some addons → addons.populated = true →
      Origin P assetName c "addons_config" (Value.blocks [body])
  | privateClusterConfig (body : GoMap Value) : c.PrivateClusterConfig.isSome = true →
      Origin P assetName c "private_cluster_config" (Value.blocks [body])
  | networkPolicy (body : GoMap Value) : c.NetworkPolicy.isSome = true →
      Origin P assetName c "network_policy" (Value.blocks [body])
  | maintenancePolicy (policy : MaintenancePolicy) (body : GoMap Value) :
      c.MaintenancePolicy = some policy → policy.Window.isSome = true →
      Origin P assetName c "maintenance_policy" (Value.blocks [body])
  | workloadIdentityConfig (config : WorkloadIdentityConfig) (body : GoMap Value) :
      c.WorkloadIdentityConfig = some config → config.WorkloadPool ≠ "" →
      Origin P assetName c "workload_identity_config" (Value.blocks [body])
  | databaseEncryption (body : GoMap Value) : c.DatabaseEncryption.isSome = true →
      Origin P assetName c "database_encryption" (Value.blocks [body])
  | legacyAbac (flag : Bool) : c.LegacyAbac.isSome = true →
      Origin P assetName c "enable_legacy_abac" (Value.bool flag)
  | binaryAuthorization (body : GoMap Value) : c.BinaryAuthorization.isSome = true →
      Origin P assetName c "binary_authorization" (Value.blocks [body])
  | releaseChannel (body : GoMap Value) : c.ReleaseChannel.isSome = true →
      Origin P assetName c "release_channel" (Value.blocks [body])
  | project : P assetName "projects" ≠ "" →
      Origin P assetName c "project" (Value.str (P assetName "projects"))
  | resourceLabels : c.ResourceLabels ≠ [] →
      Origin P assetName c "resource_labels" (Value.strMap c.ResourceLabels)

/-! ## The batch described record by record -/

/-- What converting one payload gives: the Go pair `(block, error)`, or a
panic. -/
abbrev PayloadResult := Except Fault (Option HCLResourceBlock × Option GoError)

/-- The payload conversions of a record, in the order of the loop body: the
policy conversion when the record has a policy payload, then the body
conversion when it has resource-body data. A nil record has none. -/
def payloadResults {σ : Type} (common : Common σ) (c : ContainerClusterConverter σ)
    (record : Option Asset) : List PayloadResult :=
  match record with
  | none => []
  | some asset =>
    (if asset.IAMPolicy.isSome then [Except.ok (convertIAM common c (some asset))] else []) ++
    (if hasResourceData asset then [convertResourceData common c (some asset)] else [])

/-- Fail-fast collection of payload results: the blocks of the results in
order while each one is a block without error; the first error is returned
with no blocks, the first panic is raised. -/
def collectResults : List PayloadResult → List (Option HCLResourceBlock) →
    Except Fault (List (Option HCLResourceBlock) × Option GoError)
  | [], blocks => Except.ok (blocks, none)
  | Except.error fault :: _, _ => Except.error fault
  | Except.ok (_, some err) :: _, _ => Except.ok ([], some err)
  | Except.ok (block, none) :: rest, blocks => collectResults rest (blocks ++ [block])

/-- The block of a payload result. -/
def blockOf (result : PayloadResult) : Option HCLResourceBlock :=
  match result with
  | Except.ok (block, _) => block
  | Except.error _ => none

/-- A payload result is a success: a block and no error. -/
def PayloadResult.converted (result : PayloadResult) : Prop :=
  ∃ block, result = Except.ok (some block, none)

/-- The blocks a record contributes to the output: the policy block when the
record has a policy payload, followed by the body block when it has
resource-body data. -/
def recordBlocks {σ : Type} (common : Common σ) (c : ContainerClusterConverter σ)
    (record : Option Asset) : List (Option HCLResourceBlock) :=
  match record with
  | none => []
  | some asset =>
    (if asset.IAMPolicy.isSome then [(convertIAM common c (some asset)).1] else []) ++
    (if hasResourceData asset then [blockOf (convertResourceData common c (some asset))]
     else [])

/-! ## Concrete records -/

/-- The structured name of a regional cluster. -/
def regionalName : String :=
  "//container.googleapis.com/projects/my-project/locations/us-central1/clusters/my-cluster"

/-- The structured name of a cluster addressed through its zone: it has no
`locations` segment. -/
def zonalName : String :=
  "//container.googleapis.com/projects/my-project/zones/us-central1-a/clusters/my-cluster"

/-- A decoded body with every field at its zero value (the body `{}`). -/
def zeroCluster : Cluster := {}

/-- A decoded body that only carries the legacy zone path. -/
def legacyZoneCluster : Cluster :=
  { Name := "my-cluster", Zone := "projects/my-project/zones/us-central1-a" }

/-- A decoded body that carries a location and the legacy zone path. -/
def locatedCluster : Cluster :=
  { Name := "my-cluster", Location := "europe-west1",
    Zone := "projects/my-project/zones/us-central1-a" }

/-- A decoded body with a full network path and no subnetwork. -/
def networkCluster : Cluster :=
  { Name := "my-cluster", Network := "projects/my-project/global/networks/my-net" }

/-- A decoded body whose IP allocation policy, node config, addons config,
maintenance policy and workload identity config are present with every leaf
at its zero value. -/
def emptyBlocksCluster : Cluster :=
  { Name := "my-cluster", IpAllocationPolicy := some {}, NodeConfig := some {},
    AddonsConfig := some {}, MaintenancePolicy := some {}, WorkloadIdentityConfig := some {} }

/-- A decoded body whose private cluster config, network policy, database
encryption, binary authorization, release channel and master authorized
networks config are present with every leaf at its zero value. -/
def zeroBlocksCluster : Cluster :=
  { Name := "my-cluster", MasterAuthorizedNetworksConfig := some {},
    PrivateClusterConfig := some {}, NetworkPolicy := some {}, DatabaseEncryption := some {},
    BinaryAuthorization := some {}, ReleaseChannel := some {} }

/-- An addons config with load balancing disabled and autoscaling enabled. -/
def toggledAddons : AddonsConfig :=
  { HttpLoadBalancing := some { Disabled := true },
    HorizontalPodAutoscaling := some { Disabled := false } }

/-- A decoded body carrying `toggledAddons`. -/
def addonsCluster : Cluster :=
  { Name := "my-cluster", AddonsConfig := some toggledAddons }

/-- A node config with two accelerators. -/
def gpuNodeConfig : NodeConfig :=
  { Accelerators :=
      [some { AcceleratorCount := 2, AcceleratorType := "nvidia-tesla-t4" },
       some { AcceleratorCount := 1, AcceleratorType := "nvidia-tesla-v100" }] }

/-- A master authorized networks config with two ranges. -/
def twoRangesConfig : MasterAuthorizedNetworksConfig :=
  { Enabled := true,
    CidrBlocks :=
      [some { CidrBlock := "10.0.0.0/8", DisplayName := "corp" },
       some { CidrBlock := "192.168.0.0/16", DisplayName := "lab" }] }

/-- A decoded body with two accelerators and two authorized ranges. -/
def repeatedCluster : Cluster :=
  { Name := "my-cluster", NodeConfig := some gpuNodeConfig,
    MasterAuthorizedNetworksConfig := some twoRangesConfig }

/-- The derived map of the record `regionalName` with body
`emptyBlocksCluster`. -/
def emptyBlocksHclData : HclMap :=
  [("project", Value.str "my-project"), ("location", Value.str "us-central1"),
   ("description", Value.str ""), ("name", Value.str "my-cluster")]

/-- Stand-ins for the external helpers, enough to run the converter on
concrete records: the decoder reads the `name` field of the body and fails
when it is not a string, the schema coercion keeps the string attributes,
and the policy is marshalled to a fixed text. The properties below are
proved for every `Common`; this one only provides concrete runs. -/
def standInCommon : Common Unit where
  ParseFieldValue := ParseFieldValue
  DecodeJSON := fun data =>
    match GoMap.get data "name" with
    | some (Json.str name) => Except.ok { Name := name }
    | some _ => Except.error "error unmarshaling data"
    | none => Except.ok {}
  MapToCtyValWithSchema := fun hclData _ =>
    Except.ok (CtyValue.ObjectVal (hclData.filterMap (fun entry =>
      match entry.2 with
      | Value.str text => some (entry.1, CtyValue.StringVal text)
      | _ => none)))
  jsonMarshal := fun _ => Except.ok "policy"

/-- The converter for `google_container_cluster` over the stand-in schema. -/
def standInConverter : ContainerClusterConverter Unit where
  name := ContainerClusterSchemaName
  schema := ()

/-- A resource body that decodes. -/
def clusterData : GoMap Json := [("name", Json.str "my-cluster")]

/-- A resource body that the stand-in decoder rejects. -/
def malformedData : GoMap Json := [("name", Json.num 7)]

/-- A policy payload. -/
def adminPolicy : IAMPolicy :=
  { Bindings := [{ Role := "roles/container.admin", Members := ["user:a@example.com"] }] }

/-- A record with a policy payload and a resource body. -/
def policyAndBodyRecord : Asset :=
  { Name := regionalName, IAMPolicy := some adminPolicy,
    Resource := some { Data := some clusterData } }

/-- A record with a resource body only. -/
def bodyRecord : Asset :=
  { Name := regionalName, Resource := some { Data := some clusterData } }

/-- A record with neither payload. -/
def bareRecord : Asset :=
  { Name := regionalName }

/-- A record whose resource body cannot be decoded. -/
def malformedRecord : Asset :=
  { Name := zonalName, Resource := some { Data := some malformedData } }

/-- A decoded body with three initial nodes. -/
def threeNodeCluster : Cluster :=
  { Name := "my-cluster", InitialNodeCount := 3 }

/-- The record `policyAndBodyRecord` with another resource body. -/
def policyAndOtherBodyRecord : Asset :=
  { Name := regionalName, IAMPolicy := some adminPolicy,
    Resource := some { Data := some malformedData } }

/-- Stand-ins like `standInCommon`, with a schema coercion that rejects a map
holding the key `zone`. -/
def zoneRejectingCommon : Common Unit :=
  { standInCommon with
    MapToCtyValWithSchema := fun hclData schema =>
      if GoMap.has hclData "zone" then Except.error "unknown key zone"
      else standInCommon.MapToCtyValWithSchema hclData schema }

/-- A record without `locations` segment in its name and a body that
decodes. -/
def zonalBodyRecord : Asset :=
  { Name := zonalName, Resource := some { Data := some clusterData } }

/-- The decoded body of a cluster whose maintenance policy has a recurring
window with a recurrence and no inner time window: the body
`maintenancePolicy.window.recurringWindow.recurrence = "FREQ=DAILY"`. -/
def recurringOnlyCluster : Cluster :=
  { Name := "my-cluster",
    MaintenancePolicy := some
      { Window := some { RecurringWindow := some { Recurrence := "FREQ=DAILY" } } } }

/-- Stand-ins like `standInCommon`, with a decoder that gives
`recurringOnlyCluster` for every body. -/
def recurringOnlyCommon : Common Unit :=
  { standInCommon with DecodeJSON := fun _ => Except.ok recurringOnlyCluster }

/-- A decoded body without name and description, whose only location is its
primary zone and whose network reference ends in `/`. -/
def emptyValuesCluster : Cluster :=
  { Locations := ["us-central1-a"], Zone := "us-central1-a",
    Network := "projects/my-project/global/networks/" }

/-- The derived map of the record `zonalName` with body
`emptyValuesCluster`. -/
def emptyValuesHclData : HclMap :=
  [("project", Value.str "my-project"), ("node_locations", Value.strs []),
   ("network", Value.str ""), ("zone", Value.str ""), ("description", Value.str ""),
   ("name", Value.str "")]

/-- The derived map of the record `zonalName` with the all-zero body. -/
def zeroHclData : HclMap :=
  [("project", Value.str "my-project"), ("zone", Value.str ""),
   ("description", Value.str ""), ("name", Value.str "")]

/-- A node config with two accelerator entries, the second one nil (the
JSON array holds an object and `null`). -/
def nilEntryNodeConfig : NodeConfig :=
  { Accelerators :=
      [some { AcceleratorCount := 2, AcceleratorType := "nvidia-tesla-t4" }, none] }

/-- A decoded body carrying `nilEntryNodeConfig`. -/
def nilAcceleratorCluster : Cluster :=
  { Name := "my-cluster", NodeConfig := some nilEntryNodeConfig }

/-- A master authorized networks config with two entries, the second one
nil. -/
def nilEntryRangesConfig : MasterAuthorizedNetworksConfig :=
  { Enabled := true,
    CidrBlocks := [some { CidrBlock := "10.0.0.0/8", DisplayName := "corp" }, none] }

/-- A decoded body carrying `nilEntryRangesConfig`. -/
def nilRangeCluster : Cluster :=
  { Name := "my-cluster", MasterAuthorizedNetworksConfig := some nilEntryRangesConfig }

/-- Stand-ins like `standInCommon`, with a decoder that gives
`recurringOnlyCluster` for a body whose `name` is a string and fails when
`name` is not a string. -/
def recurringDecodingCommon : Common Unit :=
  { standInCommon with
    DecodeJSON := fun data =>
      match GoMap.get data "name" with
      | some (Json.str _) => Except.ok recurringOnlyCluster
      | some _ => Except.error "error unmarshaling data"
      | none => Except.ok {} }

/-! ## Lemmas on Go maps -/

theorem GoMap.get_filter_ne {α : Type} (m : GoMap α) (k k' : String) (h : k' ≠ k) :
    GoMap.get (m.filter (fun p => p.1 != k)) k' = GoMap.get m k' := by
  induction m with
  | nil => rfl
  | cons p rest ih =>
    obtain ⟨a, v⟩ := p
    by_cases hak : a = k
    · subst hak
      have hne : ¬ a = k' := fun e => h e.symm
      simp [List.filter, GoMap.get, hne, ih]
    · have hb : (a != k) = true := by simpa using hak
      simp only [List.filter, hb, GoMap.get]
      rw [ih]

theorem GoMap.get_set {α : Type} (m : GoMap α) (k k' : String) (v : α) :
    GoMap.get (GoMap.set m k v) k' = if k = k' then some v else GoMap.get m k' := by
  unfold GoMap.set
  by_cases h : k = k'
  · simp [GoMap.get, h]
  · have h' : k' ≠ k := fun e => h e.symm
    simp only [GoMap.get, h, if_false]
    exact GoMap.get_filter_ne m k k' h'

/-! ## Lemmas on `filterOutPrimaryZone` -/

theorem filterOutPrimaryZone_loop (locations acc : List String) (primaryZone : String) :
    locations.foldl
      (fun filteredLocations location =>
        if location ≠ primaryZone then filteredLocations ++ [location] else filteredLocations)
      acc
      = acc ++ locations.filter (fun location => decide (location ≠ primaryZone)) := by
  induction locations generalizing acc with
  | nil => simp
  | cons x xs ih =>
    simp only [List.foldl_cons, List.filter_cons]
    rw [ih]
    by_cases hx : x = primaryZone <;> simp [hx]

/-! ## Lemmas on `lastSegment` -/

theorem splitChars_ne_nil (sep : Char) (cs : List Char) : splitChars sep cs ≠ [] := by
  cases cs with
  | nil => simp [splitChars]
  | cons c cs =>
    unfold splitChars
    split
    · simp
    · split <;> simp

theorem lastSegment_eq (path : String) :
    lastSegment path = Except.ok (String.mk (lastChars '/' path.data)) := by
  unfold lastSegment stringsSplit lastChars
  have hne := splitChars_ne_nil '/' path.data
  simp only []
  rw [← List.getLast?_eq_getElem?, List.getLast?_map]
  cases hs : splitChars '/' path.data with
  | nil => exact absurd hs hne
  | cons p ps => simp [List.getLastD, List.getLast?_eq_getLast]

theorem lastChars_of_not_mem (sep : Char) (cs : List Char) (h : sep ∉ cs) :
    lastChars sep cs = cs := by
  have key : splitChars sep cs = [cs] := by
    induction cs with
    | nil => rfl
    | cons c cs ih =>
      have hc : c ≠ sep := fun e => h (by simp [e])
      have hcs : sep ∉ cs := fun e => h (by simp [e])
      simp [splitChars, hc, ih hcs]
  simp [lastChars, key]

theorem lastChars_cons_sep (sep : Char) (cs : List Char) :
    lastChars sep (sep :: cs) = lastChars sep cs := by
  have hne := splitChars_ne_nil sep cs
  unfold lastChars
  cases hs : splitChars sep cs with
  | nil => exact absurd hs hne
  | cons p ps => simp [splitChars, hs, List.getLastD]

theorem lastChars_cons_ne (sep c : Char) (cs : List Char) (hc : c ≠ sep) (h : sep ∈ cs) :
    lastChars sep (c :: cs) = lastChars sep cs := by
  have two : ∀ l : List Char, sep ∈ l → ∃ p q r, splitChars sep l = p :: q :: r := by
    intro l
    induction l with
    | nil => intro hm; simp at hm
    | cons d ds ih =>
      intro hm
      by_cases hd : d = sep
      · have hne := splitChars_ne_nil sep ds
        cases hs : splitChars sep ds with
        | nil => exact absurd hs hne
        | cons p ps => exact ⟨[], p, ps, by simp [splitChars, hd, hs]⟩
      · have hm' : sep ∈ ds := by
          rcases List.mem_cons.mp hm with e | e
          · exact absurd e.symm hd
          · exact e
        obtain ⟨p, q, r, hs⟩ := ih hm'
        exact ⟨d :: p, q, r, by simp [splitChars, hd, hs]⟩
  obtain ⟨p, q, r, hs⟩ := two cs h
  simp [lastChars, splitChars, hc, hs, List.getLastD]

theorem lastChars_append_sep (sep : Char) (pre suf : List Char) (h : sep ∉ suf) :
    lastChars sep (pre ++ sep :: suf) = suf := by
  induction pre with
  | nil =>
    simp only [List.nil_append]
    rw [lastChars_cons_sep, lastChars_of_not_mem sep suf h]
  | cons c cs ih =>
    by_cases hc : c = sep
    · subst hc
      simp only [List.cons_append]
      rw [lastChars_cons_sep, ih]
    · simp only [List.cons_append]
      rw [lastChars_cons_ne sep c _ hc (by simp), ih]

/-! ## Which sections panic, and the closed form of `deriveHclData` -/

theorem cidrBlocksLoop_eq (entries : List (Option CidrBlock)) (acc : List (GoMap Value)) :
    cidrBlocksLoop entries acc =
      if hasNil entries then Except.error Fault.nilDereference
      else Except.ok (acc ++ cidrBlockMaps entries) := by
  unfold cidrBlockMaps
  induction entries generalizing acc with
  | nil => simp [cidrBlocksLoop, hasNil]
  | cons entry rest ih =>
    cases entry with
    | none => simp [cidrBlocksLoop, hasNil]
    | some cidrBlock =>
      rw [cidrBlocksLoop, ih]
      by_cases hr : rest.any Option.isNone = true <;> simp [hasNil, hr]

theorem acceleratorsLoop_eq (entries : List (Option AcceleratorConfig))
    (acc : List (GoMap Value)) :
    acceleratorsLoop entries acc =
      if hasNil entries then Except.error Fault.nilDereference
      else Except.ok (acc ++ acceleratorMaps entries) := by
  unfold acceleratorMaps
  induction entries generalizing acc with
  | nil => simp [acceleratorsLoop, hasNil]
  | cons entry rest ih =>
    cases entry with
    | none => simp [acceleratorsLoop, hasNil]
    | some accelerator =>
      rw [acceleratorsLoop, ih]
      by_cases hr : rest.any Option.isNone = true <;> simp [hasNil, hr]

theorem okMap_of_ok {r : Except Fault (GoMap Value)} {m : GoMap Value}
    (h : r = Except.ok m) : r = Except.ok (okMap r) := by
  subst h
  rfl

theorem okMap_ok (m : GoMap Value) : okMap (Except.ok m) = m := rfl

theorem networkRule_ok (cluster : Cluster) (hclData : HclMap) :
    networkRule cluster hclData = Except.ok (okMap (networkRule cluster hclData)) := by
  by_cases h : cluster.Network = ""
  · exact okMap_of_ok (m := hclData) (by simp [networkRule, h])
  · exact okMap_of_ok
      (m := GoMap.set hclData "network" (Value.str (String.mk (lastChars '/' cluster.Network.data))))
      (by simp [networkRule, h, lastSegment_eq])

theorem subnetworkRule_ok (cluster : Cluster) (hclData : HclMap) :
    subnetworkRule cluster hclData = Except.ok (okMap (subnetworkRule cluster hclData)) := by
  by_cases h : cluster.Subnetwork = ""
  · exact okMap_of_ok (m := hclData) (by simp [subnetworkRule, h])
  · exact okMap_of_ok
      (m := GoMap.set hclData "subnetwork"
        (Value.str (String.mk (lastChars '/' cluster.Subnetwork.data))))
      (by simp [subnetworkRule, h, lastSegment_eq])

theorem hasNil_of_length_zero {α : Type} (l : List (Option α)) (h : ¬ l.length > 0) :
    hasNil l = false := by
  cases l with
  | nil => rfl
  | cons a l => simp at h

theorem masterAuthorizedNetworksConfigRule_eq (cluster : Cluster) (hclData : HclMap) :
    masterAuthorizedNetworksConfigRule cluster hclData =
      if nilCidrBlock cluster then Except.error Fault.nilDereference
      else Except.ok (okMap (masterAuthorizedNetworksConfigRule cluster hclData)) := by
  unfold nilCidrBlock
  cases hc : cluster.MasterAuthorizedNetworksConfig with
  | none => simp [masterAuthorizedNetworksConfigRule, hc, okMap]
  | some config =>
    by_cases hl : config.CidrBlocks.length > 0
    · by_cases hn : hasNil config.CidrBlocks = true
      · simp [masterAuthorizedNetworksConfigRule, hc, hl, cidrBlocksLoop_eq, hn]
      · simp [masterAuthorizedNetworksConfigRule, hc, hl, cidrBlocksLoop_eq, hn, okMap]
        split <;> rfl
    · have hn := hasNil_of_length_zero _ hl
      simp [masterAuthorizedNetworksConfigRule, hc, hl, hn, okMap]
      split <;> rfl

theorem nodeConfigRule_eq (cluster : Cluster) (hclData : HclMap) :
    nodeConfigRule cluster hclData =
      if nilAccelerator cluster then Except.error Fault.nilDereference
      else Except.ok (okMap (nodeConfigRule cluster hclData)) := by
  unfold nilAccelerator
  cases hc : cluster.NodeConfig with
  | none => simp [nodeConfigRule, hc, okMap]
  | some config =>
    by_cases hl : config.Accelerators.length > 0
    · by_cases hn : hasNil config.Accelerators = true
      · simp [nodeConfigRule, hc, hl, acceleratorsLoop_eq, hn]
      · simp [nodeConfigRule, hc, hl, acceleratorsLoop_eq, hn, okMap]
        split <;> rfl
    · have hn := hasNil_of_length_zero _ hl
      simp [nodeConfigRule, hc, hl, hn, okMap]
      split <;> rfl

theorem maintenancePolicyRule_eq (cluster : Cluster) (hclData : HclMap) :
    maintenancePolicyRule cluster hclData =
      if nilTimeWindow cluster then Except.error Fault.nilDereference
      else Except.ok (okMap (maintenancePolicyRule cluster hclData)) := by
  unfold nilTimeWindow
  cases hp : cluster.MaintenancePolicy with
  | none => simp [maintenancePolicyRule, hp, okMap]
  | some policy =>
    cases hw : policy.Window with
    | none => simp [maintenancePolicyRule, hp, hw, okMap]
    | some window =>
      cases hr : window.RecurringWindow with
      | none => simp [maintenancePolicyRule, hp, hw, hr, recurringWindowRule, okMap]
      | some recurring =>
        cases ht : recurring.Window with
        | none => simp [maintenancePolicyRule, hp, hw, hr, ht, recurringWindowRule]
        | some timeWindow =>
          simp [maintenancePolicyRule, hp, hw, hr, ht, recurringWindowRule, okMap]

/-- The derivation panics exactly on the clusters that make it read through
a nil pointer, and otherwise returns the composed sections. -/
theorem deriveHclData_eq (ParseFieldValue : String → String → String) (assetName : String)
    (cluster : Cluster) :
    deriveHclData ParseFieldValue assetName cluster =
      if derefsNil cluster then Except.error Fault.nilDereference
      else Except.ok (hclDataOf ParseFieldValue assetName cluster) := by
  unfold deriveHclData hclDataOf derefsNil
  simp only [bind, Except.bind, pure, Except.pure]
  rw [networkRule_ok]
  simp only [okMap_ok]
  rw [subnetworkRule_ok]
  simp only [okMap_ok]
  rw [masterAuthorizedNetworksConfigRule_eq]
  cases h1 : nilCidrBlock cluster with
  | true => simp
  | false =>
    simp only [Bool.false_eq_true, if_false, Bool.false_or, okMap_ok]
    rw [nodeConfigRule_eq]
    cases h2 : nilAccelerator cluster with
    | true => simp
    | false =>
      simp only [Bool.false_eq_true, if_false, Bool.false_or, okMap_ok]
      rw [maintenancePolicyRule_eq]
      cases h3 : nilTimeWindow cluster with
      | true => simp
      | false => simp only [Bool.false_eq_true, if_false, okMap_ok]

theorem deriveHclData_ok_iff (ParseFieldValue : String → String → String) (assetName : String)
    (cluster : Cluster) (m : HclMap) :
    deriveHclData ParseFieldValue assetName cluster = Except.ok m ↔
      derefsNil cluster = false ∧ m = hclDataOf ParseFieldValue assetName cluster := by
  rw [deriveHclData_eq]
  cases h : derefsNil cluster with
  | true => simp
  | false =>
    simp only [Bool.false_eq_true, if_false, Except.ok.injEq, true_and]
    exact eq_comm

/-! ## Lookups through the sections -/

theorem GoMap.get_nil {α : Type} (k : String) : GoMap.get ([] : GoMap α) k = none := rfl

theorem GoMap.get_ite {α : Type} (c : Prop) [Decidable c] (a b : GoMap α) (k : String) :
    GoMap.get (if c then a else b) k = if c then GoMap.get a k else GoMap.get b k := by
  split <;> rfl

theorem GoMap.len_set_pos {α : Type} (m : GoMap α) (k : String) (v : α) :
    GoMap.len (GoMap.set m k v) > 0 := by
  simp [GoMap.len, GoMap.set]

theorem get_locationRule (P : String → String → String) (n : String) (c : Cluster)
    (m : HclMap) (k : String) (h1 : k ≠ "location") (h2 : k ≠ "zone") :
    GoMap.get (locationRule P n c m) k = GoMap.get m k := by
  unfold locationRule
  simp only []
  split
  · simp [GoMap.get_set, h1.symm]
  · split <;> simp [GoMap.get_set, h1.symm, h2.symm]

theorem get_networkRule (c : Cluster) (m : HclMap) (k : String) (h : k ≠ "network") :
    GoMap.get (okMap (networkRule c m)) k = GoMap.get m k := by
  by_cases hn : c.Network = "" <;>
    simp [networkRule, hn, lastSegment_eq, okMap, GoMap.get_set, h.symm]

theorem get_subnetworkRule (c : Cluster) (m : HclMap) (k : String) (h : k ≠ "subnetwork") :
    GoMap.get (okMap (subnetworkRule c m)) k = GoMap.get m k := by
  by_cases hn : c.Subnetwork = "" <;>
    simp [subnetworkRule, hn, lastSegment_eq, okMap, GoMap.get_set, h.symm]

theorem get_initialNodeCountRule (c : Cluster) (m : HclMap) (k : String)
    (h : k ≠ "initial_node_count") :
    GoMap.get (initialNodeCountRule c m) k = GoMap.get m k := by
  unfold initialNodeCountRule
  split <;> simp [GoMap.get_set, h.symm]

theorem get_nodeLocationsRule (c : Cluster) (m : HclMap) (k : String)
    (h : k ≠ "node_locations") :
    GoMap.get (nodeLocationsRule c m) k = GoMap.get m k := by
  unfold nodeLocationsRule
  split <;> simp [GoMap.get_set, h.symm]

theorem get_networkConfigRule (c : Cluster) (m : HclMap) (k : String)
    (h1 : k ≠ "enable_intranode_visibility") (h2 : k ≠ "default_snat_status") :
    GoMap.get (networkConfigRule c m) k = GoMap.get m k := by
  unfold networkConfigRule
  split
  · rfl
  · simp only []
    split <;> split <;> simp [GoMap.get_set, h1.symm, h2.symm]

theorem get_clusterIpv4CidrRule (c : Cluster) (m : HclMap) (k : String)
    (h : k ≠ "cluster_ipv4_cidr") :
    GoMap.get (clusterIpv4CidrRule c m) k = GoMap.get m k := by
  unfold clusterIpv4CidrRule
  split <;> simp [GoMap.get_set, h.symm]

theorem get_ipAllocationPolicyRule (c : Cluster) (m : HclMap) (k : String)
    (h : k ≠ "ip_allocation_policy") :
    GoMap.get (ipAllocationPolicyRule c m) k = GoMap.get m k := by
  unfold ipAllocationPolicyRule
  split
  · rfl
  · simp only []
    split <;> simp [GoMap.get_set, h.symm]

theorem get_masterAuthorizedNetworksConfigRule (c : Cluster) (m : HclMap) (k : String)
    (hn : nilCidrBlock c = false) (h : k ≠ "master_authorized_networks_config") :
    GoMap.get (okMap (masterAuthorizedNetworksConfigRule c m)) k = GoMap.get m k := by
  unfold nilCidrBlock at hn
  unfold masterAuthorizedNetworksConfigRule
  cases hc : c.MasterAuthorizedNetworksConfig with
  | none => simp [okMap]
  | some config =>
    rw [hc] at hn
    simp only [] at hn
    by_cases hl : config.CidrBlocks.length > 0
    · simp [hl, cidrBlocksLoop_eq, hn, okMap, GoMap.len_set_pos, GoMap.get_set, h.symm]
    · simp [hl, okMap, GoMap.len_set_pos, GoMap.get_set, h.symm]

theorem get_nodeConfigRule (c : Cluster) (m : HclMap) (k : String)
    (hn : nilAccelerator c = false) (h : k ≠ "node_config") :
    GoMap.get (okMap (nodeConfigRule c m)) k = GoMap.get m k := by
  unfold nilAccelerator at hn
  unfold nodeConfigRule
  cases hc : c.NodeConfig with
  | none => simp [okMap]
  | some config =>
    rw [hc] at hn
    simp only [] at hn
    by_cases hl : config.Accelerators.length > 0
    · simp only [hl, if_true, acceleratorsLoop_eq, hn, Bool.false_eq_true, if_false]
      split <;> simp [okMap, GoMap.get_set, h.symm]
    · simp only [hl, if_false]
      split <;> simp [okMap, GoMap.get_set, h.symm]

theorem get_addonsConfigRule (c : Cluster) (m : HclMap) (k : String)
    (h : k ≠ "addons_config") :
    GoMap.get (addonsConfigRule c m) k = GoMap.get m k := by
  unfold addonsConfigRule
  split
  · rfl
  · simp only []
    split <;> simp [GoMap.get_set, h.symm]

theorem get_privateClusterConfigRule (c : Cluster) (m : HclMap) (k : String)
    (h : k ≠ "private_cluster_config") :
    GoMap.get (privateClusterConfigRule c m) k = GoMap.get m k := by
  unfold privateClusterConfigRule
  split <;> simp [GoMap.get_set, h.symm]

theorem get_networkPolicyRule (c : Cluster) (m : HclMap) (k : String)
    (h : k ≠ "network_policy") :
    GoMap.get (networkPolicyRule c m) k = GoMap.get m k := by
  unfold networkPolicyRule
  split <;> simp [GoMap.get_set, h.symm]

theorem get_maintenancePolicyRule (c : Cluster) (m : HclMap) (k : String)
    (hn : nilTimeWindow c = false) (h : k ≠ "maintenance_policy") :
    GoMap.get (okMap (maintenancePolicyRule c m)) k = GoMap.get m k := by
  unfold nilTimeWindow at hn
  unfold maintenancePolicyRule
  cases hp : c.MaintenancePolicy with
  | none => simp [okMap]
  | some policy =>
    cases hw : policy.Window with
    | none => simp [hw, okMap]
    | some window =>
      cases hr : window.RecurringWindow with
      | none => simp [hw, recurringWindowRule, hr, okMap, GoMap.get_set, h.symm]
      | some recurring =>
        cases ht : recurring.Window with
        | none => simp [hp, hw, hr, ht] at hn
        | some timeWindow =>
          simp [hw, recurringWindowRule, hr, ht, okMap, GoMap.get_set, h.symm]

theorem get_workloadIdentityConfigRule (c : Cluster) (m : HclMap) (k : String)
    (h : k ≠ "workload_identity_config") :
    GoMap.get (workloadIdentityConfigRule c m) k = GoMap.get m k := by
  unfold workloadIdentityConfigRule
  split
  · rfl
  · split <;> simp [GoMap.get_set, h.symm]

theorem get_databaseEncryptionRule (c : Cluster) (m : HclMap) (k : String)
    (h : k ≠ "database_encryption") :
    GoMap.get (databaseEncryptionRule c m) k = GoMap.get m k := by
  unfold databaseEncryptionRule
  split <;> simp [GoMap.get_set, h.symm]

theorem get_legacyAbacRule (c : Cluster) (m : HclMap) (k : String)
    (h : k ≠ "enable_legacy_abac") :
    GoMap.get (legacyAbacRule c m) k = GoMap.get m k := by
  unfold legacyAbacRule
  split <;> simp [GoMap.get_set, h.symm]

theorem get_binaryAuthorizationRule (c : Cluster) (m : HclMap) (k : String)
    (h : k ≠ "binary_authorization") :
    GoMap.get (binaryAuthorizationRule c m) k = GoMap.get m k := by
  unfold binaryAuthorizationRule
  split <;> simp [GoMap.get_set, h.symm]

theorem get_releaseChannelRule (c : Cluster) (m : HclMap) (k : String)
    (h : k ≠ "release_channel") :
    GoMap.get (releaseChannelRule c m) k = GoMap.get m k := by
  unfold releaseChannelRule
  split <;> simp [GoMap.get_set, h.symm]

theorem get_projectRule (P : String → String → String) (n : String) (m : HclMap)
    (k : String) (h : k ≠ "project") :
    GoMap.get (projectRule P n m) k = GoMap.get m k := by
  unfold projectRule
  simp only []
  split <;> simp [GoMap.get_set, h.symm]

theorem get_resourceLabelsRule (c : Cluster) (m : HclMap) (k : String)
    (h : k ≠ "resource_labels") :
    GoMap.get (resourceLabelsRule c m) k = GoMap.get m k := by
  unfold resourceLabelsRule
  split <;> simp [GoMap.get_set, h.symm]

attribute [simp] get_locationRule get_networkRule get_subnetworkRule
  get_initialNodeCountRule get_nodeLocationsRule get_networkConfigRule
  get_clusterIpv4CidrRule get_ipAllocationPolicyRule
  get_masterAuthorizedNetworksConfigRule get_nodeConfigRule get_addonsConfigRule
  get_privateClusterConfigRule get_networkPolicyRule get_maintenancePolicyRule
  get_workloadIdentityConfigRule get_databaseEncryptionRule get_legacyAbacRule
  get_binaryAuthorizationRule get_releaseChannelRule get_projectRule
  get_resourceLabelsRule

theorem derefsNil_false {c : Cluster} (h : derefsNil c = false) :
    nilCidrBlock c = false ∧ nilAccelerator c = false ∧ nilTimeWindow c = false := by
  simpa [derefsNil, and_assoc] using h

theorem get_locationRule_location (P : String → String → String) (n : String) (c : Cluster)
    (m : HclMap) :
    GoMap.get (locationRule P n c m) "location" =
      if P n "locations" ≠ "" then some (Value.str (P n "locations"))
      else if c.Location ≠ "" then some (Value.str c.Location)
      else GoMap.get m "location" := by
  unfold locationRule
  simp only []
  split
  · simp [GoMap.get_set]
  · split <;> simp [GoMap.get_set]

theorem get_locationRule_zone (P : String → String → String) (n : String) (c : Cluster)
    (m : HclMap) :
    GoMap.get (locationRule P n c m) "zone" =
      if P n "locations" ≠ "" then GoMap.get m "zone"
      else if c.Location ≠ "" then GoMap.get m "zone"
      else some (Value.str (P c.Zone "zones")) := by
  unfold locationRule
  simp only []
  split
  · simp [GoMap.get_set]
  · split <;> simp [GoMap.get_set]

theorem hclDataOf_location (P : String → String → String) (n : String) (c : Cluster)
    (h : derefsNil c = false) :
    GoMap.get (hclDataOf P n c) "location" =
      if P n "locations" ≠ "" then some (Value.str (P n "locations"))
      else if c.Location ≠ "" then some (Value.str c.Location)
      else none := by
  obtain ⟨h1, h2, h3⟩ := derefsNil_false h
  simp [hclDataOf, h1, h2, h3, get_locationRule_location, GoMap.get_set, GoMap.get_nil]

theorem hclDataOf_zone (P : String → String → String) (n : String) (c : Cluster)
    (h : derefsNil c = false) :
    GoMap.get (hclDataOf P n c) "zone" =
      if P n "locations" ≠ "" then none
      else if c.Location ≠ "" then none
      else some (Value.str (P c.Zone "zones")) := by
  obtain ⟨h1, h2, h3⟩ := derefsNil_false h
  simp [hclDataOf, h1, h2, h3, get_locationRule_zone, GoMap.get_set, GoMap.get_nil]

theorem get_networkRule_network (c : Cluster) (m : HclMap) :
    GoMap.get (okMap (networkRule c m)) "network" =
      if c.Network ≠ "" then some (Value.str (String.mk (lastChars '/' c.Network.data)))
      else GoMap.get m "network" := by
  by_cases hn : c.Network = "" <;>
    simp [networkRule, hn, lastSegment_eq, okMap, GoMap.get_set]

theorem get_subnetworkRule_subnetwork (c : Cluster) (m : HclMap) :
    GoMap.get (okMap (subnetworkRule c m)) "subnetwork" =
      if c.Subnetwork ≠ "" then
        some (Value.str (String.mk (lastChars '/' c.Subnetwork.data)))
      else GoMap.get m "subnetwork" := by
  by_cases hn : c.Subnetwork = "" <;>
    simp [subnetworkRule, hn, lastSegment_eq, okMap, GoMap.get_set]

theorem hclDataOf_network (P : String → String → String) (n : String) (c : Cluster)
    (h : derefsNil c = false) :
    GoMap.get (hclDataOf P n c) "network" =
      if c.Network ≠ "" then some (Value.str (String.mk (lastChars '/' c.Network.data)))
      else none := by
  obtain ⟨h1, h2, h3⟩ := derefsNil_false h
  simp [hclDataOf, h1, h2, h3, get_networkRule_network, GoMap.get_set, GoMap.get_nil]

theorem hclDataOf_subnetwork (P : String → String → String) (n : String) (c : Cluster)
    (h : derefsNil c = false) :
    GoMap.get (hclDataOf P n c) "subnetwork" =
      if c.Subnetwork ≠ "" then
        some (Value.str (String.mk (lastChars '/' c.Subnetwork.data)))
      else none := by
  obtain ⟨h1, h2, h3⟩ := derefsNil_false h
  simp [hclDataOf, h1, h2, h3, get_subnetworkRule_subnetwork, GoMap.get_set, GoMap.get_nil]

theorem lastSegment_after_slash (pre suf : String) (h : '/' ∉ suf.data) :
    lastSegment (pre ++ "/" ++ suf) = Except.ok suf := by
  rw [lastSegment_eq]
  have hd : (pre ++ "/" ++ suf).data = pre.data ++ '/' :: suf.data := by
    simp [String.data_append]
  rw [hd, lastChars_append_sep '/' pre.data suf.data h]

theorem lastSegment_no_slash (s : String) (h : '/' ∉ s.data) :
    lastSegment s = Except.ok s := by
  rw [lastSegment_eq, lastChars_of_not_mem '/' s.data h]

/-! ## The nested blocks -/

theorem GoMap.len_nil {α : Type} : GoMap.len ([] : GoMap α) = 0 := rfl

theorem GoMap.len_ite_set_pos {α : Type} (c : Prop) [Decidable c] (m : GoMap α) (k : String)
    (v : α) : 0 < GoMap.len (if c then GoMap.set m k v else m) ↔ c ∨ 0 < GoMap.len m := by
  by_cases h : c <;> simp [h, GoMap.len_set_pos]

theorem ipAllocationPolicyMap_len_pos (policy : IPAllocationPolicy) :
    0 < GoMap.len (ipAllocationPolicyMap policy) ↔ policy.populated = true := by
  unfold ipAllocationPolicyMap IPAllocationPolicy.populated
  simp only [GoMap.len_ite_set_pos, GoMap.len_nil, Bool.or_eq_true, bne_iff_ne]
  tauto

theorem addonsConfigMap_len_pos (addons : AddonsConfig) :
    0 < GoMap.len (addonsConfigMap addons) ↔ addons.populated = true := by
  cases h1 : addons.HttpLoadBalancing <;> cases h2 : addons.HorizontalPodAutoscaling <;>
    cases h3 : addons.NetworkPolicyConfig <;> cases h4 : addons.DnsCacheConfig <;>
    cases h5 : addons.ConfigConnectorConfig <;>
    cases h6 : addons.GcePersistentDiskCsiDriverConfig <;>
    simp [addonsConfigMap, AddonsConfig.populated, h1, h2, h3, h4, h5, h6,
      GoMap.len_set_pos, GoMap.len_nil]

theorem nodeConfigLeaves_len_pos (config : NodeConfig) :
    0 < GoMap.len (nodeConfigLeaves config) ↔
      (config.MachineType ≠ "" ∨ config.DiskSizeGb > 0 ∨ config.DiskType ≠ "" ∨
       config.OauthScopes ≠ [] ∨ config.ServiceAccount ≠ "" ∨ config.ImageType ≠ "" ∨
       config.Preemptible = true ∨ config.Labels ≠ [] ∨ config.Tags ≠ [] ∨
       config.Metadata ≠ [] ∨ config.MinCpuPlatform ≠ "") := by
  unfold nodeConfigLeaves
  simp only [GoMap.len_ite_set_pos, GoMap.len_nil]
  simp only [GoMap.len, List.length_pos, gt_iff_lt, Nat.lt_irrefl, or_false]
  tauto

theorem nodeConfigMap_len_pos (config : NodeConfig) :
    0 < GoMap.len (nodeConfigMap config) ↔ config.populated = true := by
  unfold nodeConfigMap nodeConfigSubBlocks NodeConfig.populated
  cases hs : config.ShieldedInstanceConfig <;> cases hw : config.WorkloadMetadataConfig <;>
    simp only [GoMap.len_set_pos, GoMap.len_ite_set_pos, nodeConfigLeaves_len_pos,
      Bool.or_eq_true, bne_iff_ne, decide_eq_true_eq, Bool.not_eq_true', List.isEmpty_eq_false,
      List.length_pos, gt_iff_lt, Option.isSome_none, Option.isSome_some, Bool.false_eq_true,
      or_false, or_true, iff_true] <;>
    try tauto

theorem masterAuthorizedNetworksConfigRule_of_some {c : Cluster}
    {config : MasterAuthorizedNetworksConfig}
    (hc : c.MasterAuthorizedNetworksConfig = some config)
    (hn : hasNil config.CidrBlocks = false) (m : HclMap) :
    masterAuthorizedNetworksConfigRule c m =
      Except.ok (GoMap.set m "master_authorized_networks_config"
        (Value.blocks [masterAuthorizedNetworksConfigMap config])) := by
  unfold masterAuthorizedNetworksConfigRule masterAuthorizedNetworksConfigMap
  rw [hc]
  by_cases hl : config.CidrBlocks.length > 0
  · simp [hl, cidrBlocksLoop_eq, hn, GoMap.len_set_pos]
  · simp [hl, GoMap.len_set_pos]

theorem nodeConfigRule_of_some {c : Cluster} {config : NodeConfig}
    (hc : c.NodeConfig = some config) (hn : hasNil config.Accelerators = false) (m : HclMap) :
    nodeConfigRule c m =
      Except.ok (if GoMap.len (nodeConfigMap config) > 0 then
        GoMap.set m "node_config" (Value.blocks [nodeConfigMap config]) else m) := by
  unfold nodeConfigRule nodeConfigMap
  rw [hc]
  by_cases hl : config.Accelerators.length > 0
  · simp only [hl, if_true, acceleratorsLoop_eq, hn, Bool.false_eq_true, if_false,
      List.nil_append]
    split <;> rfl
  · simp only [hl, if_false]
    split <;> rfl

theorem hclDataOf_masterAuthorizedNetworksConfig (P : String → String → String) (n : String)
    (c : Cluster) (h : derefsNil c = false) :
    GoMap.get (hclDataOf P n c) "master_authorized_networks_config" =
      c.MasterAuthorizedNetworksConfig.map
        (fun config => Value.blocks [masterAuthorizedNetworksConfigMap config]) := by
  obtain ⟨h1, h2, h3⟩ := derefsNil_false h
  cases hc : c.MasterAuthorizedNetworksConfig with
  | none =>
    simp [hclDataOf, h1, h2, h3, masterAuthorizedNetworksConfigRule, hc, okMap_ok,
      GoMap.get_set, GoMap.get_nil]
  | some config =>
    have hn : hasNil config.CidrBlocks = false := by simpa [nilCidrBlock, hc] using h1
    simp [hclDataOf, h1, h2, h3, masterAuthorizedNetworksConfigRule_of_some hc hn, okMap_ok,
      GoMap.get_set]

theorem hclDataOf_nodeConfig (P : String → String → String) (n : String)
    (c : Cluster) (h : derefsNil c = false) :
    GoMap.get (hclDataOf P n c) "node_config" =
      c.NodeConfig.bind (fun config =>
        if config.populated then some (Value.blocks [nodeConfigMap config]) else none) := by
  obtain ⟨h1, h2, h3⟩ := derefsNil_false h
  cases hc : c.NodeConfig with
  | none =>
    simp [hclDataOf, h1, h2, h3, nodeConfigRule, hc, okMap_ok, GoMap.get_set, GoMap.get_nil]
  | some config =>
    have hn : hasNil config.Accelerators = false := by simpa [nilAccelerator, hc] using h2
    by_cases hp : config.populated = true
    · have hl : GoMap.len (nodeConfigMap config) > 0 := (nodeConfigMap_len_pos config).2 hp
      simp [hclDataOf, h1, h2, h3, nodeConfigRule_of_some hc hn, okMap_ok, GoMap.get_set, hl, hp]
    · have hl : ¬ GoMap.len (nodeConfigMap config) > 0 :=
        fun e => hp ((nodeConfigMap_len_pos config).1 e)
      simp [hclDataOf, h1, h2, h3, nodeConfigRule_of_some hc hn, okMap_ok, GoMap.get_set,
        GoMap.get_nil, hl, hp]

theorem hclDataOf_addonsConfig (P : String → String → String) (n : String)
    (c : Cluster) (h : derefsNil c = false) :
    GoMap.get (hclDataOf P n c) "addons_config" =
      c.AddonsConfig.bind (fun addons =>
        if addons.populated then some (Value.blocks [addonsConfigMap addons]) else none) := by
  obtain ⟨h1, h2, h3⟩ := derefsNil_false h
  cases hc : c.AddonsConfig with
  | none =>
    simp [hclDataOf, h1, h2, h3, addonsConfigRule, hc, GoMap.get_set, GoMap.get_nil]
  | some addons =>
    by_cases hp : addons.populated = true
    · have hl : GoMap.len (addonsConfigMap addons) > 0 := (addonsConfigMap_len_pos addons).2 hp
      simp [hclDataOf, h1, h2, h3, addonsConfigRule, hc, GoMap.get_set, hl, hp]
    · have hl : ¬ GoMap.len (addonsConfigMap addons) > 0 :=
        fun e => hp ((addonsConfigMap_len_pos addons).1 e)
      simp [hclDataOf, h1, h2, h3, addonsConfigRule, hc, GoMap.get_set, GoMap.get_nil, hl, hp]

theorem hclDataOf_ipAllocationPolicy (P : String → String → String) (n : String)
    (c : Cluster) (h : derefsNil c = false) :
    GoMap.get (hclDataOf P n c) "ip_allocation_policy" =
      c.IpAllocationPolicy.bind (fun policy =>
        if policy.populated then some (Value.blocks [ipAllocationPolicyMap policy])
        else none) := by
  obtain ⟨h1, h2, h3⟩ := derefsNil_false h
  cases hc : c.IpAllocationPolicy with
  | none =>
    simp [hclDataOf, h1, h2, h3, ipAllocationPolicyRule, hc, GoMap.get_set, GoMap.get_nil]
  | some policy =>
    by_cases hp : policy.populated = true
    · have hl : GoMap.len (ipAllocationPolicyMap policy) > 0 :=
        (ipAllocationPolicyMap_len_pos policy).2 hp
      simp [hclDataOf, h1, h2, h3, ipAllocationPolicyRule, hc, GoMap.get_set, hl, hp]
    · have hl : ¬ GoMap.len (ipAllocationPolicyMap policy) > 0 :=
        fun e => hp ((ipAllocationPolicyMap_len_pos policy).1 e)
      simp [hclDataOf, h1, h2, h3, ipAllocationPolicyRule, hc, GoMap.get_set, GoMap.get_nil,
        hl, hp]

theorem hclDataOf_has_privateClusterConfig (P : String → String → String) (n : String)
    (c : Cluster) (h : derefsNil c = false) :
    GoMap.has (hclDataOf P n c) "private_cluster_config" = c.PrivateClusterConfig.isSome := by
  obtain ⟨h1, h2, h3⟩ := derefsNil_false h
  cases hp : c.PrivateClusterConfig <;>
    simp [GoMap.has, hclDataOf, h1, h2, h3, privateClusterConfigRule, hp, GoMap.get_set,
      GoMap.get_nil]

theorem hclDataOf_has_networkPolicy (P : String → String → String) (n : String)
    (c : Cluster) (h : derefsNil c = false) :
    GoMap.has (hclDataOf P n c) "network_policy" = c.NetworkPolicy.isSome := by
  obtain ⟨h1, h2, h3⟩ := derefsNil_false h
  cases hp : c.NetworkPolicy <;>
    simp [GoMap.has, hclDataOf, h1, h2, h3, networkPolicyRule, hp, GoMap.get_set, GoMap.get_nil]

theorem hclDataOf_has_databaseEncryption (P : String → String → String) (n : String)
    (c : Cluster) (h : derefsNil c = false) :
    GoMap.has (hclDataOf P n c) "database_encryption" = c.DatabaseEncryption.isSome := by
  obtain ⟨h1, h2, h3⟩ := derefsNil_false h
  cases hp : c.DatabaseEncryption <;>
    simp [GoMap.has, hclDataOf, h1, h2, h3, databaseEncryptionRule, hp, GoMap.get_set,
      GoMap.get_nil]

theorem hclDataOf_has_binaryAuthorization (P : String → String → String) (n : String)
    (c : Cluster) (h : derefsNil c = false) :
    GoMap.has (hclDataOf P n c) "binary_authorization" = c.BinaryAuthorization.isSome := by
  obtain ⟨h1, h2, h3⟩ := derefsNil_false h
  cases hp : c.BinaryAuthorization <;>
    simp [GoMap.has, hclDataOf, h1, h2, h3, binaryAuthorizationRule, hp, GoMap.get_set,
      GoMap.get_nil]

theorem hclDataOf_has_releaseChannel (P : String → String → String) (n : String)
    (c : Cluster) (h : derefsNil c = false) :
    GoMap.has (hclDataOf P n c) "release_channel" = c.ReleaseChannel.isSome := by
  obtain ⟨h1, h2, h3⟩ := derefsNil_false h
  cases hp : c.ReleaseChannel <;>
    simp [GoMap.has, hclDataOf, h1, h2, h3, releaseChannelRule, hp, GoMap.get_set,
      GoMap.get_nil]

theorem hclDataOf_has_maintenancePolicy (P : String → String → String) (n : String)
    (c : Cluster) (h : derefsNil c = false) :
    GoMap.has (hclDataOf P n c) "maintenance_policy" = true ↔
      ∃ policy window, c.MaintenancePolicy = some policy ∧ policy.Window = some window := by
  obtain ⟨h1, h2, h3⟩ := derefsNil_false h
  have h3' := h3
  unfold nilTimeWindow at h3'
  cases hp : c.MaintenancePolicy with
  | none =>
    simp [GoMap.has, hclDataOf, h1, h2, h3, maintenancePolicyRule, hp, okMap_ok, GoMap.get_set,
      GoMap.get_nil]
  | some policy =>
    cases hw : policy.Window with
    | none =>
      simp [GoMap.has, hclDataOf, h1, h2, h3, maintenancePolicyRule, hp, hw, okMap_ok,
        GoMap.get_set, GoMap.get_nil]
    | some window =>
      cases hr : window.RecurringWindow with
      | none =>
        simp [GoMap.has, hclDataOf, h1, h2, h3, maintenancePolicyRule, hp, hw, hr,
          recurringWindowRule, okMap_ok, GoMap.get_set]
      | some recurring =>
        cases ht : recurring.Window with
        | none => simp [hp, hw, hr, ht] at h3'
        | some timeWindow =>
          simp [GoMap.has, hclDataOf, h1, h2, h3, maintenancePolicyRule, hp, hw, hr, ht,
            recurringWindowRule, okMap_ok, GoMap.get_set]

theorem hclDataOf_has_workloadIdentityConfig (P : String → String → String) (n : String)
    (c : Cluster) (h : derefsNil c = false) :
    GoMap.has (hclDataOf P n c) "workload_identity_config" = true ↔
      ∃ config, c.WorkloadIdentityConfig = some config ∧ config.WorkloadPool ≠ "" := by
  obtain ⟨h1, h2, h3⟩ := derefsNil_false h
  cases hc : c.WorkloadIdentityConfig with
  | none =>
    simp [GoMap.has, hclDataOf, h1, h2, h3, workloadIdentityConfigRule, hc, GoMap.get_set,
      GoMap.get_nil]
  | some config =>
    by_cases hp : config.WorkloadPool = "" <;>
      simp [GoMap.has, hclDataOf, h1, h2, h3, workloadIdentityConfigRule, hc, hp,
        GoMap.get_set, GoMap.get_nil]

theorem get_addonsConfigMap_toggles (addons : AddonsConfig) :
    GoMap.get (addonsConfigMap addons) "http_load_balancing" =
      addons.HttpLoadBalancing.map
        (fun toggle => Value.blocks [[("disabled", Value.bool toggle.Disabled)]]) ∧
    GoMap.get (addonsConfigMap addons) "horizontal_pod_autoscaling" =
      addons.HorizontalPodAutoscaling.map
        (fun toggle => Value.blocks [[("disabled", Value.bool toggle.Disabled)]]) ∧
    GoMap.get (addonsConfigMap addons) "network_policy_config" =
      addons.NetworkPolicyConfig.map
        (fun toggle => Value.blocks [[("disabled", Value.bool toggle.Disabled)]]) := by
  cases h1 : addons.HttpLoadBalancing <;> cases h2 : addons.HorizontalPodAutoscaling <;>
    cases h3 : addons.NetworkPolicyConfig <;> cases h4 : addons.DnsCacheConfig <;>
    cases h5 : addons.ConfigConnectorConfig <;>
    cases h6 : addons.GcePersistentDiskCsiDriverConfig <;>
    simp [addonsConfigMap, h1, h2, h3, h4, h5, h6, GoMap.get_set, GoMap.get_nil]

theorem get_nodeConfigLeaves_guest_accelerator (config : NodeConfig) :
    GoMap.get (nodeConfigLeaves config) "guest_accelerator" = none := by
  unfold nodeConfigLeaves
  simp [GoMap.get_ite, GoMap.get_set, GoMap.get_nil]

theorem get_nodeConfigMap_guest_accelerator (config : NodeConfig) :
    GoMap.get (nodeConfigMap config) "guest_accelerator" =
      if config.Accelerators.length > 0 then
        some (Value.blocks (acceleratorMaps config.Accelerators))
      else none := by
  unfold nodeConfigMap nodeConfigSubBlocks
  cases hs : config.ShieldedInstanceConfig <;> cases hw : config.WorkloadMetadataConfig <;>
    simp [GoMap.get_ite, GoMap.get_set, get_nodeConfigLeaves_guest_accelerator]

theorem get_masterAuthorizedNetworksConfigMap_cidr_blocks
    (config : MasterAuthorizedNetworksConfig) :
    GoMap.get (masterAuthorizedNetworksConfigMap config) "cidr_blocks" =
      if config.CidrBlocks.length > 0 then
        some (Value.blocks (cidrBlockMaps config.CidrBlocks))
      else none := by
  unfold masterAuthorizedNetworksConfigMap
  simp [GoMap.get_ite, GoMap.get_set, GoMap.get_nil]

theorem exists_entries_of_hasNil_false {α : Type} (l : List (Option α))
    (h : hasNil l = false) : ∃ entries : List α, l = entries.map some := by
  induction l with
  | nil => exact ⟨[], rfl⟩
  | cons a l ih =>
    cases a with
    | none => simp [hasNil] at h
    | some x =>
      have h' : hasNil l = false := by simpa [hasNil] using h
      obtain ⟨entries, he⟩ := ih h'
      exact ⟨x :: entries, by simp [he]⟩

theorem acceleratorMaps_map_some (entries : List AcceleratorConfig) :
    acceleratorMaps (entries.map some) =
      entries.map (fun accelerator =>
        [("count", Value.int accelerator.AcceleratorCount),
         ("type", Value.str accelerator.AcceleratorType)]) := by
  unfold acceleratorMaps
  induction entries with
  | nil => rfl
  | cons a l ih => simp [List.filterMap_cons, ih]

theorem cidrBlockMaps_map_some (entries : List CidrBlock) :
    cidrBlockMaps (entries.map some) =
      entries.map (fun cidrBlock =>
        [("cidr_block", Value.str cidrBlock.CidrBlock),
         ("display_name", Value.str cidrBlock.DisplayName)]) := by
  unfold cidrBlockMaps
  induction entries with
  | nil => rfl
  | cons a l ih => simp [List.filterMap_cons, ih]

theorem NodeConfig.populated_of_accelerators (config : NodeConfig)
    (h : config.Accelerators ≠ []) : config.populated = true := by
  unfold NodeConfig.populated
  have : config.Accelerators.isEmpty = false := by simpa using h
  simp [this]

/-! ## The loop of `Convert` -/

theorem collectResults_append (xs ys : List PayloadResult)
    (blocks : List (Option HCLResourceBlock)) :
    collectResults (xs ++ ys) blocks =
      match collectResults xs blocks with
      | Except.ok (out, none) => collectResults ys out
      | other => other := by
  induction xs generalizing blocks with
  | nil => simp [collectResults]
  | cons x xs ih =>
    match x with
    | Except.error fault => simp [collectResults]
    | Except.ok (_, some err) => simp [collectResults]
    | Except.ok (block, none) => simp [collectResults, ih]

theorem convertLoop_cons_some {σ : Type} (common : Common σ) (c : ContainerClusterConverter σ)
    (asset : Asset) (rest : List (Option Asset)) (blocks : List (Option HCLResourceBlock)) :
    convertLoop common c (some asset :: rest) blocks =
      match collectResults (payloadResults common c (some asset)) blocks with
      | Except.ok (out, none) => convertLoop common c rest out
      | other => other := by
  rw [convertLoop]
  unfold convertPolicyStep convertBodyStep payloadResults
  by_cases hp : asset.IAMPolicy.isSome = true
  · rcases hi : convertIAM common c (some asset) with ⟨iamBlock, _ | err⟩
    · by_cases hd : hasResourceData asset = true
      · rcases hr : convertResourceData common c (some asset) with fault | ⟨block, _ | err⟩ <;>
          simp [hp, hi, hd, hr, collectResults]
      · simp [hp, hi, hd, collectResults]
    · simp [hp, hi, collectResults]
  · by_cases hd : hasResourceData asset = true
    · rcases hr : convertResourceData common c (some asset) with fault | ⟨block, _ | err⟩ <;>
        simp [hp, hd, hr, collectResults]
    · simp [hp, hd, collectResults]

/-- The loop of `Convert` is the fail-fast collection of the payload results
of the records, in input order. -/
theorem convertLoop_eq_collectResults {σ : Type} (common : Common σ)
    (c : ContainerClusterConverter σ) (assets : List (Option Asset))
    (blocks : List (Option HCLResourceBlock)) :
    convertLoop common c assets blocks =
      collectResults (assets.flatMap (payloadResults common c)) blocks := by
  induction assets generalizing blocks with
  | nil => rfl
  | cons record rest ih =>
    cases record with
    | none =>
      rw [convertLoop, ih]
      simp [payloadResults]
    | some asset =>
      rw [convertLoop_cons_some, List.flatMap_cons, collectResults_append]
      rcases collectResults (payloadResults common c (some asset)) blocks with
        fault | ⟨out, _ | err⟩
      · rfl
      · exact ih out
      · rfl

theorem Convert_eq_collectResults {σ : Type} (common : Common σ)
    (c : ContainerClusterConverter σ) (assets : List (Option Asset)) :
    Convert common c assets = collectResults (assets.flatMap (payloadResults common c)) [] :=
  convertLoop_eq_collectResults common c assets []

theorem collectResults_ok_none (rs : List PayloadResult)
    (acc blocks : List (Option HCLResourceBlock)) :
    collectResults rs acc = Except.ok (blocks, none) ↔
      (∀ r ∈ rs, ∃ block, r = Except.ok (block, none)) ∧ blocks = acc ++ rs.map blockOf := by
  induction rs generalizing acc with
  | nil => simp [collectResults, eq_comm]
  | cons r rs ih =>
    match r with
    | Except.error fault => simp [collectResults]
    | Except.ok (_, some err) => simp [collectResults]
    | Except.ok (block, none) => simp [collectResults, ih, blockOf]

theorem collectResults_ok_some (rs : List PayloadResult)
    (acc blocks : List (Option HCLResourceBlock)) (err : GoError)
    (h : collectResults rs acc = Except.ok (blocks, some err)) : blocks = [] := by
  induction rs generalizing acc with
  | nil => simp [collectResults] at h
  | cons r rs ih =>
    match r, h with
    | Except.error fault, h => simp [collectResults] at h
    | Except.ok (_, some err'), h =>
      simp [collectResults] at h
      exact h.1
    | Except.ok (block, none), h =>
      simp only [collectResults] at h
      exact ih _ h

theorem collectResults_first_error (pre post : List PayloadResult)
    (block : Option HCLResourceBlock) (err : GoError) (acc : List (Option HCLResourceBlock))
    (hpre : ∀ r ∈ pre, ∃ b, r = Except.ok (b, none)) :
    collectResults (pre ++ Except.ok (block, some err) :: post) acc =
      Except.ok ([], some err) := by
  induction pre generalizing acc with
  | nil => simp [collectResults]
  | cons r pre ih =>
    obtain ⟨b, rfl⟩ := hpre r (by simp)
    simp only [List.cons_append, collectResults]
    exact ih _ (fun r hr => hpre r (by simp [hr]))

theorem collectResults_some_error (rs : List PayloadResult)
    (acc : List (Option HCLResourceBlock))
    (herr : ∃ r ∈ rs, ∃ block err, r = Except.ok (block, some err))
    (hpanic : ∀ r ∈ rs, ∀ fault, r ≠ Except.error fault) :
    ∃ err, collectResults rs acc = Except.ok ([], some err) := by
  induction rs generalizing acc with
  | nil => simp at herr
  | cons r rs ih =>
    match r, herr, hpanic with
    | Except.error fault, _, hpanic => exact absurd rfl (hpanic _ (by simp) fault)
    | Except.ok (_, some err), _, _ => exact ⟨err, by simp [collectResults]⟩
    | Except.ok (block, none), herr, hpanic =>
      simp only [collectResults]
      apply ih
      · obtain ⟨r, hr, b, e, hre⟩ := herr
        rcases List.mem_cons.mp hr with h | h
        · rw [h] at hre; simp at hre
        · exact ⟨r, h, b, e, hre⟩
      · exact fun r hr => hpanic r (by simp [hr])

theorem convertIAM_block {σ : Type} (common : Common σ) (c : ContainerClusterConverter σ)
    (asset : Option Asset) (block : Option HCLResourceBlock)
    (h : convertIAM common c asset = (block, none)) : ∃ b, block = some b := by
  unfold convertIAM at h
  split at h
  · simp at h
  · split at h
    · simp at h
    · split at h
      · simp at h
      · simp only [Prod.mk.injEq, and_true] at h
        exact ⟨_, h.symm⟩

theorem convertResourceData_block {σ : Type} (common : Common σ)
    (c : ContainerClusterConverter σ) (asset : Option Asset)
    (block : Option HCLResourceBlock)
    (h : convertResourceData common c asset = Except.ok (block, none)) :
    ∃ b, block = some b := by
  unfold convertResourceData at h
  split at h
  · simp at h
  · split at h
    · simp at h
    · split at h
      · simp at h
      · split at h
        · simp at h
        · split at h
          · simp at h
          · split at h
            · simp at h
            · simp only [Except.ok.injEq, Prod.mk.injEq, and_true] at h
              exact ⟨_, h.symm⟩

theorem payloadResults_converted {σ : Type} (common : Common σ)
    (c : ContainerClusterConverter σ) (record : Option Asset) (r : PayloadResult)
    (hr : r ∈ payloadResults common c record) (block : Option HCLResourceBlock)
    (h : r = Except.ok (block, none)) : r.converted := by
  subst h
  cases record with
  | none => simp [payloadResults] at hr
  | some asset =>
    simp only [payloadResults, List.mem_append] at hr
    rcases hr with hr | hr
    · split at hr
      · simp only [List.mem_singleton, Except.ok.injEq] at hr
        obtain ⟨b, rfl⟩ := convertIAM_block common c (some asset) block hr.symm
        exact ⟨b, rfl⟩
      · simp at hr
    · split at hr
      · simp only [List.mem_singleton] at hr
        obtain ⟨b, rfl⟩ := convertResourceData_block common c (some asset) block hr.symm
        exact ⟨b, rfl⟩
      · simp at hr

theorem map_blockOf_payloadResults {σ : Type} (common : Common σ)
    (c : ContainerClusterConverter σ) (record : Option Asset) :
    (payloadResults common c record).map blockOf = recordBlocks common c record := by
  cases record with
  | none => rfl
  | some asset =>
    unfold payloadResults recordBlocks
    by_cases hp : asset.IAMPolicy.isSome = true <;>
      by_cases hd : hasResourceData asset = true <;> simp [hp, hd, blockOf]

theorem map_blockOf_flatMap {σ : Type} (common : Common σ)
    (c : ContainerClusterConverter σ) (assets : List (Option Asset)) :
    (assets.flatMap (payloadResults common c)).map blockOf =
      assets.flatMap (recordBlocks common c) := by
  induction assets with
  | nil => rfl
  | cons record rest ih =>
    simp [List.flatMap_cons, ih, map_blockOf_payloadResults]

/-- When `Convert` returns blocks and no error, every payload result of
every record is a block without error. -/
theorem Convert_ok_converted {σ : Type} (common : Common σ)
    (c : ContainerClusterConverter σ) (assets : List (Option Asset))
    (blocks : List (Option HCLResourceBlock))
    (h : Convert common c assets = Except.ok (blocks, none)) :
    blocks = assets.flatMap (recordBlocks common c) ∧
    ∀ r ∈ assets.flatMap (payloadResults common c), r.converted := by
  rw [Convert_eq_collectResults, collectResults_ok_none] at h
  obtain ⟨hall, hb⟩ := h
  refine ⟨by simpa [map_blockOf_flatMap] using hb, ?_⟩
  intro r hr
  obtain ⟨block, hblock⟩ := hall r hr
  obtain ⟨record, _, hrec⟩ := List.mem_flatMap.mp hr
  exact payloadResults_converted common c record r hrec block hblock

theorem get_initialNodeCountRule_self (c : Cluster) (m : HclMap) :
    GoMap.get (initialNodeCountRule c m) "initial_node_count" =
      if c.InitialNodeCount > 0 then some (Value.int c.InitialNodeCount)
      else GoMap.get m "initial_node_count" := by
  unfold initialNodeCountRule
  split <;> simp [GoMap.get_set]

theorem hclDataOf_initialNodeCount (P : String → String → String) (n : String) (c : Cluster)
    (h : derefsNil c = false) :
    GoMap.get (hclDataOf P n c) "initial_node_count" =
      if c.InitialNodeCount > 0 then some (Value.int c.InitialNodeCount) else none := by
  obtain ⟨h1, h2, h3⟩ := derefsNil_false h
  simp [hclDataOf, h1, h2, h3, get_initialNodeCountRule_self, GoMap.get_set, GoMap.get_nil]

theorem lastChars_not_mem (sep : Char) (cs : List Char) : sep ∉ lastChars sep cs := by
  induction cs with
  | nil => simp [lastChars, splitChars]
  | cons c cs ih =>
    by_cases hc : c = sep
    · subst hc
      rw [lastChars_cons_sep]
      exact ih
    · by_cases hm : sep ∈ cs
      · rw [lastChars_cons_ne sep c cs hc hm]
        exact ih
      · have hnot : sep ∉ c :: cs := by
          intro h
          rcases List.mem_cons.mp h with e | e
          · exact hc e.symm
          · exact hm e
        rw [lastChars_of_not_mem sep (c :: cs) hnot]
        exact hnot

theorem lastChars_suffix (sep : Char) (cs : List Char) :
    List.IsSuffix (lastChars sep cs) cs := by
  induction cs with
  | nil => simp [lastChars, splitChars]
  | cons c cs ih =>
    by_cases hc : c = sep
    · subst hc
      rw [lastChars_cons_sep]
      exact List.IsSuffix.trans ih (List.suffix_cons _ _)
    · by_cases hm : sep ∈ cs
      · rw [lastChars_cons_ne sep c cs hc hm]
        exact List.IsSuffix.trans ih (List.suffix_cons _ _)
      · have hnot : sep ∉ c :: cs := by
          intro h
          rcases List.mem_cons.mp h with e | e
          · exact hc e.symm
          · exact hm e
        rw [lastChars_of_not_mem sep (c :: cs) hnot]

theorem lastChars_eq_self_iff (sep : Char) (cs : List Char) :
    lastChars sep cs = cs ↔ sep ∉ cs := by
  constructor
  · intro h
    have := lastChars_not_mem sep cs
    rwa [h] at this
  · exact lastChars_of_not_mem sep cs

theorem flatMap_payloadResults_filter {σ : Type} (common : Common σ)
    (c : ContainerClusterConverter σ) (assets : List (Option Asset)) :
    (assets.filter Option.isSome).flatMap (payloadResults common c) =
      assets.flatMap (payloadResults common c) := by
  induction assets with
  | nil => rfl
  | cons record rest ih =>
    cases record with
    | none => simpa [payloadResults] using ih
    | some asset => simp [List.filter_cons, List.flatMap_cons, ih]

theorem flatMap_payloadResults_all_nil {σ : Type} (common : Common σ)
    (c : ContainerClusterConverter σ) (assets : List (Option Asset))
    (h : ∀ record ∈ assets, record = none) :
    assets.flatMap (payloadResults common c) = [] := by
  induction assets with
  | nil => rfl
  | cons record rest ih =>
    have hr : record = none := h record (by simp)
    subst hr
    simpa [payloadResults] using ih (fun r hr => h r (by simp [hr]))

theorem deriveHclData_error_iff (P : String → String → String) (n : String) (c : Cluster)
    (fault : Fault) :
    deriveHclData P n c = Except.error fault ↔
      derefsNil c = true ∧ fault = Fault.nilDereference := by
  rw [deriveHclData_eq]
  cases h : derefsNil c with
  | true => simp [eq_comm]
  | false => simp

theorem convertResourceData_of_data {σ : Type} (common : Common σ)
    (c : ContainerClusterConverter σ) (asset : Asset) (resource : AssetResource)
    (data : GoMap Json) (hr : asset.Resource = some resource)
    (hd : resource.Data = some data) :
    convertResourceData common c (some asset) =
      match common.DecodeJSON data with
      | Except.error err => Except.ok (none, some err)
      | Except.ok cluster =>
        match deriveHclData common.ParseFieldValue asset.Name cluster with
        | Except.error fault => Except.error fault
        | Except.ok hclData =>
          match common.MapToCtyValWithSchema hclData c.schema with
          | Except.error err => Except.ok (none, some err)
          | Except.ok ctyVal =>
            Except.ok (some { Labels := [c.name, cluster.Name], Value := ctyVal }, none) := by
  rw [convertResourceData]
  simp only [hr, hd]

/-! ## Every entry of the derived map comes from an assignment -/

theorem GoMap.get_set_some {α : Type} (m : GoMap α) (k k' : String) (v w : α)
    (h : GoMap.get (GoMap.set m k v) k' = some w) :
    (k' = k ∧ w = v) ∨ GoMap.get m k' = some w := by
  rw [GoMap.get_set] at h
  by_cases hk : k = k'
  · rw [if_pos hk] at h
    exact Or.inl ⟨hk.symm, (Option.some.inj h).symm⟩
  · rw [if_neg hk] at h
    exact Or.inr h

theorem okMap_networkRule (c : Cluster) (m : HclMap) :
    okMap (networkRule c m) =
      if c.Network ≠ "" then
        GoMap.set m "network" (Value.str (String.mk (lastChars '/' c.Network.data)))
      else m := by
  by_cases hn : c.Network = "" <;> simp [networkRule, hn, lastSegment_eq, okMap]

theorem okMap_subnetworkRule (c : Cluster) (m : HclMap) :
    okMap (subnetworkRule c m) =
      if c.Subnetwork ≠ "" then
        GoMap.set m "subnetwork" (Value.str (String.mk (lastChars '/' c.Subnetwork.data)))
      else m := by
  by_cases hn : c.Subnetwork = "" <;> simp [subnetworkRule, hn, lastSegment_eq, okMap]

theorem origin_base (P : String → String → String) (n : String) (c : Cluster)
    (k : String) (v : Value)
    (h : GoMap.get (GoMap.set (GoMap.set ([] : HclMap) "name" (Value.str c.Name))
      "description" (Value.str c.Description)) k = some v) : Origin P n c k v := by
  rcases GoMap.get_set_some _ _ _ _ _ h with ⟨rfl, rfl⟩ | h
  · exact Origin.description
  · rcases GoMap.get_set_some _ _ _ _ _ h with ⟨rfl, rfl⟩ | h
    · exact Origin.name
    · simp [GoMap.get_nil] at h

theorem origin_locationRule (P : String → String → String) (n : String) (c : Cluster)
    (m : HclMap) (k : String) (v : Value)
    (h : GoMap.get (locationRule P n c m) k = some v) :
    GoMap.get m k = some v ∨ Origin P n c k v := by
  unfold locationRule at h
  simp only [] at h
  by_cases h1 : P n "locations" ≠ ""
  · rw [if_pos h1] at h
    rcases GoMap.get_set_some _ _ _ _ _ h with ⟨rfl, rfl⟩ | h
    · exact Or.inr (Origin.locationOfName h1)
    · exact Or.inl h
  · rw [if_neg h1] at h
    by_cases h2 : c.Location ≠ ""
    · rw [if_pos h2] at h
      rcases GoMap.get_set_some _ _ _ _ _ h with ⟨rfl, rfl⟩ | h
      · exact Or.inr (Origin.locationOfBody h2)
      · exact Or.inl h
    · rw [if_neg h2] at h
      rcases GoMap.get_set_some _ _ _ _ _ h with ⟨rfl, rfl⟩ | h
      · exact Or.inr (Origin.zone (not_not.mp h1) (not_not.mp h2))
      · exact Or.inl h

theorem origin_networkRule (P : String → String → String) (n : String) (c : Cluster)
    (m : HclMap) (k : String) (v : Value)
    (h : GoMap.get (okMap (networkRule c m)) k = some v) :
    GoMap.get m k = some v ∨ Origin P n c k v := by
  rw [okMap_networkRule] at h
  by_cases h1 : c.Network ≠ ""
  · rw [if_pos h1] at h
    rcases GoMap.get_set_some _ _ _ _ _ h with ⟨rfl, rfl⟩ | h
    · exact Or.inr (Origin.network h1)
    · exact Or.inl h
  · rw [if_neg h1] at h
    exact Or.inl h

theorem origin_subnetworkRule (P : String → String → String) (n : String) (c : Cluster)
    (m : HclMap) (k : String) (v : Value)
    (h : GoMap.get (okMap (subnetworkRule c m)) k = some v) :
    GoMap.get m k = some v ∨ Origin P n c k v := by
  rw [okMap_subnetworkRule] at h
  by_cases h1 : c.Subnetwork ≠ ""
  · rw [if_pos h1] at h
    rcases GoMap.get_set_some _ _ _ _ _ h with ⟨rfl, rfl⟩ | h
    · exact Or.inr (Origin.subnetwork h1)
    · exact Or.inl h
  · rw [if_neg h1] at h
    exact Or.inl h

theorem origin_initialNodeCountRule (P : String → String → String) (n : String)
    (c : Cluster) (m : HclMap) (k : String) (v : Value)
    (h : GoMap.get (initialNodeCountRule c m) k = some v) :
    GoMap.get m k = some v ∨ Origin P n c k v := by
  unfold initialNodeCountRule at h
  by_cases h1 : c.InitialNodeCount > 0
  · rw [if_pos h1] at h
    rcases GoMap.get_set_some _ _ _ _ _ h with ⟨rfl, rfl⟩ | h
    · exact Or.inr (Origin.initialNodeCount h1)
    · exact Or.inl h
  · rw [if_neg h1] at h
    exact Or.inl h

theorem origin_nodeLocationsRule (P : String → String → String) (n : String)
    (c : Cluster) (m : HclMap) (k : String) (v : Value)
    (h : GoMap.get (nodeLocationsRule c m) k = some v) :
    GoMap.get m k = some v ∨ Origin P n c k v := by
  unfold nodeLocationsRule at h
  by_cases h1 : c.Locations.length > 0
  · rw [if_pos h1] at h
    rcases GoMap.get_set_some _ _ _ _ _ h with ⟨rfl, rfl⟩ | h
    · exact Or.inr (Origin.nodeLocations (List.length_pos.1 h1))
    · exact Or.inl h
  · rw [if_neg h1] at h
    exact Or.inl h

theorem origin_networkConfigRule (P : String → String → String) (n : String)
    (c : Cluster) (m : HclMap) (k : String) (v : Value)
    (h : GoMap.get (networkConfigRule c m) k = some v) :
    GoMap.get m k = some v ∨ Origin P n c k v := by
  unfold networkConfigRule at h
  cases hc : c.NetworkConfig with
  | none =>
    simp only [hc] at h
    exact Or.inl h
  | some networkConfig =>
    simp only [hc] at h
    have inner : ∀ w, GoMap.get
        (if networkConfig.EnableIntraNodeVisibility = true then
          GoMap.set m "enable_intranode_visibility"
            (Value.bool networkConfig.EnableIntraNodeVisibility)
        else m) k = some w → GoMap.get m k = some w ∨ Origin P n c k w := by
      intro w hw
      by_cases h1 : networkConfig.EnableIntraNodeVisibility = true
      · rw [if_pos h1] at hw
        rcases GoMap.get_set_some _ _ _ _ _ hw with ⟨rfl, rfl⟩ | hw
        · exact Or.inr (Origin.intranodeVisibility networkConfig hc h1)
        · exact Or.inl hw
      · rw [if_neg h1] at hw
        exact Or.inl hw
    cases hs : networkConfig.DefaultSnatStatus with
    | none =>
      simp only [hs] at h
      exact inner v h
    | some status =>
      simp only [hs] at h
      rcases GoMap.get_set_some _ _ _ _ _ h with ⟨rfl, rfl⟩ | h
      · exact Or.inr (Origin.defaultSnatStatus networkConfig _ hc (by simp [hs]))
      · exact inner v h

theorem origin_clusterIpv4CidrRule (P : String → String → String) (n : String)
    (c : Cluster) (m : HclMap) (k : String) (v : Value)
    (h : GoMap.get (clusterIpv4CidrRule c m) k = some v) :
    GoMap.get m k = some v ∨ Origin P n c k v := by
  unfold clusterIpv4CidrRule at h
  by_cases h1 : c.ClusterIpv4Cidr ≠ ""
  · rw [if_pos h1] at h
    rcases GoMap.get_set_some _ _ _ _ _ h with ⟨rfl, rfl⟩ | h
    · exact Or.inr (Origin.clusterIpv4Cidr h1)
    · exact Or.inl h
  · rw [if_neg h1] at h
    exact Or.inl h

theorem origin_ipAllocationPolicyRule (P : String → String → String) (n : String)
    (c : Cluster) (m : HclMap) (k : String) (v : Value)
    (h : GoMap.get (ipAllocationPolicyRule c m) k = some v) :
    GoMap.get m k = some v ∨ Origin P n c k v := by
  unfold ipAllocationPolicyRule at h
  cases hc : c.IpAllocationPolicy with
  | none =>
    simp only [hc] at h
    exact Or.inl h
  | some policy =>
    simp only [hc] at h
    by_cases h1 : GoMap.len (ipAllocationPolicyMap policy) > 0
    · rw [if_pos h1] at h
      rcases GoMap.get_set_some _ _ _ _ _ h with ⟨rfl, rfl⟩ | h
      · exact Or.inr (Origin.ipAllocationPolicy policy _ hc
          ((ipAllocationPolicyMap_len_pos policy).1 h1))
      · exact Or.inl h
    · rw [if_neg h1] at h
      exact Or.inl h

theorem origin_masterAuthorizedNetworksConfigRule (P : String → String → String)
    (n : String) (c : Cluster) (m : HclMap) (k : String) (v : Value)
    (hn : nilCidrBlock c = false)
    (h : GoMap.get (okMap (masterAuthorizedNetworksConfigRule c m)) k = some v) :
    GoMap.get m k = some v ∨ Origin P n c k v := by
  cases hc : c.MasterAuthorizedNetworksConfig with
  | none =>
    have e : masterAuthorizedNetworksConfigRule c m = Except.ok m := by
      simp [masterAuthorizedNetworksConfigRule, hc]
    rw [e, okMap_ok] at h
    exact Or.inl h
  | some config =>
    have hnil : hasNil config.CidrBlocks = false := by simpa [nilCidrBlock, hc] using hn
    rw [masterAuthorizedNetworksConfigRule_of_some hc hnil, okMap_ok] at h
    rcases GoMap.get_set_some _ _ _ _ _ h with ⟨rfl, rfl⟩ | h
    · exact Or.inr (Origin.masterAuthorizedNetworksConfig _ (by simp [hc]))
    · exact Or.inl h

theorem origin_nodeConfigRule (P : String → String → String) (n : String) (c : Cluster)
    (m : HclMap) (k : String) (v : Value) (hn : nilAccelerator c = false)
    (h : GoMap.get (okMap (nodeConfigRule c m)) k = some v) :
    GoMap.get m k = some v ∨ Origin P n c k v := by
  cases hc : c.NodeConfig with
  | none =>
    have e : nodeConfigRule c m = Except.ok m := by simp [nodeConfigRule, hc]
    rw [e, okMap_ok] at h
    exact Or.inl h
  | some config =>
    have hnil : hasNil config.Accelerators = false := by simpa [nilAccelerator, hc] using hn
    rw [nodeConfigRule_of_some hc hnil, okMap_ok] at h
    by_cases h1 : GoMap.len (nodeConfigMap config) > 0
    · rw [if_pos h1] at h
      rcases GoMap.get_set_some _ _ _ _ _ h with ⟨rfl, rfl⟩ | h
      · exact Or.inr (Origin.nodeConfig config _ hc ((nodeConfigMap_len_pos config).1 h1))
      · exact Or.inl h
    · rw [if_neg h1] at h
      exact Or.inl h

theorem origin_addonsConfigRule (P : String → String → String) (n : String) (c : Cluster)
    (m : HclMap) (k : String) (v : Value)
    (h : GoMap.get (addonsConfigRule c m) k = some v) :
    GoMap.get m k = some v ∨ Origin P n c k v := by
  unfold addonsConfigRule at h
  cases hc : c.AddonsConfig with
  | none =>
    simp only [hc] at h
    exact Or.inl h
  | some addons =>
    simp only [hc] at h
    by_cases h1 : GoMap.len (addonsConfigMap addons) > 0
    · rw [if_pos h1] at h
      rcases GoMap.get_set_some _ _ _ _ _ h with ⟨rfl, rfl⟩ | h
      · exact Or.inr (Origin.addonsConfig addons _ hc ((addonsConfigMap_len_pos addons).1 h1))
      · exact Or.inl h
    · rw [if_neg h1] at h
      exact Or.inl h

theorem origin_privateClusterConfigRule (P : String → String → String) (n : String)
    (c : Cluster) (m : HclMap) (k : String) (v : Value)
    (h : GoMap.get (privateClusterConfigRule c m) k = some v) :
    GoMap.get m k = some v ∨ Origin P n c k v := by
  unfold privateClusterConfigRule at h
  cases hc : c.PrivateClusterConfig with
  | none =>
    simp only [hc] at h
    exact Or.inl h
  | some config =>
    simp only [hc] at h
    rcases GoMap.get_set_some _ _ _ _ _ h with ⟨rfl, rfl⟩ | h
    · exact Or.inr (Origin.privateClusterConfig _ (by simp [hc]))
    · exact Or.inl h

theorem origin_networkPolicyRule (P : String → String → String) (n : String)
    (c : Cluster) (m : HclMap) (k : String) (v : Value)
    (h : GoMap.get (networkPolicyRule c m) k = some v) :
    GoMap.get m k = some v ∨ Origin P n c k v := by
  unfold networkPolicyRule at h
  cases hc : c.NetworkPolicy with
  | none =>
    simp only [hc] at h
    exact Or.inl h
  | some policy =>
    simp only [hc] at h
    rcases GoMap.get_set_some _ _ _ _ _ h with ⟨rfl, rfl⟩ | h
    · exact Or.inr (Origin.networkPolicy _ (by simp [hc]))
    · exact Or.inl h

theorem origin_maintenancePolicyRule (P : String → String → String) (n : String)
    (c : Cluster) (m : HclMap) (k : String) (v : Value)
    (h : GoMap.get (okMap (maintenancePolicyRule c m)) k = some v) :
    GoMap.get m k = some v ∨ Origin P n c k v := by
  unfold maintenancePolicyRule at h
  cases hp : c.MaintenancePolicy with
  | none =>
    simp only [hp, okMap_ok] at h
    exact Or.inl h
  | some policy =>
    cases hw : policy.Window with
    | none =>
      simp only [hp, hw, okMap_ok] at h
      exact Or.inl h
    | some window =>
      cases hr : recurringWindowRule window
          (match window.DailyMaintenanceWindow with
          | none => []
          | some daily =>
            GoMap.set [] "daily_maintenance_window"
              (Value.blocks [GoMap.set [] "start_time" (Value.str daily.StartTime)])) with
      | error fault =>
        simp only [hp, hw, hr] at h
        simp [okMap, GoMap.get_nil] at h
      | ok body =>
        simp only [hp, hw, hr, okMap_ok] at h
        rcases GoMap.get_set_some _ _ _ _ _ h with ⟨rfl, rfl⟩ | h
        · exact Or.inr (Origin.maintenancePolicy policy _ hp (by simp [hw]))
        · exact Or.inl h

theorem origin_workloadIdentityConfigRule (P : String → String → String) (n : String)
    (c : Cluster) (m : HclMap) (k : String) (v : Value)
    (h : GoMap.get (workloadIdentityConfigRule c m) k = some v) :
    GoMap.get m k = some v ∨ Origin P n c k v := by
  unfold workloadIdentityConfigRule at h
  cases hc : c.WorkloadIdentityConfig with
  | none =>
    simp only [hc] at h
    exact Or.inl h
  | some config =>
    simp only [hc] at h
    by_cases h1 : config.WorkloadPool ≠ ""
    · rw [if_pos h1] at h
      rcases GoMap.get_set_some _ _ _ _ _ h with ⟨rfl, rfl⟩ | h
      · exact Or.inr (Origin.workloadIdentityConfig config _ hc h1)
      · exact Or.inl h
    · rw [if_neg h1] at h
      exact Or.inl h

theorem origin_databaseEncryptionRule (P : String → String → String) (n : String)
    (c : Cluster) (m : HclMap) (k : String) (v : Value)
    (h : GoMap.get (databaseEncryptionRule c m) k = some v) :
    GoMap.get m k = some v ∨ Origin P n c k v := by
  unfold databaseEncryptionRule at h
  cases hc : c.DatabaseEncryption with
  | none =>
    simp only [hc] at h
    exact Or.inl h
  | some encryption =>
    simp only [hc] at h
    rcases GoMap.get_set_some _ _ _ _ _ h with ⟨rfl, rfl⟩ | h
    · exact Or.inr (Origin.databaseEncryption _ (by simp [hc]))
    · exact Or.inl h

theorem origin_legacyAbacRule (P : String → String → String) (n : String)
    (c : Cluster) (m : HclMap) (k : String) (v : Value)
    (h : GoMap.get (legacyAbacRule c m) k = some v) :
    GoMap.get m k = some v ∨ Origin P n c k v := by
  unfold legacyAbacRule at h
  cases hc : c.LegacyAbac with
  | none =>
    simp only [hc] at h
    exact Or.inl h
  | some legacyAbac =>
    simp only [hc] at h
    rcases GoMap.get_set_some _ _ _ _ _ h with ⟨rfl, rfl⟩ | h
    · exact Or.inr (Origin.legacyAbac _ (by simp [hc]))
    · exact Or.inl h

theorem origin_binaryAuthorizationRule (P : String → String → String) (n : String)
    (c : Cluster) (m : HclMap) (k : String) (v : Value)
    (h : GoMap.get (binaryAuthorizationRule c m) k = some v) :
    GoMap.get m k = some v ∨ Origin P n c k v := by
  unfold binaryAuthorizationRule at h
  cases hc : c.BinaryAuthorization with
  | none =>
    simp only [hc] at h
    exact Or.inl h
  | some authorization =>
    simp only [hc] at h
    rcases GoMap.get_set_some _ _ _ _ _ h with ⟨rfl, rfl⟩ | h
    · exact Or.inr (Origin.binaryAuthorization _ (by simp [hc]))
    · exact Or.inl h

theorem origin_releaseChannelRule (P : String → String → String) (n : String)
    (c : Cluster) (m : HclMap) (k : String) (v : Value)
    (h : GoMap.get (releaseChannelRule c m) k = some v) :
    GoMap.get m k = some v ∨ Origin P n c k v := by
  unfold releaseChannelRule at h
  cases hc : c.ReleaseChannel with
  | none =>
    simp only [hc] at h
    exact Or.inl h
  | some channel =>
    simp only [hc] at h
    rcases GoMap.get_set_some _ _ _ _ _ h with ⟨rfl, rfl⟩ | h
    · exact Or.inr (Origin.releaseChannel _ (by simp [hc]))
    · exact Or.inl h

theorem origin_projectRule (P : String → String → String) (n : String) (c : Cluster)
    (m : HclMap) (k : String) (v : Value)
    (h : GoMap.get (projectRule P n m) k = some v) :
    GoMap.get m k = some v ∨ Origin P n c k v := by
  unfold projectRule at h
  simp only [] at h
  by_cases h1 : P n "projects" ≠ ""
  · rw [if_pos h1] at h
    rcases GoMap.get_set_some _ _ _ _ _ h with ⟨rfl, rfl⟩ | h
    · exact Or.inr (Origin.project h1)
    · exact Or.inl h
  · rw [if_neg h1] at h
    exact Or.inl h

theorem origin_resourceLabelsRule (P : String → String → String) (n : String)
    (c : Cluster) (m : HclMap) (k : String) (v : Value)
    (h : GoMap.get (resourceLabelsRule c m) k = some v) :
    GoMap.get m k = some v ∨ Origin P n c k v := by
  unfold resourceLabelsRule at h
  by_cases h1 : GoMap.len c.ResourceLabels > 0
  · rw [if_pos h1] at h
    rcases GoMap.get_set_some _ _ _ _ _ h with ⟨rfl, rfl⟩ | h
    · exact Or.inr (Origin.resourceLabels (List.length_pos.1 h1))
    · exact Or.inl h
  · rw [if_neg h1] at h
    exact Or.inl h

/-- Every entry of the derived map was stored by one of the assignments of
`deriveHclData`. -/
theorem hclDataOf_origin (P : String → String → String) (n : String) (c : Cluster)
    (hsafe : derefsNil c = false) (k : String) (v : Value)
    (h : GoMap.get (hclDataOf P n c) k = some v) : Origin P n c k v := by
  obtain ⟨h1, h2, _⟩ := derefsNil_false hsafe
  unfold hclDataOf at h
  simp only [] at h
  rcases origin_resourceLabelsRule P n c _ k v h with h | h
  swap
  · exact h
  rcases origin_projectRule P n c _ k v h with h | h
  swap
  · exact h
  rcases origin_releaseChannelRule P n c _ k v h with h | h
  swap
  · exact h
  rcases origin_binaryAuthorizationRule P n c _ k v h with h | h
  swap
  · exact h
  rcases origin_legacyAbacRule P n c _ k v h with h | h
  swap
  · exact h
  rcases origin_databaseEncryptionRule P n c _ k v h with h | h
  swap
  · exact h
  rcases origin_workloadIdentityConfigRule P n c _ k v h with h | h
  swap
  · exact h
  rcases origin_maintenancePolicyRule P n c _ k v h with h | h
  swap
  · exact h
  rcases origin_networkPolicyRule P n c _ k v h with h | h
  swap
  · exact h
  rcases origin_privateClusterConfigRule P n c _ k v h with h | h
  swap
  · exact h
  rcases origin_addonsConfigRule P n c _ k v h with h | h
  swap
  · exact h
  rcases origin_nodeConfigRule P n c _ k v h2 h with h | h
  swap
  · exact h
  rcases origin_masterAuthorizedNetworksConfigRule P n c _ k v h1 h with h | h
  swap
  · exact h
  rcases origin_ipAllocationPolicyRule P n c _ k v h with h | h
  swap
  · exact h
  rcases origin_clusterIpv4CidrRule P n c _ k v h with h | h
  swap
  · exact h
  rcases origin_networkConfigRule P n c _ k v h with h | h
  swap
  · exact h
  rcases origin_nodeLocationsRule P n c _ k v h with h | h
  swap
  · exact h
  rcases origin_initialNodeCountRule P n c _ k v h with h | h
  swap
  · exact h
  rcases origin_subnetworkRule P n c _ k v h with h | h
  swap
  · exact h
  rcases origin_networkRule P n c _ k v h with h | h
  swap
  · exact h
  rcases origin_locationRule P n c _ k v h with h | h
  swap
  · exact h
  exact origin_base P n c k v h

theorem Origin.sourcePresent {P : String → String → String} {n : String} {c : Cluster}
    {k : String} {v : Value} (h : Origin P n c k v)
    (h1 : k ≠ "name") (h2 : k ≠ "description") (h3 : k ≠ "zone") :
    sourcePresent P n c k = true := by
  cases h with
  | name => exact absurd rfl h1
  | description => exact absurd rfl h2
  | zone _ _ => exact absurd rfl h3
  | locationOfName hp => simp [Container.sourcePresent, hp]
  | locationOfBody hp => simp [Container.sourcePresent, hp]
  | network hp => simp [Container.sourcePresent, hp]
  | subnetwork hp => simp [Container.sourcePresent, hp]
  | initialNodeCount hp =>
    have : c.InitialNodeCount ≠ 0 := by omega
    simp [Container.sourcePresent, this]
  | nodeLocations hp => simp [Container.sourcePresent, hp]
  | intranodeVisibility nc hc hp => simp [Container.sourcePresent, hc, hp]
  | defaultSnatStatus nc body hc hp => simp [Container.sourcePresent, hc, hp]
  | clusterIpv4Cidr hp => simp [Container.sourcePresent, hp]
  | ipAllocationPolicy policy body hc hp => simp [Container.sourcePresent, hc, hp]
  | masterAuthorizedNetworksConfig body hp => simp [Container.sourcePresent, hp]
  | nodeConfig config body hc hp => simp [Container.sourcePresent, hc, hp]
  | addonsConfig addons body hc hp => simp [Container.sourcePresent, hc, hp]
  | privateClusterConfig body hp => simp [Container.sourcePresent, hp]
  | networkPolicy body hp => simp [Container.sourcePresent, hp]
  | maintenancePolicy policy body hc hp => simp [Container.sourcePresent, hc, hp]
  | workloadIdentityConfig config body hc hp => simp [Container.sourcePresent, hc, hp]
  | databaseEncryption body hp => simp [Container.sourcePresent, hp]
  | legacyAbac flag hp => simp [Container.sourcePresent, hp]
  | binaryAuthorization body hp => simp [Container.sourcePresent, hp]
  | releaseChannel body hp => simp [Container.sourcePresent, hp]
  | project hp => simp [Container.sourcePresent, hp]
  | resourceLabels hp => simp [Container.sourcePresent, hp]

theorem Origin.not_isEmpty {P : String → String → String} {n : String} {c : Cluster}
    {k : String} {v : Value} (h : Origin P n c k v)
    (h1 : k ≠ "name") (h2 : k ≠ "description") (h3 : k ≠ "zone")
    (h4 : k ≠ "node_locations") (h5 : k ≠ "network") (h6 : k ≠ "subnetwork") :
    v.isEmpty = false := by
  cases h with
  | name => exact absurd rfl h1
  | description => exact absurd rfl h2
  | zone _ _ => exact absurd rfl h3
  | nodeLocations _ => exact absurd rfl h4
  | network _ => exact absurd rfl h5
  | subnetwork _ => exact absurd rfl h6
  | locationOfName hp => simp [Value.isEmpty, hp]
  | locationOfBody hp => simp [Value.isEmpty, hp]
  | initialNodeCount hp => rfl
  | intranodeVisibility nc hc hp => rfl
  | defaultSnatStatus nc body hc hp => rfl
  | clusterIpv4Cidr hp => simp [Value.isEmpty, hp]
  | ipAllocationPolicy policy body hc hp => rfl
  | masterAuthorizedNetworksConfig body hp => rfl
  | nodeConfig config body hc hp => rfl
  | addonsConfig addons body hc hp => rfl
  | privateClusterConfig body hp => rfl
  | networkPolicy body hp => rfl
  | maintenancePolicy policy body hc hp => rfl
  | workloadIdentityConfig config body hc hp => rfl
  | databaseEncryption body hp => rfl
  | legacyAbac flag hp => rfl
  | binaryAuthorization body hp => rfl
  | releaseChannel body hp => rfl
  | project hp => simp [Value.isEmpty, hp]
  | resourceLabels hp => simp [Value.isEmpty, hp]

theorem hclDataOf_name (P : String → String → String) (n : String) (c : Cluster)
    (h : derefsNil c = false) :
    GoMap.get (hclDataOf P n c) "name" = some (Value.str c.Name) := by
  obtain ⟨h1, h2, h3⟩ := derefsNil_false h
  simp [hclDataOf, h1, h2, h3, GoMap.get_set]

theorem hclDataOf_description (P : String → String → String) (n : String) (c : Cluster)
    (h : derefsNil c = false) :
    GoMap.get (hclDataOf P n c) "description" = some (Value.str c.Description) := by
  obtain ⟨h1, h2, h3⟩ := derefsNil_false h
  simp [hclDataOf, h1, h2, h3, GoMap.get_set]

theorem hclDataOf_nodeLocations (P : String → String → String) (n : String) (c : Cluster)
    (h : derefsNil c = false) :
    GoMap.get (hclDataOf P n c) "node_locations" =
      if c.Locations.length > 0 then
        some (Value.strs (filterOutPrimaryZone c.Locations c.Zone))
      else none := by
  obtain ⟨h1, h2, h3⟩ := derefsNil_false h
  by_cases hl : c.Locations.length > 0 <;>
    simp [hclDataOf, h1, h2, h3, nodeLocationsRule, hl, GoMap.get_set, GoMap.get_nil]

theorem filterOutPrimaryZone_all_primary (locations : List String) (primaryZone : String)
    (h : ∀ location ∈ locations, location = primaryZone) :
    filterOutPrimaryZone locations primaryZone = [] := by
  unfold filterOutPrimaryZone
  rw [filterOutPrimaryZone_loop, List.nil_append, List.filter_eq_nil_iff]
  intro location hl
  simp [h location hl]

theorem lastChars_trailing_sep (sep : Char) (pre : List Char) :
    lastChars sep (pre ++ [sep]) = [] :=
  lastChars_append_sep sep pre [] (by simp)

/-! ## C1 -/

/-- C1: `filterOutPrimaryZone L z` is exactly the elements of `L` that differ
from `z`, in their original order (every member of the result differs from
`z`, so every occurrence of `z` is removed); for distinct `a`, `b`, `c` it
maps `([a,b,c], b)` to `[a,c]`; and when `z` does not occur in `L` the result
is `L`. -/
theorem filterOutPrimaryZone_spec :
    (∀ (L : List String) (z : String),
        filterOutPrimaryZone L z = L.filter (fun x => decide (x ≠ z))
        ∧ z ∉ filterOutPrimaryZone L z) ∧
    (∀ a b c : String, a ≠ b → b ≠ c → a ≠ c →
        filterOutPrimaryZone [a, b, c] b = [a, c]) ∧
    (∀ (L : List String) (z : String), z ∉ L → filterOutPrimaryZone L z = L) := by
  have key : ∀ (L : List String) (z : String),
      filterOutPrimaryZone L z = L.filter (fun x => decide (x ≠ z)) := by
    intro L z
    unfold filterOutPrimaryZone
    rw [filterOutPrimaryZone_loop]
    simp
  refine ⟨?_, ?_, ?_⟩
  · intro L z
    refine ⟨key L z, ?_⟩
    rw [key]
    simp [List.mem_filter]
  · intro a b c hab hbc hac
    rw [key]
    have hcb : c ≠ b := fun e => hbc e.symm
    simp [List.filter, hab, hcb]
  · intro L z hz
    rw [key]
    rw [List.filter_eq_self]
    intro x hx
    have : x ≠ z := fun e => hz (e ▸ hx)
    simpa using this

/-- C1 at a concrete list: the primary zone in the middle, and absent. -/
theorem filterOutPrimaryZone_spec_witness :
    filterOutPrimaryZone ["us-a", "us-b", "us-c"] "us-b" = ["us-a", "us-c"]
    ∧ filterOutPrimaryZone ["us-a", "us-b", "us-c"] "us-z" = ["us-a", "us-b", "us-c"] :=
  ⟨filterOutPrimaryZone_spec.2.1 "us-a" "us-b" "us-c" (by decide) (by decide) (by decide),
   filterOutPrimaryZone_spec.2.2 ["us-a", "us-b", "us-c"] "us-z" (by decide)⟩

/-! ## C2 -/

/-- C2: the derived attribute map never contains both `location` and `zone`,
and contains exactly one of them whenever the name's `locations` segment,
the body's location field or the body's legacy zone path is non-empty. The
map is built for every decoded body that does not make the derivation read
through a nil pointer. -/
theorem location_zone_exclusive (P : String → String → String) (assetName : String)
    (cluster : Cluster) :
    (derefsNil cluster = false → ∃ m, deriveHclData P assetName cluster = Except.ok m) ∧
    ∀ m, deriveHclData P assetName cluster = Except.ok m →
      ¬ (GoMap.has m "location" = true ∧ GoMap.has m "zone" = true) ∧
      ((P assetName "locations" ≠ "" ∨ cluster.Location ≠ "" ∨ cluster.Zone ≠ "") →
        (GoMap.has m "location" = true ∧ GoMap.has m "zone" = false) ∨
        (GoMap.has m "location" = false ∧ GoMap.has m "zone" = true)) := by
  refine ⟨fun h => ⟨_, (deriveHclData_ok_iff P assetName cluster _).2 ⟨h, rfl⟩⟩, ?_⟩
  intro m hm
  obtain ⟨hsafe, rfl⟩ := (deriveHclData_ok_iff P assetName cluster m).1 hm
  unfold GoMap.has
  rw [hclDataOf_location P assetName cluster hsafe, hclDataOf_zone P assetName cluster hsafe]
  by_cases h1 : P assetName "locations" = "" <;> by_cases h2 : cluster.Location = "" <;>
    simp [h1, h2]

/-- C2 at a record without `locations` segment whose body carries only the
legacy zone path: the map is built and holds `zone` and not `location`. -/
theorem location_zone_exclusive_witness :
    ∃ m, deriveHclData ParseFieldValue zonalName legacyZoneCluster = Except.ok m ∧
      ¬ (GoMap.has m "location" = true ∧ GoMap.has m "zone" = true) ∧
      ((GoMap.has m "location" = true ∧ GoMap.has m "zone" = false) ∨
        (GoMap.has m "location" = false ∧ GoMap.has m "zone" = true)) :=
  let ⟨m, hm⟩ := (location_zone_exclusive ParseFieldValue zonalName legacyZoneCluster).1 rfl
  ⟨m, hm,
    ((location_zone_exclusive ParseFieldValue zonalName legacyZoneCluster).2 m hm).1,
    ((location_zone_exclusive ParseFieldValue zonalName legacyZoneCluster).2 m hm).2
      (Or.inr (Or.inr (by decide)))⟩

/-! ## C3 -/

/-- C3 fails as stated: for the record named `zonalName` (no `locations`
segment) with the all-zero body (empty location field, empty zone path), the
derived map contains the key `zone`, holding the empty string. -/
theorem no_location_sources_counterexample :
    ParseFieldValue zonalName "locations" = "" ∧
    zeroCluster.Location = "" ∧
    ParseFieldValue zeroCluster.Zone "zones" = "" ∧
    deriveHclData ParseFieldValue zonalName zeroCluster =
      Except.ok [("project", Value.str "my-project"), ("zone", Value.str ""),
        ("description", Value.str ""), ("name", Value.str "")] ∧
    GoMap.has [("project", Value.str "my-project"), ("zone", Value.str ""),
        ("description", Value.str ""), ("name", Value.str "")] "zone" = true :=
  ⟨by decide, rfl, by decide, by rfl, by rfl⟩

/-- C3 as amended: for every record whose name has no `locations` segment,
whose body location field is empty and whose legacy zone path yields an
empty zone, the derived map does not contain `location` and contains `zone`
with the empty string as its value. -/
theorem no_location_sources (P : String → String → String) (assetName : String)
    (cluster : Cluster)
    (hname : P assetName "locations" = "") (hloc : cluster.Location = "")
    (hzone : P cluster.Zone "zones" = "") :
    (derefsNil cluster = false → ∃ m, deriveHclData P assetName cluster = Except.ok m) ∧
    ∀ m, deriveHclData P assetName cluster = Except.ok m →
      GoMap.get m "location" = none ∧ GoMap.get m "zone" = some (Value.str "") := by
  refine ⟨fun h => ⟨_, (deriveHclData_ok_iff P assetName cluster _).2 ⟨h, rfl⟩⟩, ?_⟩
  intro m hm
  obtain ⟨hsafe, rfl⟩ := (deriveHclData_ok_iff P assetName cluster m).1 hm
  rw [hclDataOf_location P assetName cluster hsafe, hclDataOf_zone P assetName cluster hsafe]
  simp [hname, hloc, hzone]

/-- The amended C3 at the record named `zonalName` with the all-zero body. -/
theorem no_location_sources_witness :
    ∃ m, deriveHclData ParseFieldValue zonalName zeroCluster = Except.ok m ∧
      GoMap.get m "location" = none ∧ GoMap.get m "zone" = some (Value.str "") :=
  let ⟨m, hm⟩ :=
    (no_location_sources ParseFieldValue zonalName zeroCluster
      (by decide) rfl (by decide)).1 rfl
  ⟨m, hm,
    (no_location_sources ParseFieldValue zonalName zeroCluster
      (by decide) rfl (by decide)).2 m hm⟩

/-! ## C4 -/

/-- C4: the location rule is a first-non-empty precedence chain. If the
`locations` segment of the name is non-empty, `location` is that segment
whatever the body holds; otherwise if the body's location field is
non-empty, `location` is that field; otherwise `zone` is the `zones` segment
of the body's legacy zone path and `location` is not set. -/
theorem location_precedence (P : String → String → String) (assetName : String)
    (cluster : Cluster) :
    (derefsNil cluster = false → ∃ m, deriveHclData P assetName cluster = Except.ok m) ∧
    ∀ m, deriveHclData P assetName cluster = Except.ok m →
      (P assetName "locations" ≠ "" →
        GoMap.get m "location" = some (Value.str (P assetName "locations"))) ∧
      (P assetName "locations" = "" → cluster.Location ≠ "" →
        GoMap.get m "location" = some (Value.str cluster.Location)) ∧
      (P assetName "locations" = "" → cluster.Location = "" →
        GoMap.get m "zone" = some (Value.str (P cluster.Zone "zones")) ∧
        GoMap.get m "location" = none) := by
  refine ⟨fun h => ⟨_, (deriveHclData_ok_iff P assetName cluster _).2 ⟨h, rfl⟩⟩, ?_⟩
  intro m hm
  obtain ⟨hsafe, rfl⟩ := (deriveHclData_ok_iff P assetName cluster m).1 hm
  rw [hclDataOf_location P assetName cluster hsafe, hclDataOf_zone P assetName cluster hsafe]
  refine ⟨?_, ?_, ?_⟩
  · intro h1; simp [h1]
  · intro h1 h2; simp [h1, h2]
  · intro h1 h2; simp [h1, h2]

/-- C4 on three records: the name segment wins over the body's location, the
body's location is used when the name has no segment, and the legacy zone
path is used when both are empty. -/
theorem location_precedence_witness :
    (∃ m, deriveHclData ParseFieldValue regionalName locatedCluster = Except.ok m ∧
      GoMap.get m "location" = some (Value.str "us-central1")) ∧
    (∃ m, deriveHclData ParseFieldValue zonalName locatedCluster = Except.ok m ∧
      GoMap.get m "location" = some (Value.str "europe-west1")) ∧
    (∃ m, deriveHclData ParseFieldValue zonalName legacyZoneCluster = Except.ok m ∧
      GoMap.get m "zone" = some (Value.str "us-central1-a") ∧
      GoMap.get m "location" = none) :=
  ⟨let ⟨m, hm⟩ := (location_precedence ParseFieldValue regionalName locatedCluster).1 rfl
   ⟨m, hm, ((location_precedence ParseFieldValue regionalName locatedCluster).2 m hm).1
     (by decide)⟩,
   let ⟨m, hm⟩ := (location_precedence ParseFieldValue zonalName locatedCluster).1 rfl
   ⟨m, hm, ((location_precedence ParseFieldValue zonalName locatedCluster).2 m hm).2.1
     (by decide) (by decide)⟩,
   let ⟨m, hm⟩ := (location_precedence ParseFieldValue zonalName legacyZoneCluster).1 rfl
   ⟨m, hm, ((location_precedence ParseFieldValue zonalName legacyZoneCluster).2 m hm).2.2
     (by decide) (by decide)⟩⟩

/-! ## C5 -/

/-- C5: for the network and the subnetwork reference alike, an empty
reference leaves the key out of the derived map and a non-empty reference
puts the key in with the value `lastSegment` returns for it; `lastSegment`
returns the text after the final `/` (the whole string when it has no `/`),
so a reference ending in `/networks/my-net` yields `my-net`. -/
theorem network_short_names (P : String → String → String) (assetName : String)
    (cluster : Cluster) :
    ((derefsNil cluster = false → ∃ m, deriveHclData P assetName cluster = Except.ok m) ∧
     ∀ m, deriveHclData P assetName cluster = Except.ok m →
      (cluster.Network = "" → GoMap.get m "network" = none) ∧
      (cluster.Network ≠ "" → ∃ segment, lastSegment cluster.Network = Except.ok segment ∧
        GoMap.get m "network" = some (Value.str segment)) ∧
      (cluster.Subnetwork = "" → GoMap.get m "subnetwork" = none) ∧
      (cluster.Subnetwork ≠ "" → ∃ segment,
        lastSegment cluster.Subnetwork = Except.ok segment ∧
        GoMap.get m "subnetwork" = some (Value.str segment))) ∧
    (∀ pre suf : String, '/' ∉ suf.data → lastSegment (pre ++ "/" ++ suf) = Except.ok suf) ∧
    (∀ s : String, '/' ∉ s.data → lastSegment s = Except.ok s) ∧
    (∀ pre : String, lastSegment (pre ++ "/networks" ++ "/" ++ "my-net") = Except.ok "my-net") := by
  refine ⟨⟨fun h => ⟨_, (deriveHclData_ok_iff P assetName cluster _).2 ⟨h, rfl⟩⟩, ?_⟩,
    lastSegment_after_slash, lastSegment_no_slash,
    fun pre => lastSegment_after_slash (pre ++ "/networks") "my-net" (by decide)⟩
  intro m hm
  obtain ⟨hsafe, rfl⟩ := (deriveHclData_ok_iff P assetName cluster m).1 hm
  rw [hclDataOf_network P assetName cluster hsafe, hclDataOf_subnetwork P assetName cluster hsafe]
  refine ⟨?_, ?_, ?_, ?_⟩
  · intro h; simp [h]
  · intro h; exact ⟨_, lastSegment_eq _, by simp [h]⟩
  · intro h; simp [h]
  · intro h; exact ⟨_, lastSegment_eq _, by simp [h]⟩

/-- C5 on a body with a full network path and no subnetwork: `network` is
`my-net` and `subnetwork` is left out. -/
theorem network_short_names_witness :
    ∃ m, deriveHclData ParseFieldValue regionalName networkCluster = Except.ok m ∧
      (∃ segment, lastSegment networkCluster.Network = Except.ok segment ∧
        GoMap.get m "network" = some (Value.str segment)) ∧
      GoMap.get m "subnetwork" = none ∧
      lastSegment networkCluster.Network = Except.ok "my-net" :=
  let ⟨m, hm⟩ := (network_short_names ParseFieldValue regionalName networkCluster).1.1 rfl
  ⟨m, hm,
    ((network_short_names ParseFieldValue regionalName networkCluster).1.2 m hm).2.1
      (by decide),
    ((network_short_names ParseFieldValue regionalName networkCluster).1.2 m hm).2.2.1 rfl,
    (network_short_names ParseFieldValue regionalName networkCluster).2.1
      "projects/my-project/global/networks" "my-net" (by decide)⟩

/-! ## C6 -/

/-- C6 fails as stated: in the body `emptyBlocksCluster` the source pointers
of `ip_allocation_policy`, `node_config`, `addons_config`,
`maintenance_policy` and `workload_identity_config` are non-nil, and none of
these blocks is in the derived map. -/
theorem block_presence_counterexample :
    emptyBlocksCluster.IpAllocationPolicy.isSome = true ∧
    emptyBlocksCluster.NodeConfig.isSome = true ∧
    emptyBlocksCluster.AddonsConfig.isSome = true ∧
    emptyBlocksCluster.MaintenancePolicy.isSome = true ∧
    emptyBlocksCluster.WorkloadIdentityConfig.isSome = true ∧
    deriveHclData ParseFieldValue regionalName emptyBlocksCluster =
      Except.ok emptyBlocksHclData ∧
    GoMap.has emptyBlocksHclData "ip_allocation_policy" = false ∧
    GoMap.has emptyBlocksHclData "node_config" = false ∧
    GoMap.has emptyBlocksHclData "addons_config" = false ∧
    GoMap.has emptyBlocksHclData "maintenance_policy" = false ∧
    GoMap.has emptyBlocksHclData "workload_identity_config" = false :=
  ⟨rfl, rfl, rfl, rfl, rfl, by rfl, by rfl, by rfl, by rfl, by rfl, by rfl⟩

/-- C6 as amended. For every decoded body that has no nil entry among its
authorized-network and accelerator entries and whose recurring window, when
present, has a time window, the attribute map is derived, and in it:
`master_authorized_networks_config`, `private_cluster_config`,
`network_policy`, `database_encryption`, `binary_authorization` and
`release_channel` are present exactly when their source pointer is non-nil,
whatever the leaves hold; `ip_allocation_policy`, `node_config` and
`addons_config` are present exactly when their pointer is non-nil and one of
their leaves, collections or sub-objects is populated; `maintenance_policy`
exactly when the policy pointer and its window pointer are both non-nil;
`workload_identity_config` exactly when the pointer is non-nil and the
workload pool is non-empty. -/
theorem block_presence (P : String → String → String) (assetName : String)
    (cluster : Cluster) (hsafe : derefsNil cluster = false) :
    ∃ m, deriveHclData P assetName cluster = Except.ok m ∧
      GoMap.has m "master_authorized_networks_config" =
        cluster.MasterAuthorizedNetworksConfig.isSome ∧
      GoMap.has m "private_cluster_config" = cluster.PrivateClusterConfig.isSome ∧
      GoMap.has m "network_policy" = cluster.NetworkPolicy.isSome ∧
      GoMap.has m "database_encryption" = cluster.DatabaseEncryption.isSome ∧
      GoMap.has m "binary_authorization" = cluster.BinaryAuthorization.isSome ∧
      GoMap.has m "release_channel" = cluster.ReleaseChannel.isSome ∧
      (GoMap.has m "ip_allocation_policy" = true ↔
        ∃ policy, cluster.IpAllocationPolicy = some policy ∧ policy.populated = true) ∧
      (GoMap.has m "node_config" = true ↔
        ∃ config, cluster.NodeConfig = some config ∧ config.populated = true) ∧
      (GoMap.has m "addons_config" = true ↔
        ∃ addons, cluster.AddonsConfig = some addons ∧ addons.populated = true) ∧
      (GoMap.has m "maintenance_policy" = true ↔
        ∃ policy window, cluster.MaintenancePolicy = some policy ∧
          policy.Window = some window) ∧
      (GoMap.has m "workload_identity_config" = true ↔
        ∃ config, cluster.WorkloadIdentityConfig = some config ∧
          config.WorkloadPool ≠ "") := by
  refine ⟨hclDataOf P assetName cluster,
    (deriveHclData_ok_iff P assetName cluster _).2 ⟨hsafe, rfl⟩, ?_⟩
  refine ⟨?_, hclDataOf_has_privateClusterConfig P assetName cluster hsafe,
    hclDataOf_has_networkPolicy P assetName cluster hsafe,
    hclDataOf_has_databaseEncryption P assetName cluster hsafe,
    hclDataOf_has_binaryAuthorization P assetName cluster hsafe,
    hclDataOf_has_releaseChannel P assetName cluster hsafe, ?_, ?_, ?_,
    hclDataOf_has_maintenancePolicy P assetName cluster hsafe,
    hclDataOf_has_workloadIdentityConfig P assetName cluster hsafe⟩
  · unfold GoMap.has
    rw [hclDataOf_masterAuthorizedNetworksConfig P assetName cluster hsafe]
    cases cluster.MasterAuthorizedNetworksConfig <;> rfl
  · unfold GoMap.has
    rw [hclDataOf_ipAllocationPolicy P assetName cluster hsafe]
    cases cluster.IpAllocationPolicy with
    | none => simp
    | some policy => by_cases hp : policy.populated = true <;> simp [hp]
  · unfold GoMap.has
    rw [hclDataOf_nodeConfig P assetName cluster hsafe]
    cases cluster.NodeConfig with
    | none => simp
    | some config => by_cases hp : config.populated = true <;> simp [hp]
  · unfold GoMap.has
    rw [hclDataOf_addonsConfig P assetName cluster hsafe]
    cases cluster.AddonsConfig with
    | none => simp
    | some addons => by_cases hp : addons.populated = true <;> simp [hp]

/-- The amended C6 on a body whose six always-emitted blocks are present with
all-zero leaves: the map is built and each of the six blocks is in it. -/
theorem block_presence_witness :
    ∃ m, deriveHclData ParseFieldValue regionalName zeroBlocksCluster = Except.ok m ∧
      GoMap.has m "master_authorized_networks_config" = true ∧
      GoMap.has m "private_cluster_config" = true ∧
      GoMap.has m "network_policy" = true ∧
      GoMap.has m "database_encryption" = true ∧
      GoMap.has m "binary_authorization" = true ∧
      GoMap.has m "release_channel" = true :=
  let ⟨m, hm, h⟩ := block_presence ParseFieldValue regionalName zeroBlocksCluster rfl
  ⟨m, hm, h.1, h.2.1, h.2.2.1, h.2.2.2.1, h.2.2.2.2.1, h.2.2.2.2.2.1⟩

/-! ## C7 -/

/-- C7: when the addons config is present and the load-balancing toggle is
non-nil, the derived map holds `addons_config` as a one-element list whose
map holds `http_load_balancing` as a one-element list with the single key
`disabled` set to the source flag, true or false; the same for the
`horizontal_pod_autoscaling` and `network_policy_config` toggles. -/
theorem addons_toggles (P : String → String → String) (assetName : String)
    (cluster : Cluster) (addons : AddonsConfig)
    (haddons : cluster.AddonsConfig = some addons) :
    (derefsNil cluster = false → ∃ m, deriveHclData P assetName cluster = Except.ok m) ∧
    ∀ m, deriveHclData P assetName cluster = Except.ok m →
      (∀ toggle, addons.HttpLoadBalancing = some toggle →
        ∃ block, GoMap.get m "addons_config" = some (Value.blocks [block]) ∧
          GoMap.get block "http_load_balancing" =
            some (Value.blocks [[("disabled", Value.bool toggle.Disabled)]])) ∧
      (∀ toggle, addons.HorizontalPodAutoscaling = some toggle →
        ∃ block, GoMap.get m "addons_config" = some (Value.blocks [block]) ∧
          GoMap.get block "horizontal_pod_autoscaling" =
            some (Value.blocks [[("disabled", Value.bool toggle.Disabled)]])) ∧
      (∀ toggle, addons.NetworkPolicyConfig = some toggle →
        ∃ block, GoMap.get m "addons_config" = some (Value.blocks [block]) ∧
          GoMap.get block "network_policy_config" =
            some (Value.blocks [[("disabled", Value.bool toggle.Disabled)]])) := by
  refine ⟨fun h => ⟨_, (deriveHclData_ok_iff P assetName cluster _).2 ⟨h, rfl⟩⟩, ?_⟩
  intro m hm
  obtain ⟨hsafe, rfl⟩ := (deriveHclData_ok_iff P assetName cluster m).1 hm
  have hget := hclDataOf_addonsConfig P assetName cluster hsafe
  rw [haddons] at hget
  obtain ⟨g1, g2, g3⟩ := get_addonsConfigMap_toggles addons
  refine ⟨?_, ?_, ?_⟩
  · intro toggle ht
    have hp : addons.populated = true := by simp [AddonsConfig.populated, ht]
    exact ⟨addonsConfigMap addons, by simpa [hp] using hget, by rw [g1, ht]; rfl⟩
  · intro toggle ht
    have hp : addons.populated = true := by simp [AddonsConfig.populated, ht]
    exact ⟨addonsConfigMap addons, by simpa [hp] using hget, by rw [g2, ht]; rfl⟩
  · intro toggle ht
    have hp : addons.populated = true := by simp [AddonsConfig.populated, ht]
    exact ⟨addonsConfigMap addons, by simpa [hp] using hget, by rw [g3, ht]; rfl⟩

/-- C7 on a body with load balancing disabled and autoscaling enabled: the
`disabled` flags in the map are `true` and `false`. -/
theorem addons_toggles_witness :
    ∃ m, deriveHclData ParseFieldValue regionalName addonsCluster = Except.ok m ∧
      (∃ block, GoMap.get m "addons_config" = some (Value.blocks [block]) ∧
        GoMap.get block "http_load_balancing" =
          some (Value.blocks [[("disabled", Value.bool true)]])) ∧
      (∃ block, GoMap.get m "addons_config" = some (Value.blocks [block]) ∧
        GoMap.get block "horizontal_pod_autoscaling" =
          some (Value.blocks [[("disabled", Value.bool false)]])) :=
  let ⟨m, hm⟩ :=
    (addons_toggles ParseFieldValue regionalName addonsCluster toggledAddons rfl).1 rfl
  let h := (addons_toggles ParseFieldValue regionalName addonsCluster toggledAddons rfl).2 m hm
  ⟨m, hm, h.1 { Disabled := true } rfl, h.2.1 { Disabled := false } rfl⟩

/-! ## Repeatable collections in the maps that are derived -/

/-- In every derived map: with a node config holding `N` accelerator
entries, when `N > 0` the `node_config` block holds `guest_accelerator` as a
list of exactly `N` maps, the i-th with `count` and `type` of the i-th
source entry, and when `N = 0` the key `guest_accelerator` is absent; the
same for the authorized-network entries under
`master_authorized_networks_config.cidr_blocks` with `cidr_block` and
`display_name`. A map is derived only from bodies without nil entries. -/
theorem repeated_collections (P : String → String → String) (assetName : String)
    (cluster : Cluster) :
    (derefsNil cluster = false → ∃ m, deriveHclData P assetName cluster = Except.ok m) ∧
    ∀ m, deriveHclData P assetName cluster = Except.ok m →
      (∀ config, cluster.NodeConfig = some config →
        (config.Accelerators ≠ [] →
          ∃ (entries : List AcceleratorConfig) (block : GoMap Value), config.Accelerators = entries.map some ∧
            entries.length = config.Accelerators.length ∧
            GoMap.get m "node_config" = some (Value.blocks [block]) ∧
            GoMap.get block "guest_accelerator" =
              some (Value.blocks (entries.map (fun accelerator =>
                [("count", Value.int accelerator.AcceleratorCount),
                 ("type", Value.str accelerator.AcceleratorType)])))) ∧
        (config.Accelerators = [] →
          ∀ block, GoMap.get m "node_config" = some (Value.blocks [block]) →
            GoMap.get block "guest_accelerator" = none)) ∧
      (∀ config, cluster.MasterAuthorizedNetworksConfig = some config →
        (config.CidrBlocks ≠ [] →
          ∃ (entries : List CidrBlock) (block : GoMap Value), config.CidrBlocks = entries.map some ∧
            entries.length = config.CidrBlocks.length ∧
            GoMap.get m "master_authorized_networks_config" = some (Value.blocks [block]) ∧
            GoMap.get block "cidr_blocks" =
              some (Value.blocks (entries.map (fun cidrBlock =>
                [("cidr_block", Value.str cidrBlock.CidrBlock),
                 ("display_name", Value.str cidrBlock.DisplayName)])))) ∧
        (config.CidrBlocks = [] →
          ∀ block,
            GoMap.get m "master_authorized_networks_config" = some (Value.blocks [block]) →
            GoMap.get block "cidr_blocks" = none)) := by
  refine ⟨fun h => ⟨_, (deriveHclData_ok_iff P assetName cluster _).2 ⟨h, rfl⟩⟩, ?_⟩
  intro m hm
  obtain ⟨hsafe, rfl⟩ := (deriveHclData_ok_iff P assetName cluster m).1 hm
  obtain ⟨h1, h2, _⟩ := derefsNil_false hsafe
  refine ⟨?_, ?_⟩
  · intro config hc
    have hget := hclDataOf_nodeConfig P assetName cluster hsafe
    rw [hc] at hget
    have hn : hasNil config.Accelerators = false := by simpa [nilAccelerator, hc] using h2
    refine ⟨?_, ?_⟩
    · intro hne
      obtain ⟨entries, he⟩ := exists_entries_of_hasNil_false _ hn
      have hp := NodeConfig.populated_of_accelerators config hne
      have hl : config.Accelerators.length > 0 := List.length_pos.2 hne
      refine ⟨entries, nodeConfigMap config, he, by simp [he], by simpa [hp] using hget, ?_⟩
      rw [get_nodeConfigMap_guest_accelerator, if_pos hl, he, acceleratorMaps_map_some]
    · intro hnil block hb
      rw [hget] at hb
      by_cases hp : config.populated = true
      · have hb' : nodeConfigMap config = block := by simpa [hp] using hb
        rw [← hb', get_nodeConfigMap_guest_accelerator, hnil]
        rfl
      · simp [hp] at hb
  · intro config hc
    have hget := hclDataOf_masterAuthorizedNetworksConfig P assetName cluster hsafe
    rw [hc] at hget
    have hn : hasNil config.CidrBlocks = false := by simpa [nilCidrBlock, hc] using h1
    refine ⟨?_, ?_⟩
    · intro hne
      obtain ⟨entries, he⟩ := exists_entries_of_hasNil_false _ hn
      have hl : config.CidrBlocks.length > 0 := List.length_pos.2 hne
      refine ⟨entries, masterAuthorizedNetworksConfigMap config, he, by simp [he],
        by simpa using hget, ?_⟩
      rw [get_masterAuthorizedNetworksConfigMap_cidr_blocks, if_pos hl, he,
        cidrBlockMaps_map_some]
    · intro hnil block hb
      rw [hget] at hb
      have hb' : masterAuthorizedNetworksConfigMap config = block := by simpa using hb
      rw [← hb', get_masterAuthorizedNetworksConfigMap_cidr_blocks, hnil]
      rfl

/-- A body with two accelerators and two authorized ranges, none of them
nil: both output lists have two maps, in source order. -/
theorem repeated_collections_witness :
    ∃ m, deriveHclData ParseFieldValue regionalName repeatedCluster = Except.ok m ∧
      (∃ (entries : List AcceleratorConfig) (block : GoMap Value), gpuNodeConfig.Accelerators = entries.map some ∧
        entries.length = 2 ∧
        GoMap.get m "node_config" = some (Value.blocks [block]) ∧
        GoMap.get block "guest_accelerator" =
          some (Value.blocks (entries.map (fun accelerator =>
            [("count", Value.int accelerator.AcceleratorCount),
             ("type", Value.str accelerator.AcceleratorType)])))) ∧
      (∃ (entries : List CidrBlock) (block : GoMap Value), twoRangesConfig.CidrBlocks = entries.map some ∧
        entries.length = 2 ∧
        GoMap.get m "master_authorized_networks_config" = some (Value.blocks [block]) ∧
        GoMap.get block "cidr_blocks" =
          some (Value.blocks (entries.map (fun cidrBlock =>
            [("cidr_block", Value.str cidrBlock.CidrBlock),
             ("display_name", Value.str cidrBlock.DisplayName)])))) :=
  let ⟨m, hm⟩ := (repeated_collections ParseFieldValue regionalName repeatedCluster).1 rfl
  let h := (repeated_collections ParseFieldValue regionalName repeatedCluster).2 m hm
  ⟨m, hm, (h.1 gpuNodeConfig rfl).1 (List.cons_ne_nil _ _),
    (h.2 twoRangesConfig rfl).1 (List.cons_ne_nil _ _)⟩

/-! ## C8 -/

/-- C8 fails on the code. The node config `nilEntryNodeConfig` holds `N = 2`
accelerator entries, the second one nil; line 260 reads
`accelerator.AcceleratorCount` through the nil entry, the derivation panics
and no `guest_accelerator` list of two maps is produced. The same happens at
line 195 for the two authorized-network entries of `nilEntryRangesConfig`,
and for every body with a nil entry in one of the two slices. -/
theorem repeated_collections_nil_entry :
    nilEntryNodeConfig.Accelerators.length = 2 ∧
    deriveHclData ParseFieldValue regionalName nilAcceleratorCluster =
      Except.error Fault.nilDereference ∧
    (∀ m, deriveHclData ParseFieldValue regionalName nilAcceleratorCluster ≠ Except.ok m) ∧
    nilEntryRangesConfig.CidrBlocks.length = 2 ∧
    deriveHclData ParseFieldValue regionalName nilRangeCluster =
      Except.error Fault.nilDereference ∧
    (∀ m, deriveHclData ParseFieldValue regionalName nilRangeCluster ≠ Except.ok m) ∧
    (∀ (P : String → String → String) (assetName : String) (cluster : Cluster),
      nilAccelerator cluster = true ∨ nilCidrBlock cluster = true →
      deriveHclData P assetName cluster = Except.error Fault.nilDereference) := by
  have general : ∀ (P : String → String → String) (assetName : String) (cluster : Cluster),
      nilAccelerator cluster = true ∨ nilCidrBlock cluster = true →
      deriveHclData P assetName cluster = Except.error Fault.nilDereference := by
    intro P assetName cluster h
    rw [deriveHclData_error_iff]
    refine ⟨?_, rfl⟩
    rcases h with h | h <;> simp [derefsNil, h]
  have e1 := general ParseFieldValue regionalName nilAcceleratorCluster (Or.inl rfl)
  have e2 := general ParseFieldValue regionalName nilRangeCluster (Or.inr rfl)
  refine ⟨rfl, e1, ?_, rfl, e2, ?_, general⟩
  · intro m hm
    rw [e1] at hm
    exact absurd hm (by simp)
  · intro m hm
    rw [e2] at hm
    exact absurd hm (by simp)

/-! ## C9 -/

/-- C9: when `Convert` succeeds, its output is the concatenation, in input
order, of the blocks of each record; a record contributes no block when it
has neither a policy payload nor resource-body data (or is nil), one block
when it has exactly one of them, and two blocks, the policy block first and
the body block second, when it has both. -/
theorem convert_output_order {σ : Type} (common : Common σ)
    (c : ContainerClusterConverter σ) (assets : List (Option Asset))
    (blocks : List (Option HCLResourceBlock))
    (h : Convert common c assets = Except.ok (blocks, none)) :
    blocks = assets.flatMap (recordBlocks common c) ∧
    ∀ record ∈ assets,
      (record = none → recordBlocks common c record = []) ∧
      ∀ asset, record = some asset →
        (asset.IAMPolicy = none → hasResourceData asset = false →
          recordBlocks common c record = []) ∧
        (asset.IAMPolicy ≠ none → hasResourceData asset = false →
          ∃ policyBlock, convertIAM common c (some asset) = (some policyBlock, none) ∧
            recordBlocks common c record = [some policyBlock]) ∧
        (asset.IAMPolicy = none → hasResourceData asset = true →
          ∃ bodyBlock,
            convertResourceData common c (some asset) = Except.ok (some bodyBlock, none) ∧
            recordBlocks common c record = [some bodyBlock]) ∧
        (asset.IAMPolicy ≠ none → hasResourceData asset = true →
          ∃ policyBlock bodyBlock,
            convertIAM common c (some asset) = (some policyBlock, none) ∧
            convertResourceData common c (some asset) = Except.ok (some bodyBlock, none) ∧
            recordBlocks common c record = [some policyBlock, some bodyBlock]) := by
  obtain ⟨hblocks, hall⟩ := Convert_ok_converted common c assets blocks h
  refine ⟨hblocks, ?_⟩
  intro record hrec
  refine ⟨fun e => by rw [e]; rfl, ?_⟩
  intro asset hasset
  subst hasset
  have hmem : ∀ r ∈ payloadResults common c (some asset), r.converted :=
    fun r hr => hall r (List.mem_flatMap.mpr ⟨_, hrec, hr⟩)
  refine ⟨?_, ?_, ?_, ?_⟩
  · intro hp hd
    simp [recordBlocks, hp, hd]
  · intro hp hd
    have hp' : asset.IAMPolicy.isSome = true := by
      cases hq : asset.IAMPolicy with
      | none => exact absurd hq hp
      | some _ => rfl
    obtain ⟨b, hb⟩ := hmem (Except.ok (convertIAM common c (some asset)))
      (by simp [payloadResults, hp'])
    have hb' : convertIAM common c (some asset) = (some b, none) := by simpa using hb
    exact ⟨b, hb', by simp [recordBlocks, hp', hd, hb']⟩
  · intro hp hd
    obtain ⟨b, hb⟩ := hmem (convertResourceData common c (some asset))
      (by simp [payloadResults, hd])
    exact ⟨b, hb, by simp [recordBlocks, hp, hd, hb, blockOf]⟩
  · intro hp hd
    have hp' : asset.IAMPolicy.isSome = true := by
      cases hq : asset.IAMPolicy with
      | none => exact absurd hq hp
      | some _ => rfl
    obtain ⟨p, hpb⟩ := hmem (Except.ok (convertIAM common c (some asset)))
      (by simp [payloadResults, hp'])
    have hpb' : convertIAM common c (some asset) = (some p, none) := by simpa using hpb
    obtain ⟨b, hb⟩ := hmem (convertResourceData common c (some asset))
      (by simp [payloadResults, hd])
    exact ⟨p, b, hpb', hb, by simp [recordBlocks, hp', hd, hpb', hb, blockOf]⟩

/-- C9 on a batch of a record with both payloads, a nil record, a record
with neither payload and a record with a body only: three blocks, the
policy block of the first record before its body block. -/
theorem convert_output_order_witness :
    ∃ policyBlock bodyBlock,
      Convert standInCommon standInConverter
        [some policyAndBodyRecord, none, some bareRecord, some bodyRecord] =
        Except.ok ([some policyBlock, some bodyBlock, some bodyBlock], none) ∧
      [some policyBlock, some bodyBlock, some bodyBlock] =
        [some policyAndBodyRecord, none, some bareRecord, some bodyRecord].flatMap
          (recordBlocks standInCommon standInConverter) ∧
      policyBlock.Labels = ["google_container_cluster_iam_policy", "my-cluster_iam_policy"] ∧
      bodyBlock.Labels = ["google_container_cluster", "my-cluster"] :=
  ⟨_, _, rfl,
    (convert_output_order standInCommon standInConverter
      [some policyAndBodyRecord, none, some bareRecord, some bodyRecord] _ rfl).1,
    by decide, by decide⟩

/-! ## Fail-fast behaviour of `Convert` on batches without panic -/

/-- If the first payload, in input order, that is not converted to a block
returns an error, `Convert` returns that error and no blocks; if some
payload returns an error and none panics, `Convert` returns an error and no
blocks; whenever `Convert` returns an error it returns no blocks; and
`Convert` returns blocks without error only when every payload of every
record converts. -/
theorem convert_fail_fast {σ : Type} (common : Common σ)
    (c : ContainerClusterConverter σ) (assets : List (Option Asset)) :
    (∀ (pre : List PayloadResult) (block : Option HCLResourceBlock) (err : GoError)
        (post : List PayloadResult),
      assets.flatMap (payloadResults common c) = pre ++ Except.ok (block, some err) :: post →
      (∀ r ∈ pre, PayloadResult.converted r) →
      Convert common c assets = Except.ok ([], some err)) ∧
    ((∃ r ∈ assets.flatMap (payloadResults common c),
        ∃ block err, r = Except.ok (block, some err)) →
      (∀ r ∈ assets.flatMap (payloadResults common c), ∀ fault, r ≠ Except.error fault) →
      ∃ err, Convert common c assets = Except.ok ([], some err)) ∧
    (∀ blocks err, Convert common c assets = Except.ok (blocks, some err) → blocks = []) ∧
    (∀ blocks, Convert common c assets = Except.ok (blocks, none) →
      ∀ r ∈ assets.flatMap (payloadResults common c), PayloadResult.converted r) := by
  refine ⟨?_, ?_, ?_, ?_⟩
  · intro pre block err post hsplit hpre
    rw [Convert_eq_collectResults, hsplit]
    apply collectResults_first_error
    intro r hr
    obtain ⟨b, hb⟩ := hpre r hr
    exact ⟨some b, hb⟩
  · intro herr hpanic
    rw [Convert_eq_collectResults]
    exact collectResults_some_error _ _ herr hpanic
  · intro blocks err h
    rw [Convert_eq_collectResults] at h
    exact collectResults_ok_some _ _ _ _ h
  · intro blocks h
    exact (Convert_ok_converted common c assets blocks h).2

/-- A batch of three records whose second record has an undecodable body and
whose other bodies convert: no blocks, and the decode error of the second
record. -/
theorem convert_fail_fast_witness :
    Convert standInCommon standInConverter
      [some bodyRecord, some malformedRecord, some bodyRecord] =
      Except.ok ([], some "error unmarshaling data") :=
  (convert_fail_fast standInCommon standInConverter
    [some bodyRecord, some malformedRecord, some bodyRecord]).1
    [convertResourceData standInCommon standInConverter (some bodyRecord)]
    none "error unmarshaling data"
    [convertResourceData standInCommon standInConverter (some bodyRecord)]
    rfl
    (fun r hr => by
      have hr' := List.mem_singleton.mp hr
      subst hr'
      exact ⟨_, rfl⟩)

/-! ## C10 -/

/-- C10 fails on the code. In the batch of `bodyRecord` followed by
`malformedRecord`, decoded by `recurringDecodingCommon`, converting the body
of the second record fails with the decode error, and the body of the first
record decodes to `recurringOnlyCluster`: its derivation panics at line 377,
so `Convert` returns neither an error nor blocks. On the single record
`bodyRecord` the conversion of the body fails by the same panic and
`Convert` returns no error either. -/
theorem convert_panics_instead_of_error :
    convertResourceData recurringDecodingCommon standInConverter (some malformedRecord) =
      Except.ok (none, some "error unmarshaling data") ∧
    convertResourceData recurringDecodingCommon standInConverter (some bodyRecord) =
      Except.error Fault.nilDereference ∧
    Convert recurringDecodingCommon standInConverter
      [some bodyRecord, some malformedRecord] = Except.error Fault.nilDereference ∧
    (∀ blocks err, Convert recurringDecodingCommon standInConverter
      [some bodyRecord, some malformedRecord] ≠ Except.ok (blocks, err)) ∧
    Convert recurringDecodingCommon standInConverter [some bodyRecord] =
      Except.error Fault.nilDereference := by
  have e : Convert recurringDecodingCommon standInConverter
      [some bodyRecord, some malformedRecord] = Except.error Fault.nilDereference := by rfl
  refine ⟨by rfl, by rfl, e, ?_, by rfl⟩
  intro blocks err h
  rw [e] at h
  exact absurd h (by simp)

/-! ## C11 -/

/-- C11: the policy block does not depend on the resource body. Two records
with the same structured name and the same policy payload, whatever their
resource bodies, get the same result from `convertIAM`; when the policy is
present and marshals, that result is a block without error whose `location`,
`cluster` and `project` attributes are the `locations`, `clusters` and
`projects` segments extracted from the structured name. -/
theorem policy_block_independent {σ : Type} (common : Common σ)
    (c : ContainerClusterConverter σ) (first second : Asset)
    (hname : first.Name = second.Name) (hpolicy : first.IAMPolicy = second.IAMPolicy) :
    convertIAM common c (some first) = convertIAM common c (some second) ∧
    ∀ policy policyData, first.IAMPolicy = some policy →
      common.jsonMarshal policy = Except.ok policyData →
      ∃ block attrs, convertIAM common c (some first) = (some block, none) ∧
        convertIAM common c (some second) = (some block, none) ∧
        block.Value = CtyValue.ObjectVal attrs ∧
        GoMap.get attrs "location" =
          some (CtyValue.StringVal (common.ParseFieldValue first.Name "locations")) ∧
        GoMap.get attrs "cluster" =
          some (CtyValue.StringVal (common.ParseFieldValue first.Name "clusters")) ∧
        GoMap.get attrs "project" =
          some (CtyValue.StringVal (common.ParseFieldValue first.Name "projects")) := by
  have heq : convertIAM common c (some first) = convertIAM common c (some second) := by
    unfold convertIAM
    simp only [hname, hpolicy]
  refine ⟨heq, ?_⟩
  intro policy policyData hp hm
  have hfirst : convertIAM common c (some first) =
      (some {
        Labels := [c.name ++ "_iam_policy",
          common.ParseFieldValue first.Name "clusters" ++ "_iam_policy"]
        Value := CtyValue.ObjectVal [
          ("location", CtyValue.StringVal (common.ParseFieldValue first.Name "locations")),
          ("cluster", CtyValue.StringVal (common.ParseFieldValue first.Name "clusters")),
          ("project", CtyValue.StringVal (common.ParseFieldValue first.Name "projects")),
          ("policy_data", CtyValue.StringVal policyData)] }, none) := by
    unfold convertIAM
    simp only [hp, hm]
  exact ⟨_, _, hfirst, heq ▸ hfirst, rfl, by simp [GoMap.get], by simp [GoMap.get],
    by simp [GoMap.get]⟩

/-- C11 on two records with the same name and policy, one with a body that
decodes and one with a body that does not: the same policy block, with the
identifiers of the name. -/
theorem policy_block_independent_witness :
    convertIAM standInCommon standInConverter (some policyAndBodyRecord) =
      convertIAM standInCommon standInConverter (some policyAndOtherBodyRecord) ∧
    ∃ block attrs,
      convertIAM standInCommon standInConverter (some policyAndBodyRecord) =
        (some block, none) ∧
      convertIAM standInCommon standInConverter (some policyAndOtherBodyRecord) =
        (some block, none) ∧
      block.Value = CtyValue.ObjectVal attrs ∧
      GoMap.get attrs "location" = some (CtyValue.StringVal "us-central1") ∧
      GoMap.get attrs "cluster" = some (CtyValue.StringVal "my-cluster") ∧
      GoMap.get attrs "project" = some (CtyValue.StringVal "my-project") :=
  ⟨(policy_block_independent standInCommon standInConverter policyAndBodyRecord
      policyAndOtherBodyRecord rfl rfl).1,
   (policy_block_independent standInCommon standInConverter policyAndBodyRecord
      policyAndOtherBodyRecord rfl rfl).2 adminPolicy "policy" rfl rfl⟩

/-! ## C13 -/

/-- C13: the key `initial_node_count` is absent from the derived map when the
source initial node count is zero, and when the source count is positive the
key is present with exactly that count. -/
theorem initial_node_count_rule (P : String → String → String) (assetName : String)
    (cluster : Cluster) :
    (derefsNil cluster = false → ∃ m, deriveHclData P assetName cluster = Except.ok m) ∧
    ∀ m, deriveHclData P assetName cluster = Except.ok m →
      (cluster.InitialNodeCount = 0 → GoMap.get m "initial_node_count" = none) ∧
      (cluster.InitialNodeCount > 0 →
        GoMap.get m "initial_node_count" = some (Value.int cluster.InitialNodeCount)) := by
  refine ⟨fun h => ⟨_, (deriveHclData_ok_iff P assetName cluster _).2 ⟨h, rfl⟩⟩, ?_⟩
  intro m hm
  obtain ⟨hsafe, rfl⟩ := (deriveHclData_ok_iff P assetName cluster m).1 hm
  rw [hclDataOf_initialNodeCount P assetName cluster hsafe]
  refine ⟨?_, ?_⟩
  · intro h; simp [h]
  · intro h; simp [h]

/-- C13 on a body with no initial node count and on one with three nodes. -/
theorem initial_node_count_rule_witness :
    (∃ m, deriveHclData ParseFieldValue regionalName zeroCluster = Except.ok m ∧
      GoMap.get m "initial_node_count" = none) ∧
    (∃ m, deriveHclData ParseFieldValue regionalName threeNodeCluster = Except.ok m ∧
      GoMap.get m "initial_node_count" = some (Value.int 3)) :=
  ⟨let ⟨m, hm⟩ := (initial_node_count_rule ParseFieldValue regionalName zeroCluster).1 rfl
   ⟨m, hm, ((initial_node_count_rule ParseFieldValue regionalName zeroCluster).2 m hm).1 rfl⟩,
   let ⟨m, hm⟩ := (initial_node_count_rule ParseFieldValue regionalName threeNodeCluster).1 rfl
   ⟨m, hm, ((initial_node_count_rule ParseFieldValue regionalName threeNodeCluster).2 m hm).2
     (by decide)⟩⟩

/-! ## C15 -/

/-- C15: `Convert` carries no state across records. `Convert (xs ++ ys)`
succeeds (returns blocks and no error) exactly when `Convert xs` and
`Convert ys` both succeed, and its output is then the output of
`Convert xs` followed by the output of `Convert ys`. -/
theorem convert_append {σ : Type} (common : Common σ) (c : ContainerClusterConverter σ)
    (xs ys : List (Option Asset)) (blocks : List (Option HCLResourceBlock)) :
    Convert common c (xs ++ ys) = Except.ok (blocks, none) ↔
      ∃ first second, Convert common c xs = Except.ok (first, none) ∧
        Convert common c ys = Except.ok (second, none) ∧ blocks = first ++ second := by
  simp only [Convert_eq_collectResults, collectResults_ok_none, List.flatMap_append,
    List.map_append, List.nil_append, List.mem_append]
  constructor
  · rintro ⟨hall, hb⟩
    exact ⟨_, _, ⟨fun r hr => hall r (Or.inl hr), rfl⟩, ⟨fun r hr => hall r (Or.inr hr), rfl⟩,
      hb⟩
  · rintro ⟨first, second, ⟨h1, rfl⟩, ⟨h2, rfl⟩, hb⟩
    exact ⟨fun r hr => hr.elim (h1 r) (h2 r), hb⟩

/-- C15 on a batch split after its first record: the three blocks of the
whole batch are the two blocks of the first part followed by the block of
the second. -/
theorem convert_append_witness :
    ∃ first second,
      Convert standInCommon standInConverter [some policyAndBodyRecord] =
        Except.ok (first, none) ∧
      Convert standInCommon standInConverter [none, some bodyRecord] =
        Except.ok (second, none) ∧
      first.length = 2 ∧ second.length = 1 ∧
      Convert standInCommon standInConverter
        ([some policyAndBodyRecord] ++ [none, some bodyRecord]) =
        Except.ok (first ++ second, none) :=
  ⟨_, _, rfl, rfl, rfl, rfl,
    (convert_append standInCommon standInConverter [some policyAndBodyRecord]
      [none, some bodyRecord] _).2 ⟨_, _, rfl, rfl, rfl⟩⟩

/-! ## C17 -/

/-- C17: nil records are skipped. `Convert` gives on every input sequence the
result (blocks, error or panic) it gives on the sequence with the nil
records removed, and a sequence of nil records only yields no blocks and no
error. -/
theorem convert_skips_nil {σ : Type} (common : Common σ) (c : ContainerClusterConverter σ)
    (assets : List (Option Asset)) :
    Convert common c assets = Convert common c (assets.filter Option.isSome) ∧
    ((∀ record ∈ assets, record = none) → Convert common c assets = Except.ok ([], none)) := by
  refine ⟨?_, ?_⟩
  · rw [Convert_eq_collectResults, Convert_eq_collectResults, flatMap_payloadResults_filter]
  · intro h
    rw [Convert_eq_collectResults, flatMap_payloadResults_all_nil common c assets h]
    rfl

/-- C17 on a batch with nil records around a record with a body, and on a
batch of nil records. -/
theorem convert_skips_nil_witness :
    Convert standInCommon standInConverter [none, some bodyRecord, none] =
      Convert standInCommon standInConverter [some bodyRecord] ∧
    Convert standInCommon standInConverter [none, none] = Except.ok ([], none) :=
  ⟨(convert_skips_nil standInCommon standInConverter [none, some bodyRecord, none]).1,
   (convert_skips_nil standInCommon standInConverter [none, none]).2
     (fun record hr => by
       rcases List.mem_cons.mp hr with e | e
       · exact e
       · exact List.mem_singleton.mp e)⟩

/-! ## C18 -/

/-- C18: `lastSegment` is total and well-formed for every string, the empty
string included. Splitting on `/` yields at least one part, so the index of
the last part is in bounds and `lastSegment` returns; the result contains no
`/`; the input ends with the result; and the input equals the result exactly
when the input contains no `/`. -/
theorem lastSegment_well_formed (path : String) :
    stringsSplit path '/' ≠ [] ∧
    (stringsSplit path '/').length - 1 < (stringsSplit path '/').length ∧
    lastSegment "" = Except.ok "" ∧
    ∃ segment, lastSegment path = Except.ok segment ∧
      '/' ∉ segment.data ∧
      List.IsSuffix segment.data path.data ∧
      (path = segment ↔ '/' ∉ path.data) := by
  have hne : stringsSplit path '/' ≠ [] := by
    unfold stringsSplit
    simpa using splitChars_ne_nil '/' path.data
  refine ⟨hne, ?_, by rfl, String.mk (lastChars '/' path.data), lastSegment_eq path,
    lastChars_not_mem '/' path.data, lastChars_suffix '/' path.data, ?_⟩
  · have : 0 < (stringsSplit path '/').length := List.length_pos.2 hne
    omega
  · rw [← lastChars_eq_self_iff '/' path.data]
    constructor
    · intro h
      have := congrArg String.data h
      exact this.symm
    · intro h
      exact String.ext h.symm

/-! ## The results `convertResourceData` returns -/

/-- Whatever `convertResourceData` returns is an error with no block or a
block with no error; when the body cannot be decoded it returns the decode
error with no block; when the schema coercion of the derived map fails it
returns that error with no block. It fails to return only when the decoded
body makes the derivation read through a nil pointer. -/
theorem convertResourceData_no_partial_record {σ : Type} (common : Common σ)
    (c : ContainerClusterConverter σ) (asset : Option Asset) :
    (∀ block err, convertResourceData common c asset = Except.ok (block, err) →
      (block = none ∧ err.isSome = true) ∨ (block.isSome = true ∧ err = none)) ∧
    (∀ fault, convertResourceData common c asset = Except.error fault →
      ∃ record resource data cluster, asset = some record ∧
        record.Resource = some resource ∧ resource.Data = some data ∧
        common.DecodeJSON data = Except.ok cluster ∧ derefsNil cluster = true) ∧
    (∀ record resource data err, asset = some record →
      record.Resource = some resource → resource.Data = some data →
      common.DecodeJSON data = Except.error err →
      convertResourceData common c asset = Except.ok (none, some err)) ∧
    (∀ record resource data cluster hclData err, asset = some record →
      record.Resource = some resource → resource.Data = some data →
      common.DecodeJSON data = Except.ok cluster →
      deriveHclData common.ParseFieldValue record.Name cluster = Except.ok hclData →
      common.MapToCtyValWithSchema hclData c.schema = Except.error err →
      convertResourceData common c asset = Except.ok (none, some err)) := by
  refine ⟨?_, ?_, ?_, ?_⟩
  · intro block err h
    cases asset with
    | none =>
      simp only [convertResourceData, Except.ok.injEq, Prod.mk.injEq] at h
      obtain ⟨rfl, rfl⟩ := h
      exact Or.inl ⟨rfl, rfl⟩
    | some record =>
      cases hr : record.Resource with
      | none =>
        simp only [convertResourceData, hr, Except.ok.injEq, Prod.mk.injEq] at h
        obtain ⟨rfl, rfl⟩ := h
        exact Or.inl ⟨rfl, rfl⟩
      | some resource =>
        cases hd : resource.Data with
        | none =>
          simp only [convertResourceData, hr, hd, Except.ok.injEq, Prod.mk.injEq] at h
          obtain ⟨rfl, rfl⟩ := h
          exact Or.inl ⟨rfl, rfl⟩
        | some data =>
          rw [convertResourceData_of_data common c record resource data hr hd] at h
          split at h
          · simp only [Except.ok.injEq, Prod.mk.injEq] at h
            obtain ⟨rfl, rfl⟩ := h
            exact Or.inl ⟨rfl, rfl⟩
          · split at h
            · exact absurd h (by simp)
            · split at h
              · simp only [Except.ok.injEq, Prod.mk.injEq] at h
                obtain ⟨rfl, rfl⟩ := h
                exact Or.inl ⟨rfl, rfl⟩
              · simp only [Except.ok.injEq, Prod.mk.injEq] at h
                obtain ⟨rfl, rfl⟩ := h
                exact Or.inr ⟨rfl, rfl⟩
  · intro fault h
    cases asset with
    | none => simp [convertResourceData] at h
    | some record =>
      cases hr : record.Resource with
      | none => simp [convertResourceData, hr] at h
      | some resource =>
        cases hd : resource.Data with
        | none => simp [convertResourceData, hr, hd] at h
        | some data =>
          rw [convertResourceData_of_data common c record resource data hr hd] at h
          cases hdec : common.DecodeJSON data with
          | error err => simp [hdec] at h
          | ok cluster =>
            refine ⟨record, resource, data, cluster, rfl, hr, hd, hdec, ?_⟩
            cases hsafe : derefsNil cluster with
            | true => rfl
            | false =>
              exfalso
              have hm := (deriveHclData_ok_iff common.ParseFieldValue record.Name cluster
                (hclDataOf common.ParseFieldValue record.Name cluster)).2 ⟨hsafe, rfl⟩
              simp only [hdec, hm] at h
              split at h <;> simp at h
  · intro record resource data err ha hr hd hdec
    subst ha
    rw [convertResourceData_of_data common c record resource data hr hd]
    simp only [hdec]
  · intro record resource data cluster hclData err ha hr hd hdec hm herr
    subst ha
    rw [convertResourceData_of_data common c record resource data hr hd]
    simp only [hdec, hm, herr]

/-- A record whose body does not decode and a record whose derived map the
schema coercion rejects: the error and no block in both cases. -/
theorem convertResourceData_no_partial_record_witness :
    convertResourceData standInCommon standInConverter (some malformedRecord) =
      Except.ok (none, some "error unmarshaling data") ∧
    convertResourceData zoneRejectingCommon standInConverter (some zonalBodyRecord) =
      Except.ok (none, some "unknown key zone") :=
  ⟨(convertResourceData_no_partial_record standInCommon standInConverter
      (some malformedRecord)).2.2.1 malformedRecord _ malformedData
      "error unmarshaling data" rfl rfl rfl rfl,
   (convertResourceData_no_partial_record zoneRejectingCommon standInConverter
      (some zonalBodyRecord)).2.2.2 zonalBodyRecord _ clusterData { Name := "my-cluster" }
      (hclDataOf ParseFieldValue zonalName { Name := "my-cluster" })
      "unknown key zone" rfl rfl rfl rfl
      ((deriveHclData_ok_iff ParseFieldValue zonalName { Name := "my-cluster" } _).2
        ⟨rfl, rfl⟩)
      rfl⟩

/-! ## C14 -/

/-- C14 fails on the code. For the record `bodyRecord`, whose body decodes to
`recurringOnlyCluster`, `convertResourceData` returns neither an error with
no block nor a block with no error: the derivation panics at line 377 and
the function does not return. The same holds for every record whose decoded
body makes the derivation read through a nil pointer. -/
theorem convertResourceData_panics_without_result :
    convertResourceData recurringOnlyCommon standInConverter (some bodyRecord) =
      Except.error Fault.nilDereference ∧
    (∀ block err, convertResourceData recurringOnlyCommon standInConverter
      (some bodyRecord) ≠ Except.ok (block, err)) ∧
    (∀ (common : Common Unit) (c : ContainerClusterConverter Unit) (record : Asset)
      (resource : AssetResource) (data : GoMap Json) (cluster : Cluster),
      record.Resource = some resource → resource.Data = some data →
      common.DecodeJSON data = Except.ok cluster → derefsNil cluster = true →
      convertResourceData common c (some record) = Except.error Fault.nilDereference) := by
  have e : convertResourceData recurringOnlyCommon standInConverter (some bodyRecord) =
      Except.error Fault.nilDereference := by rfl
  refine ⟨e, ?_, ?_⟩
  · intro block err h
    rw [e] at h
    exact absurd h (by simp)
  · intro common c record resource data cluster hr hd hdec hnil
    rw [convertResourceData_of_data common c record resource data hr hd]
    have hp := (deriveHclData_error_iff common.ParseFieldValue record.Name cluster
      Fault.nilDereference).2 ⟨hnil, rfl⟩
    simp only [hdec, hp]

/-! ## C16 -/

/-- C16 fails on the code: the derivation is not total. For the decoded body
`recurringOnlyCluster`, whose recurring window is present and whose inner
time window is absent, line 377 reads `RecurringWindow.Window.StartTime`
through the nil `Window`: the derivation panics, and so do
`convertResourceData` and `Convert` on every record whose body decodes to
it. -/
theorem recurring_window_nil_dereference :
    deriveHclData ParseFieldValue regionalName recurringOnlyCluster =
      Except.error Fault.nilDereference ∧
    convertResourceData recurringOnlyCommon standInConverter (some bodyRecord) =
      Except.error Fault.nilDereference ∧
    Convert recurringOnlyCommon standInConverter [some bodyRecord] =
      Except.error Fault.nilDereference ∧
    (∀ (P : String → String → String) (assetName : String) (cluster : Cluster),
      nilTimeWindow cluster = true →
      deriveHclData P assetName cluster = Except.error Fault.nilDereference) := by
  refine ⟨by rfl, by rfl, by rfl, ?_⟩
  intro P assetName cluster h
  rw [deriveHclData_error_iff]
  exact ⟨by simp [derefsNil, h], rfl⟩

/-! ## C12 -/

/-- C12 fails as stated. For the record `zonalName` with the all-zero body,
whose name, description and zone path are empty, the derived map contains
`name`, `description` and `zone`, each holding the empty string. For the
same record with body `emptyValuesCluster` the map also holds the empty
sequence under `node_locations` and the empty string under `network`. -/
theorem key_presence_counterexample :
    zeroCluster.Name = "" ∧ zeroCluster.Description = "" ∧ zeroCluster.Zone = "" ∧
    deriveHclData ParseFieldValue zonalName zeroCluster = Except.ok zeroHclData ∧
    GoMap.get zeroHclData "name" = some (Value.str "") ∧
    GoMap.get zeroHclData "description" = some (Value.str "") ∧
    GoMap.get zeroHclData "zone" = some (Value.str "") ∧
    deriveHclData ParseFieldValue zonalName emptyValuesCluster =
      Except.ok emptyValuesHclData ∧
    GoMap.get emptyValuesHclData "node_locations" = some (Value.strs []) ∧
    GoMap.get emptyValuesHclData "network" = some (Value.str "") :=
  ⟨rfl, rfl, rfl, by rfl, by rfl, by rfl, by rfl, by rfl, by rfl, by rfl⟩

/-- C12 as amended. Every key of the derived map other than `name`,
`description` and `zone` is present only if the source data it is derived
from is present and non-empty, and no key other than `name`, `description`,
`zone`, `node_locations`, `network` and `subnetwork` holds an empty string
or an empty sequence. `name` and `description` are always present and hold
the source string, empty or not; `zone` is present whenever the name's
`locations` segment and the body's location field are both empty and holds
the extracted `zones` segment, empty or not; `node_locations` is present
whenever the source location list is non-empty and holds the list without
the primary zone, empty or not. -/
theorem key_presence (P : String → String → String) (assetName : String)
    (cluster : Cluster) :
    (derefsNil cluster = false → ∃ m, deriveHclData P assetName cluster = Except.ok m) ∧
    ∀ m, deriveHclData P assetName cluster = Except.ok m →
      (∀ key, GoMap.has m key = true →
        key ≠ "name" → key ≠ "description" → key ≠ "zone" →
        sourcePresent P assetName cluster key = true) ∧
      (∀ key value, GoMap.get m key = some value →
        key ≠ "name" → key ≠ "description" → key ≠ "zone" →
        key ≠ "node_locations" → key ≠ "network" → key ≠ "subnetwork" →
        value.isEmpty = false) ∧
      GoMap.get m "name" = some (Value.str cluster.Name) ∧
      GoMap.get m "description" = some (Value.str cluster.Description) ∧
      (P assetName "locations" = "" → cluster.Location = "" →
        GoMap.get m "zone" = some (Value.str (P cluster.Zone "zones"))) ∧
      (cluster.Locations ≠ [] →
        GoMap.get m "node_locations" =
          some (Value.strs (filterOutPrimaryZone cluster.Locations cluster.Zone)) ∧
        ((∀ location ∈ cluster.Locations, location = cluster.Zone) →
          GoMap.get m "node_locations" = some (Value.strs []))) ∧
      (∀ pre : String, cluster.Network = pre ++ "/" →
        GoMap.get m "network" = some (Value.str "")) ∧
      (∀ pre : String, cluster.Subnetwork = pre ++ "/" →
        GoMap.get m "subnetwork" = some (Value.str "")) := by
  refine ⟨fun h => ⟨_, (deriveHclData_ok_iff P assetName cluster _).2 ⟨h, rfl⟩⟩, ?_⟩
  intro m hm
  obtain ⟨hsafe, rfl⟩ := (deriveHclData_ok_iff P assetName cluster m).1 hm
  refine ⟨?_, ?_, hclDataOf_name P assetName cluster hsafe,
    hclDataOf_description P assetName cluster hsafe, ?_, ?_, ?_, ?_⟩
  · intro key hkey h1 h2 h3
    obtain ⟨value, hv⟩ := Option.isSome_iff_exists.mp hkey
    exact (hclDataOf_origin P assetName cluster hsafe key value hv).sourcePresent h1 h2 h3
  · intro key value hv h1 h2 h3 h4 h5 h6
    exact (hclDataOf_origin P assetName cluster hsafe key value hv).not_isEmpty
      h1 h2 h3 h4 h5 h6
  · intro h1 h2
    rw [hclDataOf_zone P assetName cluster hsafe]
    simp [h1, h2]
  · intro h1
    rw [hclDataOf_nodeLocations P assetName cluster hsafe, if_pos (List.length_pos.2 h1)]
    refine ⟨rfl, fun hall => ?_⟩
    rw [filterOutPrimaryZone_all_primary _ _ hall]
  · intro pre hpre
    have hne : cluster.Network ≠ "" := by
      intro e
      have hd := congrArg String.data (hpre.symm.trans e)
      simp [String.data_append] at hd
    have hdata : cluster.Network.data = pre.data ++ ['/'] := by
      rw [hpre, String.data_append]
    rw [hclDataOf_network P assetName cluster hsafe, if_pos hne, hdata,
      lastChars_trailing_sep]
  · intro pre hpre
    have hne : cluster.Subnetwork ≠ "" := by
      intro e
      have hd := congrArg String.data (hpre.symm.trans e)
      simp [String.data_append] at hd
    have hdata : cluster.Subnetwork.data = pre.data ++ ['/'] := by
      rw [hpre, String.data_append]
    rw [hclDataOf_subnetwork P assetName cluster hsafe, if_pos hne, hdata,
      lastChars_trailing_sep]

/-- The amended C12 on a body with a network reference: the key `network` is
in the map and its source is non-empty; `name` and `description` are in the
map, the second holding the empty string. -/
theorem key_presence_witness :
    ∃ m, deriveHclData ParseFieldValue regionalName networkCluster = Except.ok m ∧
      GoMap.has m "network" = true ∧
      sourcePresent ParseFieldValue regionalName networkCluster "network" = true ∧
      GoMap.get m "name" = some (Value.str "my-cluster") ∧
      GoMap.get m "description" = some (Value.str "") :=
  have hm : deriveHclData ParseFieldValue regionalName networkCluster =
      Except.ok (hclDataOf ParseFieldValue regionalName networkCluster) :=
    (deriveHclData_ok_iff ParseFieldValue regionalName networkCluster _).2 ⟨rfl, rfl⟩
  have h := (key_presence ParseFieldValue regionalName networkCluster).2 _ hm
  ⟨_, hm, by rfl, h.1 "network" (by rfl) (by decide) (by decide) (by decide), h.2.2.1,
    h.2.2.2.1⟩

end Container
